import Mathlib

/-!
# Indexer monitor dashboard (EIS): polling, reconciliation and rendering

A shallow embedding of the browser-side scripts

* `static/indexer-monitor/js/app.js` (orchestrator),
* `static/indexer-monitor/js/uiUpdater.js` (presentation updater),
* `static/indexer-monitor/js/apiService.js` (transport adapter, only through
  the outcome of each request).

Modelling conventions.

* The page is a map from element ids to elements; `getElementById` is the map
  lookup, so a missing element behaves as in the scripts (the update is
  skipped).
* The module-level variables of `app.js` are the fields of `App`; timers
  created with `setInterval` live in `App.timers`.
* An `async` function is run to completion: the model of `fetchAllData` and of
  `fetchAndDisplaySpecificJobStatus` takes the outcome of every request it
  awaits as an argument.  A call of an `async` function that is not awaited is
  recorded in `App.log`; what the callee does before its first `await` is
  carried out at the call, the rest runs later, as its own step.
* Counters and timestamps are integers.  Sums and differences of integers are
  exact; a quotient, its product with 100, `Math.round` and `toFixed(2)` are
  computed on IEEE 754 doubles (`Double`: round to nearest, ties to even, with
  a significand of 53 bits; the exponent range is not modelled).
-/

namespace EIS

/-! ## JavaScript values -/

/-- A scalar JavaScript value: an (integer) number or a string. -/
inductive JsScalar where
  | num (n : Int)
  | str (s : String)
deriving DecidableEq, Repr

/-- JavaScript truthiness of a scalar: `0` and the empty string are falsy. -/
def JsScalar.truthy : JsScalar → Bool
  | .num n => decide (n ≠ 0)
  | .str s => decide (s ≠ "")

/-- The text `String(v)`. -/
def JsScalar.toText : JsScalar → String
  | .num n => toString n
  | .str s => s

/-- A job execution id: a number (from the JSON snapshots) or a string (from
the `data-execution-id` attribute of a history item). -/
abbrev JobId := JsScalar

/-- A timestamp of a snapshot as a JavaScript value that `new Date(..)` reads:
an ISO date string or a number of milliseconds since the epoch; `ms` is
`new Date(v).getTime()`. -/
inductive JsDate where
  | iso (ms : Int)
  | millis (ms : Int)
deriving DecidableEq, Repr

/-- JavaScript truthiness of a timestamp value: a date string is truthy, a
number is truthy unless it is `0`. -/
def JsDate.truthy : JsDate → Bool
  | .iso _ => true
  | .millis ms => decide (ms ≠ 0)

/-- The value of `new Date(v).getTime()`. -/
def JsDate.getTime : JsDate → Int
  | .iso ms => ms
  | .millis ms => ms

/-- The number of binary digits of `n`, by halving (`fuel` bounds the number of
steps). -/
def bitLengthAux : Nat → Nat → Nat
  | 0, _ => 0
  | fuel + 1, n => if n = 0 then 0 else bitLengthAux fuel (n / 2) + 1

/-- The number of binary digits of `n`: the least `l` with `n < 2 ^ l`. -/
def bitLength (n : Nat) : Nat := bitLengthAux n n

/-- The integer nearest to `a / b`; of two nearest integers, the even one. -/
def divRoundEven (a b : Nat) : Nat :=
  if 2 * (a % b) < b then a / b
  else if b < 2 * (a % b) then a / b + 1
  else if a / b % 2 = 0 then a / b
  else a / b + 1

/-- A non-negative finite IEEE 754 double, as the dyadic number
`num / 2 ^ scale`. -/
structure Double where
  num : Nat
  scale : Nat
deriving DecidableEq, Repr

/-- The double nearest to the quotient `a / b` of two natural numbers (ties to
even): the result of the JavaScript division `a / b` when `a` and `b` are
doubles.  The quotient is scaled by a power of two so that its integer part has
53 binary digits, and rounded there. -/
def Double.ofRatio (a b : Nat) : Double :=
  if a = 0 ∨ b = 0 then ⟨0, 0⟩
  else if bitLength a ≤ bitLength b + 53 then
    if a * 2 ^ (bitLength b + 53 - bitLength a) < 2 ^ 53 * b then
      ⟨divRoundEven (a * 2 ^ (bitLength b + 53 - bitLength a)) b, bitLength b + 53 - bitLength a⟩
    else if bitLength b + 53 - bitLength a = 0 then ⟨2 * divRoundEven a (2 * b), 0⟩
    else
      ⟨divRoundEven (a * 2 ^ (bitLength b + 53 - bitLength a - 1)) b,
        bitLength b + 53 - bitLength a - 1⟩
  else if a < 2 ^ 53 * (b * 2 ^ (bitLength a - bitLength b - 53)) then
    ⟨2 ^ (bitLength a - bitLength b - 53) *
      divRoundEven a (b * 2 ^ (bitLength a - bitLength b - 53)), 0⟩
  else
    ⟨2 ^ (bitLength a - bitLength b - 53 + 1) *
      divRoundEven a (b * 2 ^ (bitLength a - bitLength b - 53 + 1)), 0⟩

/-- The JavaScript product `x * c` of a double and a natural number that is a
double: the double nearest to the exact product. -/
def Double.mulNat (x : Double) (c : Nat) : Double := Double.ofRatio (x.num * c) (2 ^ x.scale)

/-- Models `Math.round(x)` on a non-negative double: `floor(x + 1/2)`, computed
exactly. -/
def Double.round (x : Double) : Nat := (2 * x.num + 2 ^ x.scale) / 2 ^ (x.scale + 1)

/-- The integer `n` that `x.toFixed(2)` prints as `n / 100`, for a non-negative
double `x`: the `n` for which `n / 100 - x` is closest to zero, the larger one
when there are two (the comparison is exact). -/
def Double.hundredths (x : Double) : Nat := (200 * x.num + 2 ^ x.scale) / 2 ^ (x.scale + 1)

/-- The value a call site works with after `.catch(handleApiError(..))`, or the
argument of a rendering function: `null`, a JSON payload, or the tagged value
`{error: true, message, source}`. -/
inductive Fetched (α : Type) where
  | null
  | value (a : α)
  | errorTag (message : String) (source : String)
deriving DecidableEq, Repr

/-- Truthiness of a fetched value: only `null` is falsy. -/
def Fetched.truthy {α : Type} : Fetched α → Bool
  | .null => false
  | _ => true

/-- The field `.error` of a fetched value, as a boolean: `true` on the tagged
value, the truthiness of the property `error` of a payload (which
`payloadError` reads), and `false` on `null`, where the scripts do not read
it. -/
def Fetched.error {α : Type} (payloadError : α → Bool) : Fetched α → Bool
  | .errorTag _ _ => true
  | .value a => payloadError a
  | .null => false

/-- How a request promise settles: resolved with JSON data (`none` is the
`null` of an HTTP 204 or of a short-circuited call) or rejected with an error
whose `message` is given (empty when the error has none). -/
inductive Outcome (α : Type) where
  | resolved (data : Option α)
  | rejected (message : String)
deriving DecidableEq, Repr

/-- The locale-dependent renderings used by the scripts. -/
structure Locale where
  /-- Models `new Date(ms).toLocaleString()`. -/
  toLocaleString : Int → String
  /-- Models `new Date().toLocaleTimeString()` at the time of the call. -/
  nowTimeString : String

/-! ## Data model -/

/-- One step execution of a job snapshot. -/
structure StepExecution where
  readCount : Nat
  writeCount : Nat
  writeSkipCount : Nat
  processSkipCount : Nat
deriving DecidableEq, Repr

/-- A job execution snapshot as delivered by the backend: an object with these
five properties. -/
structure JobExecution where
  jobExecutionId : JobId
  status : String
  startTime : Option JsDate
  endTime : Option JsDate
  stepExecutions : List StepExecution
deriving DecidableEq, Repr

/-- The truthiness of the property `error` of a job snapshot: a snapshot has the
five properties of `JobExecution` and no property `error`, so the read gives
`undefined`. -/
def JobExecution.error (_ : JobExecution) : Bool := false

/-- The statuses after which a job makes no further progress, as listed in
`['COMPLETED', 'FAILED', 'STOPPED']`. -/
def terminalStatuses : List String := ["COMPLETED", "FAILED", "STOPPED"]

/-- Models `['COMPLETED', 'FAILED', 'STOPPED'].includes(status)`. -/
def isTerminal (status : String) : Bool := terminalStatuses.contains status

/-! ## The page -/

/-- One `<li>` of the job history list. -/
structure HistoryItem where
  className : String
  textContent : String
  title : String
  dataExecutionId : String
deriving DecidableEq, Repr

/-- A child node of an element: another element of the page (by id), a `<ul>`
built by `updateBatchJobHistory`, or any other node. -/
inductive ChildNode where
  | ref (id : String)
  | ul (className : String) (items : List HistoryItem)
  | other
deriving DecidableEq, Repr

/-- The properties of a page element that the scripts read or write. -/
structure Element where
  textContent : String
  classList : List String
  disabled : Bool
  styleWidth : String
  children : List ChildNode
deriving DecidableEq, Repr

/-- The document: `getElementById` is function application. -/
abbrev Dom := String → Option Element

/-- Replaces the element stored under `id`. -/
def Dom.set (d : Dom) (id : String) (e : Element) : Dom :=
  fun k => if k = id then some e else d k

/-- Models `classList.add`. -/
def classListAdd (cl : List String) (c : String) : List String :=
  if cl.contains c then cl else cl ++ [c]

/-- Models `classList.remove`. -/
def classListRemove (cl : List String) (c : String) : List String :=
  cl.filter (fun x => x != c)

/-! ## uiUpdater.js -/

/-- Models `uiUpdater.updateText(elementId, text)`; `none` is a `null` or
`undefined` text, rendered as the default value `'-'`. -/
def updateText (d : Dom) (elementId : String) (text : Option String) : Dom :=
  match d elementId with
  | some element =>
    d.set elementId { element with textContent := match text with
                                                   | some t => t
                                                   | none => "-" }
  | none => d

/-- The upper-case form of one code point under `toUpperCase`, for the code
points whose upper-case form consists of ASCII characters: the ASCII characters
themselves (a letter `a`..`z` gives `A`..`Z`), the dotless i (U+0131, `I`), the
long s (U+017F, `S`), the sharp s (U+00DF, `SS`) and the ligatures U+FB00 to
U+FB06 (`FF`, `FI`, `FL`, `FFI`, `FFL`, `ST`, `ST`).  Every other code point is
left as it is: JavaScript maps it to a sequence that contains a code point
outside ASCII as well. -/
def upperChar (c : Char) : List Char :=
  if c = Char.ofNat 0x131 then ['I']
  else if c = Char.ofNat 0x17F then ['S']
  else if c = Char.ofNat 0xDF then ['S', 'S']
  else if c = Char.ofNat 0xFB00 then ['F', 'F']
  else if c = Char.ofNat 0xFB01 then ['F', 'I']
  else if c = Char.ofNat 0xFB02 then ['F', 'L']
  else if c = Char.ofNat 0xFB03 then ['F', 'F', 'I']
  else if c = Char.ofNat 0xFB04 then ['F', 'F', 'L']
  else if c = Char.ofNat 0xFB05 then ['S', 'T']
  else if c = Char.ofNat 0xFB06 then ['S', 'T']
  else [c.toUpper]

/-- The code points outside ASCII whose upper-case form consists of ASCII
characters. -/
def asciiUpperCodePoints : List Char :=
  [Char.ofNat 0x131, Char.ofNat 0x17F, Char.ofNat 0xDF, Char.ofNat 0xFB00, Char.ofNat 0xFB01,
   Char.ofNat 0xFB02, Char.ofNat 0xFB03, Char.ofNat 0xFB04, Char.ofNat 0xFB05, Char.ofNat 0xFB06]

/-- Models `String(status).toUpperCase()`, code point by code point.  The result
is the JavaScript result whenever that consists of ASCII characters, and it
contains a code point outside ASCII whenever the JavaScript result does; so it
is equal to a keyword of the `switch` exactly when the JavaScript result is. -/
def jsToUpperCase (s : String) : String := String.mk (s.toList.flatMap upperChar)

/-- The characters of a string with the ASCII letters lower-cased; two strings
differ only in letter case when they agree on these. -/
def lowerChars (s : String) : List Char := s.toList.map Char.toLower

/-- The class added by the `switch` of `updateStatusIndicator`. -/
def severityClass (status : String) : String :=
  let u := jsToUpperCase status
  if u = "UP" ∨ u = "GREEN" ∨ u = "CONNECTED" then "status-up"
  else if u = "DOWN" ∨ u = "RED" ∨ u = "DISCONNECTED" then "status-down"
  else if u = "WARN" ∨ u = "YELLOW" ∨ u = "DEGRADED" then "status-warn"
  else "status-unknown"

/-- Models `uiUpdater.updateStatusIndicator(elementId, status)`. -/
def updateStatusIndicator (d : Dom) (elementId : String) (status : String) : Dom :=
  match d elementId with
  | some element =>
    d.set elementId { element with
      classList := classListAdd ["status-indicator"] (severityClass status) }
  | none => d

/-- Models `x || 0` on a non-negative counter. -/
def orZero (x : Nat) : Nat := if x ≠ 0 then x else 0

/-- The four counters derived from the first step execution:
`(filesScanned, filesProcessed, successfullyIndexed, failedToIndex)`. -/
def jobCounters (job : JobExecution) : Nat × Nat × Nat × Nat :=
  match job.stepExecutions with
  | stepExec :: _ =>
    (orZero stepExec.readCount,
     orZero stepExec.writeCount + orZero stepExec.writeSkipCount,
     orZero stepExec.writeCount,
     orZero stepExec.processSkipCount + orZero stepExec.writeSkipCount)
  | [] => (0, 0, 0, 0)

/-- Models `Math.round((filesProcessed / filesScanned) * 100)`: the quotient and
the product are rounded to doubles, and `Math.round` is applied to the rounded
product. -/
def roundPercent (filesProcessed filesScanned : Nat) : Nat :=
  ((Double.ofRatio filesProcessed filesScanned).mulNat 100).round

/-- The value of `progress` computed for the progress bar. -/
def jobProgress (status : String) (filesScanned filesProcessed : Nat) : Nat :=
  if status = "COMPLETED" ∨ status = "FAILED" ∨ status = "STOPPED" then 100
  else if status = "STARTED" ∨ status = "STARTING" then
    if filesScanned > 0 ∧ filesProcessed ≤ filesScanned then
      min 100 (roundPercent filesProcessed filesScanned)
    else if filesScanned = 0 ∧ filesProcessed > 0 then 5
    else 0
  else 0

/-- Two decimal digits. -/
def pad2 (n : Nat) : String := if n < 10 then "0" ++ toString n else toString n

/-- Models `(diff / 1000).toFixed(2)` for an integer number of milliseconds:
the quotient is rounded to a double, and `toFixed` prints the hundredth nearest
to that double (after the sign, for a negative quotient). -/
def secondsToFixed2 (diff : Int) : String :=
  let n := (Double.ofRatio diff.natAbs 1000).hundredths
  (if diff < 0 then "-" else "") ++ toString (n / 100) ++ "." ++ pad2 (n % 100)

/-- The text of the duration slot. -/
def jobDuration (job : JobExecution) : String :=
  match job.startTime, job.endTime with
  | some t0, some t1 =>
    if t0.truthy && t1.truthy then secondsToFixed2 (t1.getTime - t0.getTime) ++ " 秒" else "-"
  | _, _ => "-"

/-- The text of a start or end time slot. -/
def jobTimeText (loc : Locale) (t : Option JsDate) (absent : String) : String :=
  match t with
  | some v => if v.truthy then loc.toLocaleString v.getTime else absent
  | none => absent

/-- The slots reset by the `else` branch of `updateBatchJobStatusDisplay`. -/
def resetSlots : List String :=
  ["batchLastRunId", "batchLastRunStartTime", "batchLastRunEndTime", "batchLastRunDuration",
   "batchFilesScanned", "batchFilesProcessed", "batchSuccessfullyIndexed", "batchFailedToIndex"]

/-- The progress bar update `progressBar.style.width = progressBar.textContent =
progress + '%'`, skipped when the page has no progress bar. -/
def setProgressBar (d : Dom) (progress : Nat) : Dom :=
  match d "batchJobProgress" with
  | some progressBar =>
    d.set "batchJobProgress" { progressBar with
      styleWidth := toString progress ++ "%", textContent := toString progress ++ "%" }
  | none => d

/-- The assignment `element.disabled = flag` guarded by `if (element)`. -/
def setDisabled (d : Dom) (elementId : String) (flag : Bool) : Dom :=
  match d elementId with
  | some element => d.set elementId { element with disabled := flag }
  | none => d

/-- Models `uiUpdater.updateBatchJobStatusDisplay(jobExecutionData)`.  The first
branch is taken when `jobExecutionData && !jobExecutionData.error`, that is, on
every snapshot (`JobExecution.error`). -/
def updateBatchJobStatusDisplay (loc : Locale) (d : Dom)
    (jobExecutionData : Fetched JobExecution) : Dom :=
  match jobExecutionData with
  | .value job =>
    let d := updateText d "batchJobStatus" (some job.status)
    let d := updateText d "batchLastRunId" (some job.jobExecutionId.toText)
    let d := updateText d "batchLastRunStartTime" (some (jobTimeText loc job.startTime "-"))
    let d := updateText d "batchLastRunEndTime" (some (jobTimeText loc job.endTime "-"))
    let d := updateText d "batchLastRunDuration" (some (jobDuration job))
    let (filesScanned, filesProcessed, successfullyIndexed, failedToIndex) := jobCounters job
    let d := updateText d "batchFilesScanned" (some (toString filesScanned))
    let d := updateText d "batchFilesProcessed" (some (toString filesProcessed))
    let d := updateText d "batchSuccessfullyIndexed" (some (toString successfullyIndexed))
    let d := updateText d "batchFailedToIndex" (some (toString failedToIndex))
    let d := setProgressBar d (jobProgress job.status filesScanned filesProcessed)
    setDisabled d "startBatchJobButton" (decide (job.status = "STARTING" ∨ job.status = "STARTED"))
  | other =>
    let d := updateText d "batchJobStatus"
      (some (if other.error JobExecution.error then "获取失败" else "IDLE"))
    let d := resetSlots.foldl (fun acc id => updateText acc id (some "-")) d
    let d := setProgressBar d 0
    setDisabled d "startBatchJobButton" false

/-- A status field read as `data && data.status`: present and non-empty. -/
def truthyText : Option String → Option String
  | some s => if s ≠ "" then some s else none
  | none => none

/-- The payload of the two health endpoints: the property `status` (`none` when
it is missing) and the truthiness of the property `error` (`false` when it is
missing). -/
structure HealthData where
  status : Option String
  error : Bool
deriving DecidableEq, Repr

/-- One assigned partition of a consumer group. -/
structure PartitionLag where
  topic : String
  partition : Int
  lag : Int
deriving DecidableEq, Repr

/-- The value stored under a key of the lag map: a falsy value (`null`, `0`,
`""`, `false`), or a truthy value, whose `partitions` is `none` when the
property is missing or is not an array. -/
inductive GroupInfo where
  | falsy
  | group (partitions : Option (List PartitionLag))
deriving DecidableEq, Repr

/-- JavaScript truthiness of a value of the lag map. -/
def GroupInfo.truthy : GroupInfo → Bool
  | .falsy => false
  | .group _ => true

/-- The array `groupInfo.partitions` of a value of the lag map, when
`groupInfo && groupInfo.partitions && Array.isArray(groupInfo.partitions)`. -/
def GroupInfo.partitions : GroupInfo → Option (List PartitionLag)
  | .falsy => none
  | .group partitions => partitions

/-- The consumer-lag map, as the key/value pairs that `for .. in` visits, in
that order (keys distinct). -/
abbrev LagData := List (String × GroupInfo)

/-- The truthiness of `lagData.error` on a lag map: that of the value stored
under the key `error`, when there is one. -/
def lagDataError (lagData : LagData) : Bool :=
  match lagData.lookup "error" with
  | some v => v.truthy
  | none => false

/-- The payload of the index-stats endpoint; `error` is the truthiness of the
property `error` (`false` when it is missing), the other properties are `none`
when they are missing or `null`. -/
structure IndexStats where
  health : Option String
  documentCount : Option Int
  primaryStoreSize : Option JsScalar
  storeSize : Option JsScalar
  error : Bool
  message : Option JsScalar
deriving DecidableEq, Repr

/-- The dead-letter summary: scalar properties by key (keys distinct). -/
abbrev DlqSummary := List (String × JsScalar)

/-- The truthiness of `dlqSummaryData.error` on a summary: that of the value
stored under the key `error`, when there is one. -/
def dlqSummaryError (data : DlqSummary) : Bool :=
  match data.lookup "error" with
  | some v => v.truthy
  | none => false

/-- The object `TOPIC_NAMES` handed to the rendering functions. -/
structure TopicNames where
  upsertTopicName : String
  deleteTopicName : String
  upsertDlqTopicName : String
  deleteDlqTopicName : String
deriving DecidableEq, Repr

/-- Models `uiUpdater.updateServiceOverview(healthData, esHealthData, kafkaLagData)`. -/
def updateServiceOverview (loc : Locale) (d : Dom) (healthData : Fetched HealthData)
    (esHealthData : Fetched HealthData) (kafkaLagData : Fetched LagData) : Dom :=
  let statusOf : Fetched HealthData → Option String := fun h =>
    match h with
    | .value v => truthyText v.status
    | _ => none
  let d := match statusOf healthData with
    | some st =>
      updateStatusIndicator (updateText d "indexerStatus" (some st)) "indexerStatusIndicator" st
    | none =>
      updateStatusIndicator (updateText d "indexerStatus" (some "获取失败"))
        "indexerStatusIndicator" "UNKNOWN"
  let d := match statusOf esHealthData with
    | some st =>
      updateStatusIndicator (updateText d "esConnectionStatus" (some st)) "esConnectionIndicator" st
    | none =>
      if esHealthData.truthy && esHealthData.error HealthData.error then
        updateStatusIndicator (updateText d "esConnectionStatus" (some "连接失败"))
          "esConnectionIndicator" "DOWN"
      else
        updateStatusIndicator (updateText d "esConnectionStatus" (some "未知"))
          "esConnectionIndicator" "UNKNOWN"
  let d :=
    if kafkaLagData.truthy && !kafkaLagData.error lagDataError then
      updateStatusIndicator (updateText d "kafkaConnectionStatus" (some "已连接"))
        "kafkaConnectionIndicator" "UP"
    else if kafkaLagData.truthy && kafkaLagData.error lagDataError then
      updateStatusIndicator (updateText d "kafkaConnectionStatus" (some "连接失败"))
        "kafkaConnectionIndicator" "DOWN"
    else
      updateStatusIndicator (updateText d "kafkaConnectionStatus" (some "未知"))
        "kafkaConnectionIndicator" "UNKNOWN"
  updateText d "lastDataUpdate" (some loc.nowTimeString)

/-- Models `str.replace(pat, '')` on character lists, for a non-empty `pat`:
the first occurrence is removed. -/
def removeFirst (pat : List Char) : List Char → List Char
  | [] => []
  | c :: cs =>
    if (c :: cs).take pat.length = pat then (c :: cs).drop pat.length
    else c :: removeFirst pat cs

/-- Models `xs.join(', ') || '无'`. -/
def joinOrNone (xs : List String) : String :=
  let s := ", ".intercalate xs
  if s ≠ "" then s else "无"

/-- The four texts shown for one topic of the consumer panel. -/
structure TopicStats where
  groupId : String
  assignedPartitions : String
  totalLag : String
  lagPerPartition : String
deriving DecidableEq, Repr

/-- The value of `currentGroupTotalLag` after the `forEach` over the partitions. -/
def groupTotalLag (ps : List PartitionLag) : Int :=
  ps.foldl (fun acc p => if p.lag > 0 then acc + p.lag else acc) 0

/-- One iteration of the `for .. in` loop of `updateKafkaConsumerStats`, on the
pair of (upsert, delete) texts. -/
def kafkaGroupStep (upsertTopic deleteTopic : String) (acc : TopicStats × TopicStats)
    (entry : String × GroupInfo) : TopicStats × TopicStats :=
  match entry.2.partitions with
  | some ps =>
    let currentGroupTotalLag := groupTotalLag ps
    let partitionLags := ps.map (fun p => "P" ++ toString p.partition ++ ": " ++ toString p.lag)
    let assignedPartitionsForGroup := ps.map (fun p => toString p.partition)
    let isUpsertGroup := ps.any (fun p => decide (p.topic = upsertTopic))
    let isDeleteGroup := ps.any (fun p => decide (p.topic = deleteTopic))
    let groupIdDisplay := String.mk (removeFirst "group_".toList entry.1.toList)
    let stats : TopicStats :=
      { groupId := groupIdDisplay
        assignedPartitions := joinOrNone assignedPartitionsForGroup
        totalLag := toString currentGroupTotalLag
        lagPerPartition := joinOrNone partitionLags }
    (if isUpsertGroup then stats else acc.1, if isDeleteGroup then stats else acc.2)
  | none => acc

/-- The texts of the upsert and of the delete panel after the `for .. in` loop
of `updateKafkaConsumerStats`.  The loop runs when `lagData &&
typeof lagData === 'object' && Object.keys(lagData).length > 0 &&
!lagData.error`; all texts are `'-'` when the lag data is `null`, empty,
error-tagged or a map with a truthy value under the key `error`. -/
def kafkaTopicStats (lagData : Fetched LagData) (upsertTopic deleteTopic : String) :
    TopicStats × TopicStats :=
  let dash : TopicStats := ⟨"-", "-", "-", "-"⟩
  match lagData with
  | .value groups =>
    if groups.length > 0 ∧ lagDataError groups = false then
      groups.foldl (kafkaGroupStep upsertTopic deleteTopic) (dash, dash)
    else (dash, dash)
  | _ => (dash, dash)

/-- Models `uiUpdater.updateKafkaConsumerStats(lagData, topicNames)`. -/
def updateKafkaConsumerStats (d : Dom) (lagData : Fetched LagData) (topicNames : TopicNames) :
    Dom :=
  let upsertTopic := topicNames.upsertTopicName
  let deleteTopic := topicNames.deleteTopicName
  let d := updateText d "kafkaUpsertTopicName" (some upsertTopic)
  let d := updateText d "kafkaDeleteTopicName" (some deleteTopic)
  let (upsert, delete) := kafkaTopicStats lagData upsertTopic deleteTopic
  let d := updateText d "kafkaUpsertGroupId" (some upsert.groupId)
  let d := updateText d "kafkaUpsertAssignedPartitions" (some upsert.assignedPartitions)
  let d := updateText d "kafkaUpsertTotalLag" (some upsert.totalLag)
  let d := updateText d "kafkaUpsertLagPerPartition" (some upsert.lagPerPartition)
  let d := updateText d "kafkaDeleteGroupId" (some delete.groupId)
  let d := updateText d "kafkaDeleteAssignedPartitions" (some delete.assignedPartitions)
  let d := updateText d "kafkaDeleteTotalLag" (some delete.totalLag)
  updateText d "kafkaDeleteLagPerPartition" (some delete.lagPerPartition)

/-- Models `a || b` on two optional scalars. -/
def scalarOr (a b : Option JsScalar) : Option JsScalar :=
  match a with
  | some v => if v.truthy then some v else b
  | none => b

/-- The message `(indexStatsData && indexStatsData.message) ?
indexStatsData.message : '获取失败'` shown by the `else` branch of
`updateElasticsearchIndexStats`. -/
def indexStatsErrorMsg : Fetched IndexStats → String
  | .errorTag message _ => if message ≠ "" then message else "获取失败"
  | .value stats =>
    match stats.message with
    | some m => if m.truthy then m.toText else "获取失败"
    | none => "获取失败"
  | .null => "获取失败"

/-- The `else` branch of `updateElasticsearchIndexStats`, after the index name
was written. -/
def showIndexStatsFailure (d : Dom) (errorMsg : String) : Dom :=
  let d := updateText d "esIndexStatus" (some errorMsg)
  let d := updateStatusIndicator d "esIndexStatusIndicator" "UNKNOWN"
  let d := updateText d "esTotalDocs" (some "-")
  let d := updateText d "esIndexSizePrimary" (some "-")
  updateText d "esIndexSizeTotal" (some "-")

/-- Models `uiUpdater.updateElasticsearchIndexStats(indexStatsData, indexName)`;
the first branch is taken when `indexStatsData && !indexStatsData.error`. -/
def updateElasticsearchIndexStats (d : Dom) (indexStatsData : Fetched IndexStats)
    (indexName : String) : Dom :=
  let d := updateText d "esIndexName" (some indexName)
  match indexStatsData with
  | .value stats =>
    if stats.error then showIndexStatsFailure d (indexStatsErrorMsg (.value stats))
    else
      let d := updateText d "esIndexStatus" (some ((truthyText stats.health).getD "未知"))
      let d := updateStatusIndicator d "esIndexStatusIndicator"
        ((truthyText stats.health).getD "UNKNOWN")
      let d := updateText d "esTotalDocs" (stats.documentCount.map toString)
      let d := updateText d "esIndexSizePrimary"
        ((scalarOr stats.primaryStoreSize stats.storeSize).map JsScalar.toText)
      updateText d "esIndexSizeTotal" (stats.storeSize.map JsScalar.toText)
  | other => showIndexStatsFailure d (indexStatsErrorMsg other)

/-- Models `dlqSummaryData[topic + '_message_count_approx'] || 0`. -/
def dlqCount (data : DlqSummary) (topic : String) : JsScalar :=
  match data.lookup (topic ++ "_message_count_approx") with
  | some v => if v.truthy then v else .num 0
  | none => .num 0

/-- Models `uiUpdater.updateDlqSummary(dlqSummaryData, topicNames)`; the counts
are shown when `dlqSummaryData && !dlqSummaryData.error`. -/
def updateDlqSummary (d : Dom) (dlqSummaryData : Fetched DlqSummary) (topicNames : TopicNames) :
    Dom :=
  let d := updateText d "dlqUpsertTopicName" (some topicNames.upsertDlqTopicName)
  let d := updateText d "dlqDeleteTopicName" (some topicNames.deleteDlqTopicName)
  match dlqSummaryData with
  | .value data =>
    if dlqSummaryError data then
      let d := updateText d "dlqUpsertCount" (some "获取失败")
      updateText d "dlqDeleteCount" (some "获取失败")
    else
      let d := updateText d "dlqUpsertCount"
        (some (dlqCount data topicNames.upsertDlqTopicName).toText)
      updateText d "dlqDeleteCount" (some (dlqCount data topicNames.deleteDlqTopicName).toText)
  | _ =>
    let d := updateText d "dlqUpsertCount" (some "获取失败")
    updateText d "dlqDeleteCount" (some "获取失败")

/-- The `<li>` built for one job execution. -/
def historyItem (loc : Locale) (exec : JobExecution) : HistoryItem :=
  { className := "p-1 border-b border-gray-200 hover:bg-gray-100 cursor-pointer"
    textContent := "ID: " ++ exec.jobExecutionId.toText ++ ", Status: " ++ exec.status ++
      ", Start: " ++ jobTimeText loc exec.startTime "N/A" ++
      ", End: " ++ jobTimeText loc exec.endTime "N/A"
    title := "点击查看详情 (JobExecutionId: " ++ exec.jobExecutionId.toText ++ ")"
    dataExecutionId := exec.jobExecutionId.toText }

/-- The loop `while (container.firstChild && container.firstChild !== messageElement)
container.removeChild(container.firstChild)`. -/
def clearOldList (children : List ChildNode) : List ChildNode :=
  children.dropWhile (fun c => c != ChildNode.ref "batchJobHistoryMessage")

/-- Models `uiUpdater.updateBatchJobHistory(jobExecutions)`: the page after the
call and, when the call throws, the error (a `TypeError`, raised after the
message element was hidden and the old list cleared). -/
def updateBatchJobHistory (loc : Locale) (d : Dom) (jobExecutions : Fetched (List JobExecution)) :
    Dom × Option String :=
  match d "batchJobHistoryContainer", d "batchJobHistoryMessage" with
  | some container, some messageElement =>
    let showEmpty : Dom :=
      let d := d.set "batchJobHistoryMessage" { messageElement with
        textContent := "没有可用的作业执行历史。"
        classList := classListRemove messageElement.classList "hidden" }
      d.set "batchJobHistoryContainer" { container with children := clearOldList container.children }
    let hidden : Dom :=
      let d := d.set "batchJobHistoryMessage" { messageElement with
        classList := classListAdd messageElement.classList "hidden" }
      d.set "batchJobHistoryContainer" { container with children := clearOldList container.children }
    match jobExecutions with
    | .null => (showEmpty, none)
    | .value [] => (showEmpty, none)
    | .value jobs =>
      (hidden.set "batchJobHistoryContainer" { container with
        children := clearOldList container.children ++
          [ChildNode.ul "space-y-1" (jobs.map (historyItem loc))] }, none)
    | .errorTag _ _ => (hidden, some "TypeError: jobExecutions.forEach is not a function")
  | _, _ => (d, none)

/-! ## app.js -/

/-- The constant `ES_INDEX_NAME`. -/
def ES_INDEX_NAME : String := "dms_files"

/-- The constant `TOPIC_NAMES`. -/
def TOPIC_NAMES : TopicNames :=
  { upsertTopicName := "dms-file-upsert-events"
    deleteTopicName := "dms-file-delete-events"
    upsertDlqTopicName := "dms-file-upsert-events-dlq"
    deleteDlqTopicName := "dms-file-delete-events-dlq" }

/-- A call made by the orchestrator that is observable from outside: a
notification, a rendering call of the job panels, the start of an un-awaited
`fetchAndDisplaySpecificJobStatus` or of an un-awaited `fetchAllData`. -/
inductive Effect where
  | notification (message : String) (type : String)
  | historyRendered (jobExecutions : Fetched (List JobExecution))
  | jobDisplayed (jobExecutionData : Fetched JobExecution)
  | specificFetch (jobExecutionId : JobId)
  | uncaught (error : String)
  | refresh
deriving DecidableEq, Repr

/-- The module-level variables of `app.js` together with the page, the live
interval timers `(handle, period)` and the log of observable calls.
`currentRefreshInterval` is `none` when it holds `NaN`. -/
structure App where
  autoRefreshIntervalId : Option Nat
  currentRefreshInterval : Option Int
  isAutoRefreshEnabled : Bool
  currentJobExecutionIdForPolling : Option JobId
  dom : Dom
  timers : List (Nat × Int)
  timersCreated : Nat
  log : List Effect

/-- The state after the script is loaded: the initial values of the four
variables, no timer, nothing logged. -/
def App.initial (dom : Dom) : App :=
  { autoRefreshIntervalId := none
    currentRefreshInterval := some 30000
    isAutoRefreshEnabled := false
    currentJobExecutionIdForPolling := none
    dom := dom
    timers := []
    timersCreated := 0
    log := [] }

/-- Models `setInterval(fetchAllData, period)`: a new live timer under a fresh
positive handle, which is returned. -/
def setInterval (a : App) (period : Int) : Nat × App :=
  let handle := a.timersCreated + 1
  (handle, { a with timers := a.timers ++ [(handle, period)], timersCreated := handle })

/-- Models `clearInterval(handle)`. -/
def clearInterval (a : App) (handle : Nat) : App :=
  { a with timers := a.timers.filter (fun t => t.1 != handle) }

/-- Truthiness of `autoRefreshIntervalId` (`null` and `0` are falsy). -/
def timerIdTruthy : Option Nat → Bool
  | some h => decide (h ≠ 0)
  | none => false

/-- Models `startAutoRefresh()`. -/
def startAutoRefresh (a : App) : App :=
  let a := match a.autoRefreshIntervalId with
    | some h => if timerIdTruthy (some h) then clearInterval a h else a
    | none => a
  match a.currentRefreshInterval with
  | some interval =>
    if a.isAutoRefreshEnabled ∧ interval > 0 then
      let (handle, a) := setInterval a interval
      { a with autoRefreshIntervalId := some handle }
    else a
  | none => a

/-- Models `stopAutoRefresh()`. -/
def stopAutoRefresh (a : App) : App :=
  match a.autoRefreshIntervalId with
  | some h =>
    if timerIdTruthy (some h) then { (clearInterval a h) with autoRefreshIntervalId := none }
    else a
  | none => a

/-- The `change` listener of the auto-refresh checkbox. -/
def onAutoRefreshToggle (a : App) (checked : Bool) : App :=
  let a := { a with isAutoRefreshEnabled := checked }
  let a := { a with dom := setDisabled a.dom "autoRefreshInterval" (!a.isAutoRefreshEnabled) }
  if a.isAutoRefreshEnabled then startAutoRefresh a else stopAutoRefresh a

/-- The `change` listener of the interval select; `value` is the result of
`parseInt(event.target.value, 10)`, `none` for `NaN`. -/
def onIntervalChange (a : App) (value : Option Int) : App :=
  let a := { a with currentRefreshInterval := value }
  if a.isAutoRefreshEnabled then startAutoRefresh (stopAutoRefresh a) else a

/-- The two events that drive the auto-refresh timer. -/
inductive RefreshEvent where
  | toggle (checked : Bool)
  | intervalChange (value : Option Int)
deriving DecidableEq, Repr

/-- Dispatches one event to its listener. -/
def RefreshEvent.apply (a : App) : RefreshEvent → App
  | .toggle checked => onAutoRefreshToggle a checked
  | .intervalChange value => onIntervalChange a value

/-- Runs a sequence of events, oldest first. -/
def runEvents (a : App) (events : List RefreshEvent) : App :=
  events.foldl RefreshEvent.apply a

/-- Models `handleApiError(apiName)(error)` for an error with the given message
(`error.message || '未知错误'`). -/
def handleApiError {α : Type} (apiName : String) (message : String) : Fetched α :=
  .errorTag (if message ≠ "" then message else "未知错误") apiName

/-- The value of `await request.catch(handleApiError(apiName))`. -/
def settle {α : Type} (apiName : String) : Outcome α → Fetched α
  | .resolved (some data) => .value data
  | .resolved none => .null
  | .rejected message => handleApiError apiName message

/-- Truthiness of `currentJobExecutionIdForPolling`. -/
def pollingIdTruthy (a : App) : Bool :=
  match a.currentJobExecutionIdForPolling with
  | some j => j.truthy
  | none => false

/-- A call `uiUpdater.updateBatchJobStatusDisplay(jobExecutionData)`. -/
def displayJob (loc : Locale) (a : App) (jobExecutionData : Fetched JobExecution) : App :=
  { a with dom := updateBatchJobStatusDisplay loc a.dom jobExecutionData
           log := a.log ++ [Effect.jobDisplayed jobExecutionData] }

/-- A call `uiUpdater.updateBatchJobHistory(jobExecutions)`: the state after it
and the error it throws, if any. -/
def renderHistory (loc : Locale) (a : App) (jobExecutions : Fetched (List JobExecution)) :
    App × Option String :=
  let r := updateBatchJobHistory loc a.dom jobExecutions
  ({ a with dom := r.1, log := a.log ++ [Effect.historyRendered jobExecutions] }, r.2)

/-- The block "更新批处理作业历史" of `fetchAllData` (history rendering and list-based
reconciliation of the tracked id): the state after it and the exception it
raises, if any. -/
def reconcileLatestJobs (loc : Locale) (a : App) (latestBatchJobs : Fetched (List JobExecution)) :
    App × Option String :=
  match latestBatchJobs with
  | .null =>
    let a := (renderHistory loc a (.value [])).1
    (displayJob loc a .null, none)
  | .value jobs =>
    let a := (renderHistory loc a (.value jobs)).1
    let shouldUpdateBatchDisplay := !pollingIdTruthy a ||
      (pollingIdTruthy a && (jobs.find? (fun job =>
        decide (some job.jobExecutionId = a.currentJobExecutionIdForPolling) &&
          isTerminal job.status)).isSome)
    match jobs with
    | latestJobToDisplay :: _ =>
      if shouldUpdateBatchDisplay then
        let a := displayJob loc a (.value latestJobToDisplay)
        if !isTerminal latestJobToDisplay.status then
          ({ a with currentJobExecutionIdForPolling := some latestJobToDisplay.jobExecutionId }, none)
        else
          ({ a with currentJobExecutionIdForPolling := none }, none)
      else (a, none)
    | [] =>
      if !pollingIdTruthy a then (displayJob loc a .null, none) else (a, none)
  | .errorTag message source =>
    let r := renderHistory loc a (.errorTag message source)
    match r.2 with
    | some error => (r.1, some error)
    | none =>
      if pollingIdTruthy r.1 then (r.1, some "TypeError: latestBatchJobs.find is not a function")
      else (r.1, none)

/-- The first part of the `try` block of `fetchAllData` (service overview,
consumer statistics, index statistics, dead-letter summary), given the outcome
of the five requests it renders. -/
def renderPanels (loc : Locale) (a : App) (health esHealth : Outcome HealthData)
    (kafkaLag : Outcome LagData) (dlqSummary : Outcome DlqSummary)
    (esIndexStats : Outcome IndexStats) : App :=
  let healthData := settle "应用健康状况" health
  let esHealthData := settle "ES集群健康" esHealth
  let kafkaLagData := settle "Kafka消费者Lag" kafkaLag
  let dlqSummaryData := settle "Kafka DLQ摘要" dlqSummary
  let a := { a with dom := updateServiceOverview loc a.dom healthData esHealthData kafkaLagData }
  let a := if kafkaLagData.truthy then
      { a with dom := updateKafkaConsumerStats a.dom kafkaLagData TOPIC_NAMES }
    else a
  let esIndexStatsData := settle ("ES索引 '" ++ ES_INDEX_NAME ++ "' 统计") esIndexStats
  let a := if esIndexStatsData.truthy then
      { a with dom := updateElasticsearchIndexStats a.dom esIndexStatsData ES_INDEX_NAME }
    else a
  if dlqSummaryData.truthy then
    { a with dom := updateDlqSummary a.dom dlqSummaryData TOPIC_NAMES }
  else a

/-- The last statement of the `try` block of `fetchAllData`: when a job id is
tracked, `fetchAndDisplaySpecificJobStatus` is called for it (not awaited). -/
def pollTrackedJob (a : App) : App :=
  match a.currentJobExecutionIdForPolling with
  | some j => if j.truthy then { a with log := a.log ++ [Effect.specificFetch j] } else a
  | none => a

/-- The `catch` block of `fetchAllData`: the page-level failure notification. -/
def notifyCycleFailure (a : App) : App :=
  { a with log := (a.log ++
      [Effect.notification "获取部分或全部监控数据失败，请检查控制台日志。" "error"]) }

/-- The `finally` block of `fetchAllData`. -/
def finishCycle (loc : Locale) (a : App) : App :=
  match a.dom "lastDataUpdate" with
  | some element =>
    if element.textContent = "加载中..." then
      { a with dom := (updateText a.dom "lastDataUpdate"
          (some (loc.nowTimeString ++ " (部分数据可能获取失败)"))) }
    else a
  | none =>
    { a with log := a.log ++ [Effect.uncaught "TypeError: Cannot read properties of null"] }

/-- Models one run of `fetchAllData()`, given how each of its six requests
settles. -/
def fetchAllData (loc : Locale) (a : App) (health esHealth : Outcome HealthData)
    (kafkaLag : Outcome LagData) (dlqSummary : Outcome DlqSummary)
    (latestJobs : Outcome (List JobExecution)) (esIndexStats : Outcome IndexStats) : App :=
  let a := { a with dom := updateText a.dom "lastDataUpdate" (some "加载中...") }
  let latestBatchJobs := settle "最新批处理作业" latestJobs
  let a := renderPanels loc a health esHealth kafkaLag dlqSummary esIndexStats
  let r := reconcileLatestJobs loc a latestBatchJobs
  let a := match r.2 with
    | none => pollTrackedJob r.1
    | some _ => notifyCycleFailure r.1
  finishCycle loc a

/-- Models one run of `fetchAndDisplaySpecificJobStatus(jobExecutionId)`, given
how its request settles; `a` is the state when the request settles. -/
def fetchAndDisplaySpecificJobStatus (loc : Locale) (a : App) (jobExecutionId : JobId)
    (outcome : Outcome JobExecution) : App :=
  if !jobExecutionId.truthy then a
  else
    match outcome with
    | .resolved (some jobStatusData) =>
      let a := displayJob loc a (.value jobStatusData)
      if jobStatusData.status = "STARTING" ∨ jobStatusData.status = "STARTED" ∨
          jobStatusData.status = "STOPPING" then
        { a with currentJobExecutionIdForPolling := some jobExecutionId }
      else if a.currentJobExecutionIdForPolling = some jobExecutionId then
        { a with currentJobExecutionIdForPolling := none }
      else a
    | .resolved none => a
    | .rejected _ => a

/-- The JSON result of the start request, `{jobExecutionId, status}`; a field
that is missing is `none`. -/
structure StartResult where
  jobExecutionId : Option JobId
  status : Option String
deriving DecidableEq, Repr

/-- A call `uiUpdater.showNotification(message, type)`. -/
def showNotification (a : App) (message : String) (type : String) : App :=
  { a with log := a.log ++ [Effect.notification message type] }

/-- The part of `handleStartBatchJob()` that runs at the click, up to the
`await` of the start request. -/
def handleStartBatchJobBegin (a : App) : App :=
  let a := { a with dom := setDisabled a.dom "startBatchJobButton" true }
  let a := { a with dom := updateText a.dom "batchJobStatus" (some "请求启动中...") }
  showNotification a "正在请求启动历史数据索引作业..." "info"

/-- The `else` branch of `handleStartBatchJob()`: no usable job execution id. -/
def startWithoutId (a : App) : App :=
  let a := showNotification a "启动作业失败，未收到有效的作业执行ID。" "error"
  { a with dom := setDisabled a.dom "startBatchJobButton" false }

/-- The part of `handleStartBatchJob()` that runs when the start request
settles; `a` is the state at that moment. The un-awaited calls
`fetchAndDisplaySpecificJobStatus(id)` and `fetchAllData()` are logged, and the
part of each that runs before its first `await` is carried out at once: for
`fetchAllData()` this is the write of `加载中...` to `lastDataUpdate` (which the
later run of `fetchAllData` repeats), for `fetchAndDisplaySpecificJobStatus(id)`
it changes nothing. -/
def handleStartBatchJobSettle (a : App) (outcome : Outcome StartResult) : App :=
  match outcome with
  | .resolved (some result) =>
    match result.jobExecutionId with
    | some id =>
      if id.truthy then
        let a := showNotification a
          ("作业已请求启动。ID: " ++ id.toText ++ ", 状态: " ++
            (match result.status with
             | some st => st
             | none => "undefined")) "success"
        let a := { a with currentJobExecutionIdForPolling := some id }
        let a := { a with log := a.log ++ [Effect.specificFetch id] }
        let a := { a with log := a.log ++ [Effect.refresh] }
        { a with dom := updateText a.dom "lastDataUpdate" (some "加载中...") }
      else startWithoutId a
    | none => startWithoutId a
  | .resolved none => startWithoutId a
  | .rejected message =>
    let a := showNotification a
      ("启动作业失败: " ++ (if message ≠ "" then message else "未知错误")) "error"
    let a := { a with dom := updateText a.dom "batchJobStatus" (some "启动失败") }
    { a with dom := setDisabled a.dom "startBatchJobButton" false }

/-- Models one run of `handleStartBatchJob()`, given how the start request
settles. -/
def handleStartBatchJob (a : App) (outcome : Outcome StartResult) : App :=
  handleStartBatchJobSettle (handleStartBatchJobBegin a) outcome

/-- The total lag of a group as the specification words it: the sum of the
per-partition lag values that are greater than 0. -/
def positiveLagSum (ps : List PartitionLag) : Int :=
  ((ps.map (fun p => p.lag)).filter (fun lag => decide (lag > 0))).sum

/-- A group entry whose partitions reference the topic. -/
def referencesTopic (entry : String × GroupInfo) (topic : String) : Prop :=
  ∃ ps, entry.2.partitions = some ps ∧ ∃ p ∈ ps, p.topic = topic

/-- Assignments of constants to some of the properties of an element (`none`:
the property is left as it is). -/
structure Patch where
  textContent : Option String
  classList : Option (List String)
  disabled : Option Bool
  styleWidth : Option String
deriving DecidableEq, Repr

/-- Carries out the assignments of a patch on an element. -/
def Patch.apply (p : Patch) (e : Element) : Element :=
  { textContent := p.textContent.getD e.textContent
    classList := p.classList.getD e.classList
    disabled := p.disabled.getD e.disabled
    styleWidth := p.styleWidth.getD e.styleWidth
    children := e.children }

/-- The patch that assigns nothing. -/
def Patch.empty : Patch := ⟨none, none, none, none⟩

/-- The assignments of `p` followed by those of `q`. -/
def Patch.andThen (p q : Patch) : Patch :=
  { textContent := q.textContent.orElse (fun _ => p.textContent)
    classList := q.classList.orElse (fun _ => p.classList)
    disabled := q.disabled.orElse (fun _ => p.disabled)
    styleWidth := q.styleWidth.orElse (fun _ => p.styleWidth) }

/-- A page update that, for every element id, assigns constants to properties
of the element stored under that id (when there is one), and assigns nothing
outside the ids in `slots`. -/
def Renders (slots : List String) (f : Dom → Dom) : Prop :=
  ∃ P : String → Patch, (∀ k, k ∉ slots → P k = Patch.empty) ∧
    ∀ (d : Dom) (k : String), f d k = (d k).map (P k).apply

/-- The element ids written by `updateBatchJobStatusDisplay`. -/
def jobSlots : List String :=
  ["batchJobStatus", "batchLastRunId", "batchLastRunStartTime", "batchLastRunEndTime",
   "batchLastRunDuration", "batchFilesScanned", "batchFilesProcessed",
   "batchSuccessfullyIndexed", "batchFailedToIndex", "batchJobProgress", "startBatchJobButton"]

/-- The element ids written by `updateKafkaConsumerStats`. -/
def kafkaSlots : List String :=
  ["kafkaUpsertTopicName", "kafkaDeleteTopicName", "kafkaUpsertGroupId",
   "kafkaUpsertAssignedPartitions", "kafkaUpsertTotalLag", "kafkaUpsertLagPerPartition",
   "kafkaDeleteGroupId", "kafkaDeleteAssignedPartitions", "kafkaDeleteTotalLag",
   "kafkaDeleteLagPerPartition"]

/-- The element ids written by `updateElasticsearchIndexStats`. -/
def esSlots : List String :=
  ["esIndexName", "esIndexStatus", "esIndexStatusIndicator", "esTotalDocs",
   "esIndexSizePrimary", "esIndexSizeTotal"]

/-- The element ids written by `updateDlqSummary`. -/
def dlqSlots : List String :=
  ["dlqUpsertTopicName", "dlqDeleteTopicName", "dlqUpsertCount", "dlqDeleteCount"]

/-- The element ids written by `updateServiceOverview`. -/
def overviewSlots : List String :=
  ["indexerStatus", "indexerStatusIndicator", "esConnectionStatus", "esConnectionIndicator",
   "kafkaConnectionStatus", "kafkaConnectionIndicator", "lastDataUpdate"]

/-- The calls logged between two states of a run: the part of the later log
that follows the earlier log. -/
def newLog (before after : App) : List Effect := after.log.drop before.log.length

/-- The specific-status fetch issued at the end of the `try` block. -/
def polledJob (a : App) : List Effect :=
  match a.currentJobExecutionIdForPolling with
  | some j => if j.truthy then [Effect.specificFetch j] else []
  | none => []

/-- What the `finally` block logs: nothing, or the error of a missing element. -/
def finishLog (a : App) : List Effect :=
  match a.dom "lastDataUpdate" with
  | some _ => []
  | none => [Effect.uncaught "TypeError: Cannot read properties of null"]

/-- The invariant of the auto-refresh timer: either no handle is stored and no
timer is live, or the stored handle is that of the only live timer, which is
the most recently created one and runs with the current (positive) interval
while auto-refresh is enabled. -/
def TimerInv (a : App) : Prop :=
  (a.autoRefreshIntervalId = none ∧ a.timers = []) ∨
  (∃ p : Int, a.autoRefreshIntervalId = some a.timersCreated ∧ 0 < a.timersCreated ∧
    a.timers = [(a.timersCreated, p)] ∧ a.isAutoRefreshEnabled = true ∧
    a.currentRefreshInterval = some p ∧ 0 < p)

/-! ## Sample inputs -/

/-- A page on which every element the scripts address exists, all blank. -/
def samplePage : Dom := fun _ => some ⟨"", [], false, "", []⟩

/-- A locale that prints a date as its number of milliseconds. -/
def sampleLocale : Locale := ⟨fun ms => toString ms, "12:00:00"⟩

/-- A snapshot with one step execution and no timestamps. -/
def sampleJob (id : JobId) (status : String) (readCount writeCount writeSkipCount
    processSkipCount : Nat) : JobExecution :=
  { jobExecutionId := id
    status := status
    startTime := none
    endTime := none
    stepExecutions := [⟨readCount, writeCount, writeSkipCount, processSkipCount⟩] }

/-- Progress of a non-terminal snapshot as the specification words it:
`round(100 * processed / scanned)` when `scanned > 0` (the exact quotient,
rounded to the nearest integer, a half upwards), the fixed value 5 when
`scanned = 0` and `processed > 0`, else 0. -/
def specProgress (scanned processed : Nat) : Nat :=
  if scanned > 0 then (200 * processed + scanned) / (2 * scanned)
  else if processed > 0 then 5
  else 0

/-! ## Basic facts about the page -/

theorem Dom.set_apply (d : Dom) (id k : String) (e : Element) :
    (d.set id e) k = if k = id then some e else d k := rfl

theorem updateText_apply (d : Dom) (id k : String) (text : String) :
    (updateText d id (some text)) k =
      if k = id then (d id).map (fun e => { e with textContent := text }) else d k := by
  unfold updateText
  cases hd : d id with
  | none => by_cases hk : k = id <;> simp [hk, hd]
  | some e => by_cases hk : k = id <;> simp [Dom.set, hk]

theorem setProgressBar_apply (d : Dom) (progress : Nat) (k : String) :
    (setProgressBar d progress) k =
      if k = "batchJobProgress" then
        (d "batchJobProgress").map (fun e => { e with
          styleWidth := toString progress ++ "%", textContent := toString progress ++ "%" })
      else d k := by
  unfold setProgressBar
  cases hd : d "batchJobProgress" with
  | none => by_cases hk : k = "batchJobProgress" <;> simp [hk, hd]
  | some e => by_cases hk : k = "batchJobProgress" <;> simp [Dom.set, hk]

theorem setDisabled_apply (d : Dom) (id k : String) (flag : Bool) :
    (setDisabled d id flag) k =
      if k = id then (d id).map (fun e => { e with disabled := flag }) else d k := by
  unfold setDisabled
  cases hd : d id with
  | none => by_cases hk : k = id <;> simp [hk, hd]
  | some e => by_cases hk : k = id <;> simp [Dom.set, hk]

/-- The progress bar after rendering a snapshot. -/
theorem display_progressBar (loc : Locale) (d : Dom) (job : JobExecution) :
    (updateBatchJobStatusDisplay loc d (.value job)) "batchJobProgress" =
      (d "batchJobProgress").map (fun progressBar => { progressBar with
        styleWidth := toString (jobProgress job.status (jobCounters job).1 (jobCounters job).2.1) ++ "%"
        textContent := toString (jobProgress job.status (jobCounters job).1 (jobCounters job).2.1) ++ "%" }) := by
  rcases hc : jobCounters job with ⟨c1, c2, c3, c4⟩
  simp [updateBatchJobStatusDisplay, hc, updateText_apply, setProgressBar_apply, setDisabled_apply]

/-- The four counter slots after rendering a snapshot. -/
theorem display_counters (loc : Locale) (d : Dom) (job : JobExecution) :
    let d' := updateBatchJobStatusDisplay loc d (.value job)
    d' "batchFilesScanned" = (d "batchFilesScanned").map
        (fun e => { e with textContent := toString (jobCounters job).1 }) ∧
    d' "batchFilesProcessed" = (d "batchFilesProcessed").map
        (fun e => { e with textContent := toString (jobCounters job).2.1 }) ∧
    d' "batchSuccessfullyIndexed" = (d "batchSuccessfullyIndexed").map
        (fun e => { e with textContent := toString (jobCounters job).2.2.1 }) ∧
    d' "batchFailedToIndex" = (d "batchFailedToIndex").map
        (fun e => { e with textContent := toString (jobCounters job).2.2.2 }) := by
  rcases hc : jobCounters job with ⟨c1, c2, c3, c4⟩
  simp [updateBatchJobStatusDisplay, hc, updateText_apply, setProgressBar_apply, setDisabled_apply]

/-- The duration slot after rendering a snapshot. -/
theorem display_duration (loc : Locale) (d : Dom) (job : JobExecution) :
    (updateBatchJobStatusDisplay loc d (.value job)) "batchLastRunDuration" =
      (d "batchLastRunDuration").map (fun e => { e with textContent := jobDuration job }) := by
  rcases hc : jobCounters job with ⟨c1, c2, c3, c4⟩
  simp [updateBatchJobStatusDisplay, hc, updateText_apply, setProgressBar_apply, setDisabled_apply]

theorem orZero_eq (x : Nat) : orZero x = x := by
  unfold orZero
  split <;> omega

theorem jobCounters_cons (job : JobExecution) (se : StepExecution) (rest : List StepExecution)
    (h : job.stepExecutions = se :: rest) :
    jobCounters job = (se.readCount, se.writeCount + se.writeSkipCount, se.writeCount,
      se.processSkipCount + se.writeSkipCount) := by
  simp [jobCounters, h, orZero_eq]

theorem jobCounters_nil (job : JobExecution) (h : job.stepExecutions = []) :
    jobCounters job = (0, 0, 0, 0) := by
  simp [jobCounters, h]

/-! ## Double arithmetic -/

theorem bitLengthAux_spec (fuel n : Nat) (h : n ≤ fuel) :
    n < 2 ^ bitLengthAux fuel n ∧ (0 < n → 2 ^ bitLengthAux fuel n ≤ 2 * n) := by
  induction fuel generalizing n with
  | zero =>
    have hn : n = 0 := by omega
    subst hn
    simp [bitLengthAux]
  | succ fuel ih =>
    unfold bitLengthAux
    by_cases hn : n = 0
    · subst hn
      simp
    · rw [if_neg hn]
      have hhalf : n / 2 ≤ fuel := by omega
      obtain ⟨h1, h2⟩ := ih (n / 2) hhalf
      rw [pow_succ]
      constructor
      · omega
      · intro _
        by_cases hq : n / 2 = 0
        · have hn1 : n = 1 := by omega
          subst hn1
          simp [bitLengthAux]
          cases fuel <;> simp [bitLengthAux]
        · have := h2 (by omega)
          omega

theorem lt_two_pow_bitLength (n : Nat) : n < 2 ^ bitLength n :=
  (bitLengthAux_spec n n (le_refl n)).1

theorem two_pow_bitLength_le (n : Nat) (h : 0 < n) : 2 ^ bitLength n ≤ 2 * n :=
  (bitLengthAux_spec n n (le_refl n)).2 h

theorem bitLength_le_of_lt (n j : Nat) (hn : 0 < n) (h : n < 2 ^ j) : bitLength n ≤ j := by
  by_contra hlt
  have hj : j + 1 ≤ bitLength n := by omega
  have h1 : 2 ^ (j + 1) ≤ 2 ^ bitLength n := Nat.pow_le_pow_right (by decide) hj
  have h2 := two_pow_bitLength_le n hn
  rw [pow_succ] at h1
  omega

theorem divRoundEven_spec (a b : Nat) (hb : 0 < b) :
    2 * (divRoundEven a b * b) ≤ 2 * a + b ∧ 2 * a ≤ 2 * (divRoundEven a b * b) + b := by
  have hdm := Nat.div_add_mod a b
  have hmod := Nat.mod_lt a hb
  have hmul : b * (a / b) = a / b * b := Nat.mul_comm _ _
  unfold divRoundEven
  split
  · constructor <;> omega
  · split
    · rw [Nat.add_mul]
      constructor <;> omega
    · split
      · constructor <;> omega
      · rw [Nat.add_mul]
        constructor <;> omega

/-- The relative error of rounding a quotient below `2 ^ 53` to a double is at most
`2 ^ (-53)`. -/
theorem ofRatio_error (a b : Nat) (ha : 0 < a) (hb : 0 < b) (h : a < 2 ^ 53 * b) :
    2 ^ 53 * ((Double.ofRatio a b).num * b) ≤ (2 ^ 53 + 1) * (a * 2 ^ (Double.ofRatio a b).scale) ∧
    (2 ^ 53 - 1) * (a * 2 ^ (Double.ofRatio a b).scale) ≤
      2 ^ 53 * ((Double.ofRatio a b).num * b) := by
  have hla := two_pow_bitLength_le a ha
  have hlb := lt_two_pow_bitLength b
  have hsmall : bitLength a ≤ bitLength b + 53 := by
    apply bitLength_le_of_lt a _ ha
    calc a < 2 ^ 53 * b := h
      _ < 2 ^ 53 * 2 ^ bitLength b := by
        exact Nat.mul_lt_mul_of_pos_left hlb (by positivity)
      _ = 2 ^ (bitLength b + 53) := by rw [← pow_add, Nat.add_comm]
  have hla1 : 1 ≤ bitLength a := by
    by_contra hcon
    have h0 : bitLength a = 0 := by omega
    have := lt_two_pow_bitLength a
    rw [h0] at this
    omega
  have key : ∀ (m k : Nat), 2 * (m * b) ≤ 2 * (a * 2 ^ k) + b → 2 * (a * 2 ^ k) ≤ 2 * (m * b) + b →
      2 ^ 52 * b ≤ a * 2 ^ k →
      2 ^ 53 * (m * b) ≤ (2 ^ 53 + 1) * (a * 2 ^ k) ∧
      (2 ^ 53 - 1) * (a * 2 ^ k) ≤ 2 ^ 53 * (m * b) := by
    intro m k h1 h2 h3
    generalize a * 2 ^ k = A at h1 h2 h3 ⊢
    generalize m * b = M at h1 h2 ⊢
    norm_num at h3 ⊢
    constructor <;> omega
  unfold Double.ofRatio
  rw [if_neg (by omega), if_pos hsmall]
  split
  · -- the scaled quotient is below 2 ^ 53
    obtain ⟨h1, h2⟩ := divRoundEven_spec (a * 2 ^ (bitLength b + 53 - bitLength a)) b hb
    refine key _ _ h1 h2 ?_
    have hpow : 2 ^ bitLength a * 2 ^ (bitLength b + 53 - bitLength a) =
        2 ^ 53 * 2 ^ bitLength b := by
      rw [← pow_add, ← pow_add]
      congr 1
      omega
    have hmul : 2 ^ bitLength a * 2 ^ (bitLength b + 53 - bitLength a) ≤
        2 * a * 2 ^ (bitLength b + 53 - bitLength a) :=
      Nat.mul_le_mul_right _ hla
    have hb2 : 2 ^ 53 * b ≤ 2 ^ 53 * 2 ^ bitLength b :=
      Nat.mul_le_mul_left _ (Nat.le_of_lt hlb)
    have : 2 ^ 53 * b ≤ 2 * (a * 2 ^ (bitLength b + 53 - bitLength a)) := by
      rw [← Nat.mul_assoc]
      omega
    norm_num at this ⊢
    omega
  · rename_i hge
    split
    · rename_i hk0
      rw [hk0] at hge
      simp at hge
      omega
    · rename_i hk0
      obtain ⟨h1, h2⟩ := divRoundEven_spec (a * 2 ^ (bitLength b + 53 - bitLength a - 1)) b hb
      refine key _ _ h1 h2 ?_
      have hsplit : 2 ^ (bitLength b + 53 - bitLength a) =
          2 * 2 ^ (bitLength b + 53 - bitLength a - 1) := by
        rw [← pow_succ']
        congr 1
        omega
      rw [hsplit] at hge
      have hge' : 2 ^ 53 * b ≤ a * (2 * 2 ^ (bitLength b + 53 - bitLength a - 1)) := by omega
      have hcomm : a * (2 * 2 ^ (bitLength b + 53 - bitLength a - 1)) =
          2 * (a * 2 ^ (bitLength b + 53 - bitLength a - 1)) := by ring
      rw [hcomm] at hge'
      norm_num at hge' ⊢
      omega

/-- The quotient `num / 2 ^ scale` of a rounded ratio, as a rational, is within the
relative error `2 ^ (-53)` of the ratio. -/
theorem ofRatio_error_rat (a b : Nat) (ha : 0 < a) (hb : 0 < b) (h : a < 2 ^ 53 * b) :
    (2 ^ 53 : ℚ) * (((Double.ofRatio a b).num : ℚ) / 2 ^ (Double.ofRatio a b).scale) ≤
      (2 ^ 53 + 1) * ((a : ℚ) / b) ∧
    (2 ^ 53 - 1) * ((a : ℚ) / b) ≤
      (2 ^ 53 : ℚ) * (((Double.ofRatio a b).num : ℚ) / 2 ^ (Double.ofRatio a b).scale) := by
  obtain ⟨h1, h2⟩ := ofRatio_error a b ha hb h
  have hbq : (0 : ℚ) < b := by exact_mod_cast hb
  have hKq : (0 : ℚ) < 2 ^ (Double.ofRatio a b).scale := by positivity
  have h1q : (2 ^ 53 : ℚ) * (((Double.ofRatio a b).num : ℚ) * b) ≤
      (2 ^ 53 + 1) * ((a : ℚ) * 2 ^ (Double.ofRatio a b).scale) := by exact_mod_cast h1
  have h2q : ((2 ^ 53 - 1 : ℕ) : ℚ) * ((a : ℚ) * 2 ^ (Double.ofRatio a b).scale) ≤
      (2 ^ 53 : ℚ) * (((Double.ofRatio a b).num : ℚ) * b) := by exact_mod_cast h2
  have hsub : ((2 ^ 53 - 1 : ℕ) : ℚ) = 2 ^ 53 - 1 := by norm_num
  rw [hsub] at h2q
  constructor
  · rw [mul_div_assoc', mul_div_assoc', div_le_div_iff₀ hKq hbq]
    nlinarith
  · rw [mul_div_assoc', mul_div_assoc', div_le_div_iff₀ hbq hKq]
    nlinarith

theorem round_bounds (x : Double) :
    ((x.round : ℚ) ≤ (x.num : ℚ) / 2 ^ x.scale + 1 / 2) ∧
    ((x.num : ℚ) / 2 ^ x.scale + 1 / 2 < x.round + 1) := by
  have hK : 0 < 2 ^ (x.scale + 1) := by positivity
  have hle := Nat.div_mul_le_self (2 * x.num + 2 ^ x.scale) (2 ^ (x.scale + 1))
  have hlt := Nat.lt_div_mul_add (a := 2 * x.num + 2 ^ x.scale) hK
  have hKq : (0 : ℚ) < 2 ^ x.scale := by positivity
  have hleq : ((x.round : ℚ)) * (2 * 2 ^ x.scale) ≤ 2 * x.num + 2 ^ x.scale := by
    have : x.round * 2 ^ (x.scale + 1) ≤ 2 * x.num + 2 ^ x.scale := hle
    rw [pow_succ] at this
    have h' : ((x.round * (2 ^ x.scale * 2) : ℕ) : ℚ) ≤ ((2 * x.num + 2 ^ x.scale : ℕ) : ℚ) := by
      exact_mod_cast this
    push_cast at h'
    linarith
  have hltq : (2 * x.num + 2 ^ x.scale : ℚ) < (x.round + 1) * (2 * 2 ^ x.scale) := by
    have : 2 * x.num + 2 ^ x.scale < x.round * 2 ^ (x.scale + 1) + 2 ^ (x.scale + 1) := hlt
    rw [pow_succ] at this
    have h' : ((2 * x.num + 2 ^ x.scale : ℕ) : ℚ) <
        ((x.round * (2 ^ x.scale * 2) + 2 ^ x.scale * 2 : ℕ) : ℚ) := by
      exact_mod_cast this
    push_cast at h'
    linarith
  constructor
  · rw [div_add_div _ _ (ne_of_gt hKq) (by norm_num : (2 : ℚ) ≠ 0), le_div_iff₀ (by positivity)]
    linarith
  · rw [div_add_div _ _ (ne_of_gt hKq) (by norm_num : (2 : ℚ) ≠ 0), div_lt_iff₀ (by positivity)]
    linarith

theorem hundredths_bounds (x : Double) :
    ((x.hundredths : ℚ) ≤ 100 * ((x.num : ℚ) / 2 ^ x.scale) + 1 / 2) ∧
    (100 * ((x.num : ℚ) / 2 ^ x.scale) + 1 / 2 < x.hundredths + 1) := by
  have hK : 0 < 2 ^ (x.scale + 1) := by positivity
  have hle := Nat.div_mul_le_self (200 * x.num + 2 ^ x.scale) (2 ^ (x.scale + 1))
  have hlt := Nat.lt_div_mul_add (a := 200 * x.num + 2 ^ x.scale) hK
  have hKq : (0 : ℚ) < 2 ^ x.scale := by positivity
  have hleq : ((x.hundredths : ℚ)) * (2 * 2 ^ x.scale) ≤ 200 * x.num + 2 ^ x.scale := by
    have : x.hundredths * 2 ^ (x.scale + 1) ≤ 200 * x.num + 2 ^ x.scale := hle
    rw [pow_succ] at this
    have h' : ((x.hundredths * (2 ^ x.scale * 2) : ℕ) : ℚ) ≤
        ((200 * x.num + 2 ^ x.scale : ℕ) : ℚ) := by
      exact_mod_cast this
    push_cast at h'
    linarith
  have hltq : (200 * x.num + 2 ^ x.scale : ℚ) < (x.hundredths + 1) * (2 * 2 ^ x.scale) := by
    have : 200 * x.num + 2 ^ x.scale <
        x.hundredths * 2 ^ (x.scale + 1) + 2 ^ (x.scale + 1) := hlt
    rw [pow_succ] at this
    have h' : ((200 * x.num + 2 ^ x.scale : ℕ) : ℚ) <
        ((x.hundredths * (2 ^ x.scale * 2) + 2 ^ x.scale * 2 : ℕ) : ℚ) := by
      exact_mod_cast this
    push_cast at h'
    linarith
  have e : 100 * ((x.num : ℚ) / 2 ^ x.scale) + 1 / 2 =
      (200 * x.num + 2 ^ x.scale) / (2 * 2 ^ x.scale) := by
    field_simp
    ring
  rw [e]
  constructor
  · rw [le_div_iff₀ (by positivity)]
    exact hleq
  · rw [div_lt_iff₀ (by positivity)]
    exact hltq

/-- The two-decimal rendering of `d / 1000` is a nearest hundredth of the exact
quotient, for every `d` below `2 ^ 53`. -/
theorem hundredths_nearest (d : Nat) (hd : d < 2 ^ 53) :
    10 * (Double.ofRatio d 1000).hundredths ≤ d + 5 ∧
    d ≤ 10 * (Double.ofRatio d 1000).hundredths + 5 := by
  rcases Nat.eq_zero_or_pos d with h0 | hpos
  · subst h0
    decide
  · obtain ⟨e1, e2⟩ := ofRatio_error_rat d 1000 hpos (by norm_num) (by omega)
    obtain ⟨b1, b2⟩ := hundredths_bounds (Double.ofRatio d 1000)
    generalize (Double.ofRatio d 1000).hundredths = n at *
    generalize (((Double.ofRatio d 1000).num : ℚ) / 2 ^ (Double.ofRatio d 1000).scale) = u at *
    have hdq : (d : ℚ) < 9007199254740992 := by
      have h := hd
      norm_num at h
      exact_mod_cast h
    have hd0 : (0 : ℚ) < d := by exact_mod_cast hpos
    push_cast at e1 e2
    constructor
    · by_contra hc
      have hc' : d + 6 ≤ 10 * n := by omega
      have hcq : (d : ℚ) + 6 ≤ 10 * n := by exact_mod_cast hc'
      norm_num at e1 e2
      linarith
    · by_contra hc
      have hc' : 10 * n + 6 ≤ d := by omega
      have hcq : 10 * (n : ℚ) + 6 ≤ d := by exact_mod_cast hc'
      norm_num at e1 e2
      linarith

/-- The two roundings behind `roundPercent p s`, as rational bounds: the rounded
quotient `w`, the rounded product `u` and the result of `Math.round`. -/
theorem roundPercent_rat (p s : Nat) (hpos : 0 < p) (hs : 0 < s) (hps : p ≤ s) :
    ∃ u w : ℚ,
      (2 ^ 53 : ℚ) * w ≤ (2 ^ 53 + 1) * ((p : ℚ) / s) ∧
      (2 ^ 53 - 1) * ((p : ℚ) / s) ≤ (2 ^ 53 : ℚ) * w ∧
      (2 ^ 53 : ℚ) * u ≤ (2 ^ 53 + 1) * (100 * w) ∧
      (2 ^ 53 - 1) * (100 * w) ≤ (2 ^ 53 : ℚ) * u ∧
      ((roundPercent p s : ℕ) : ℚ) ≤ u + 1 / 2 ∧ u + 1 / 2 < ((roundPercent p s : ℕ) : ℚ) + 1 := by
  have hps53 : p < 2 ^ 53 * s := by
    have : s ≤ 2 ^ 53 * s := Nat.le_mul_of_pos_left s (by norm_num)
    omega
  obtain ⟨e1, e2⟩ := ofRatio_error_rat p s hpos hs hps53
  obtain ⟨i1, i2⟩ := ofRatio_error p s hpos hs hps53
  have hK1 : 0 < 2 ^ (Double.ofRatio p s).scale := by positivity
  have hm1 : 0 < (Double.ofRatio p s).num := by
    rcases Nat.eq_zero_or_pos (Double.ofRatio p s).num with hz | hz
    · rw [hz] at i2
      have : 0 < (2 ^ 53 - 1) * (p * 2 ^ (Double.ofRatio p s).scale) := by positivity
      omega
    · exact hz
  have hm1le : 2 ^ 53 * (Double.ofRatio p s).num ≤
      (2 ^ 53 + 1) * 2 ^ (Double.ofRatio p s).scale := by
    have h1 : 2 ^ 53 * ((Double.ofRatio p s).num * s) ≤
        (2 ^ 53 + 1) * (s * 2 ^ (Double.ofRatio p s).scale) := by
      refine le_trans i1 ?_
      exact Nat.mul_le_mul_left _ (Nat.mul_le_mul_right _ hps)
    have h2 : (2 ^ 53 * (Double.ofRatio p s).num) * s ≤
        ((2 ^ 53 + 1) * 2 ^ (Double.ofRatio p s).scale) * s := by
      calc (2 ^ 53 * (Double.ofRatio p s).num) * s
          = 2 ^ 53 * ((Double.ofRatio p s).num * s) := by ring
        _ ≤ (2 ^ 53 + 1) * (s * 2 ^ (Double.ofRatio p s).scale) := h1
        _ = ((2 ^ 53 + 1) * 2 ^ (Double.ofRatio p s).scale) * s := by ring
    exact Nat.le_of_mul_le_mul_right h2 hs
  have hpre : (Double.ofRatio p s).num * 100 < 2 ^ 53 * 2 ^ (Double.ofRatio p s).scale := by
    generalize (Double.ofRatio p s).num = m at *
    generalize 2 ^ (Double.ofRatio p s).scale = K at *
    norm_num at hm1le ⊢
    omega
  obtain ⟨f1, f2⟩ := ofRatio_error_rat ((Double.ofRatio p s).num * 100)
    (2 ^ (Double.ofRatio p s).scale) (by positivity) hK1 hpre
  obtain ⟨b1, b2⟩ := round_bounds ((Double.ofRatio p s).mulNat 100)
  have hw : (((Double.ofRatio p s).num * 100 : ℕ) : ℚ) / ((2 ^ (Double.ofRatio p s).scale : ℕ) : ℚ)
      = 100 * (((Double.ofRatio p s).num : ℚ) / 2 ^ (Double.ofRatio p s).scale) := by
    push_cast
    ring
  rw [hw] at f1 f2
  exact ⟨_, _, e1, e2, f1, f2, b1, b2⟩

/-- The percentage of a part of a whole is at most 100. -/
theorem roundPercent_le (p s : Nat) (hs : 0 < s) (hps : p ≤ s) : roundPercent p s ≤ 100 := by
  rcases Nat.eq_zero_or_pos p with h0 | hpos
  · subst h0
    have : roundPercent 0 s = 0 := by
      simp [roundPercent, Double.ofRatio, Double.mulNat, Double.round]
    omega
  · obtain ⟨u, w, e1, e2, f1, f2, b1, b2⟩ := roundPercent_rat p s hpos hs hps
    have hsq : (0 : ℚ) < s := by exact_mod_cast hs
    have hv1 : (p : ℚ) / s ≤ 1 := by
      rw [div_le_one hsq]
      exact_mod_cast hps
    generalize (p : ℚ) / s = v at *
    by_contra hc
    have hc' : 101 ≤ roundPercent p s := by omega
    have hcq : (101 : ℚ) ≤ ((roundPercent p s : ℕ) : ℚ) := by exact_mod_cast hc'
    norm_num at e1 e2 f1 f2
    linarith

/-- The percentage computed in double arithmetic is an integer nearest to the exact
percentage, for every count below `2 ^ 44`. -/
theorem roundPercent_nearest (p s : Nat) (hs : 0 < s) (hps : p ≤ s) (hbound : s < 2 ^ 44) :
    2 * s * roundPercent p s ≤ 200 * p + s ∧ 200 * p ≤ 2 * s * roundPercent p s + s := by
  rcases Nat.eq_zero_or_pos p with h0 | hpos
  · subst h0
    have : roundPercent 0 s = 0 := by
      simp [roundPercent, Double.ofRatio, Double.mulNat, Double.round]
    rw [this]
    omega
  · obtain ⟨u, w, e1, e2, f1, f2, b1, b2⟩ := roundPercent_rat p s hpos hs hps
    generalize roundPercent p s = r at *
    have hsq : (0 : ℚ) < s := by exact_mod_cast hs
    have hv1 : (p : ℚ) / s ≤ 1 := by
      rw [div_le_one hsq]
      exact_mod_cast hps
    have hv0 : (0 : ℚ) ≤ (p : ℚ) / s := by positivity
    have ht : (1 : ℚ) / 2 ^ 44 < 1 / s := by
      apply one_div_lt_one_div_of_lt hsq
      exact_mod_cast hbound
    have hpv : (p : ℚ) = (p : ℚ) / s * s := by field_simp
    generalize hv : (p : ℚ) / s = v at *
    generalize ht' : (1 : ℚ) / s = t at *
    have hts : t * s = 1 := by
      rw [← ht']
      field_simp
    constructor
    · by_contra hc
      have hc' : 200 * p + s + 1 ≤ 2 * s * r := by omega
      have hcq : 200 * (p : ℚ) + s + 1 ≤ 2 * s * r := by exact_mod_cast hc'
      have : 200 * v + 1 + t ≤ 2 * r := by
        have h3 : (200 * v + 1 + t) * s ≤ (2 * r) * s := by
          have : (200 * v + 1 + t) * s = 200 * (v * s) + s + t * s := by ring
          rw [this, ← hpv, hts]
          linarith
        exact le_of_mul_le_mul_right h3 hsq
      norm_num at e1 e2 f1 f2 ht
      linarith
    · by_contra hc
      have hc' : 2 * s * r + s + 1 ≤ 200 * p := by omega
      have hcq : 2 * (s : ℚ) * r + s + 1 ≤ 200 * p := by exact_mod_cast hc'
      have : 2 * r + 1 + t ≤ 200 * v := by
        have h3 : (2 * r + 1 + t) * s ≤ (200 * v) * s := by
          have : (200 * v) * s = 200 * (v * s) := by ring
          rw [this, ← hpv]
          have : (2 * (r : ℚ) + 1 + t) * s = 2 * s * r + s + t * s := by ring
          rw [this, hts]
          linarith
        exact le_of_mul_le_mul_right h3 hsq
      norm_num at e1 e2 f1 f2 ht
      linarith

/-! ## The job display -/

/-- C4: for every job snapshot whose status is COMPLETED, FAILED or STOPPED the progress
computed by `updateBatchJobStatusDisplay` is 100 for all counts, and the progress bar of
the page shows `100%` (width and text), whatever the step counters of the snapshot are. -/
theorem terminal_status_renders_100 (loc : Locale) (d : Dom) (job : JobExecution)
    (progressBar : Element) (hbar : d "batchJobProgress" = some progressBar)
    (hst : job.status = "COMPLETED" ∨ job.status = "FAILED" ∨ job.status = "STOPPED") :
    (∀ scanned processed : Nat, jobProgress job.status scanned processed = 100) ∧
    (updateBatchJobStatusDisplay loc d (.value job)) "batchJobProgress" =
      some { progressBar with styleWidth := "100%", textContent := "100%" } := by
  have h100 : ∀ scanned processed : Nat, jobProgress job.status scanned processed = 100 := by
    intro scanned processed
    simp [jobProgress, hst]
  refine ⟨h100, ?_⟩
  rw [display_progressBar, hbar, h100]
  rfl

/-- Witness of C4: a FAILED snapshot with nothing scanned and 7 processed renders 100%. -/
theorem terminal_status_renders_100_witness :
    (updateBatchJobStatusDisplay sampleLocale samplePage
        (.value (sampleJob (.num 7) "FAILED" 0 4 3 0))) "batchJobProgress" =
      some { textContent := "100%", classList := [], disabled := false, styleWidth := "100%",
             children := [] } :=
  (terminal_status_renders_100 sampleLocale samplePage (sampleJob (.num 7) "FAILED" 0 4 3 0)
    ⟨"", [], false, "", []⟩ rfl (by decide)).2


/-- C5 (counterexample): the claim fails for a STOPPING snapshot with readCount 50 and
writeCount 20, which renders `0%` where the claim says 40; for a STARTED snapshot with
readCount 10, writeCount 8 and writeSkipCount 5 (13 processed of 10 scanned), which renders
`0%` where the claim says `round(100 * 13 / 10) = 130`; and for a STARTED snapshot with
readCount 40 and writeCount 23, which renders `57%` where the claim says
`round(100 * 23 / 40) = round(57.5) = 58` (the double product `(23 / 40) * 100` lies
below 57.5). -/
theorem running_progress_counterexample :
    ((updateBatchJobStatusDisplay sampleLocale samplePage
        (.value (sampleJob (.num 7) "STOPPING" 50 20 0 0))) "batchJobProgress" =
      some { textContent := "0%", classList := [], disabled := false, styleWidth := "0%",
             children := [] } ∧ specProgress 50 20 = 40) ∧
    ((updateBatchJobStatusDisplay sampleLocale samplePage
        (.value (sampleJob (.num 7) "STARTED" 10 8 5 0))) "batchJobProgress" =
      some { textContent := "0%", classList := [], disabled := false, styleWidth := "0%",
             children := [] } ∧ specProgress 10 13 = 130) ∧
    ((updateBatchJobStatusDisplay sampleLocale samplePage
        (.value (sampleJob (.num 7) "STARTED" 40 23 0 0))) "batchJobProgress" =
      some { textContent := "57%", classList := [], disabled := false, styleWidth := "57%",
             children := [] } ∧ specProgress 40 23 = 58) := by
  decide

/-- C5 (amended): for every job snapshot with status STARTING or STARTED whose first step
execution has `scanned = readCount` and `processed = writeCount + writeSkipCount`, the
progress bar shows `progress%` where `progress` is
`Math.round((processed / scanned) * 100)` in double arithmetic when `0 < scanned` and
`processed ≤ scanned` (for `scanned < 2 ^ 44` this is an integer nearest to
`100 * processed / scanned`: it differs from the exact percentage by at most one half, and
an exact half may go either way), is 5 when `scanned = 0 < processed`, and is 0 otherwise
(nothing processed or scanned, or more processed than scanned). -/
theorem running_progress (loc : Locale) (d : Dom) (job : JobExecution) (progressBar : Element)
    (se : StepExecution) (rest : List StepExecution)
    (hbar : d "batchJobProgress" = some progressBar)
    (hsteps : job.stepExecutions = se :: rest)
    (hst : job.status = "STARTING" ∨ job.status = "STARTED") :
    ∃ progress : Nat,
      (updateBatchJobStatusDisplay loc d (.value job)) "batchJobProgress" =
        some { progressBar with
          styleWidth := toString progress ++ "%", textContent := toString progress ++ "%" } ∧
      (0 < se.readCount → se.writeCount + se.writeSkipCount ≤ se.readCount →
        progress = roundPercent (se.writeCount + se.writeSkipCount) se.readCount ∧
        (se.readCount < 2 ^ 44 →
          2 * se.readCount * progress ≤ 200 * (se.writeCount + se.writeSkipCount) + se.readCount ∧
          200 * (se.writeCount + se.writeSkipCount) ≤ 2 * se.readCount * progress + se.readCount)) ∧
      (se.readCount = 0 → 0 < se.writeCount + se.writeSkipCount → progress = 5) ∧
      (se.readCount = 0 → se.writeCount + se.writeSkipCount = 0 → progress = 0) ∧
      (se.readCount < se.writeCount + se.writeSkipCount → 0 < se.readCount → progress = 0) := by
  refine ⟨jobProgress job.status se.readCount (se.writeCount + se.writeSkipCount), ?_, ?_, ?_, ?_, ?_⟩
  · rw [display_progressBar, hbar, jobCounters_cons job se rest hsteps]
    rfl
  · intro hs hps
    have hnt : ¬ (job.status = "COMPLETED" ∨ job.status = "FAILED" ∨ job.status = "STOPPED") := by
      rcases hst with h | h <;> simp [h]
    have hrun : job.status = "STARTED" ∨ job.status = "STARTING" := hst.symm
    have hp : jobProgress job.status se.readCount (se.writeCount + se.writeSkipCount) =
        roundPercent (se.writeCount + se.writeSkipCount) se.readCount := by
      simp only [jobProgress, if_neg hnt, if_pos hrun]
      rw [if_pos ⟨hs, hps⟩]
      exact Nat.min_eq_right (roundPercent_le _ _ hs hps)
    rw [hp]
    exact ⟨rfl, fun hbound => roundPercent_nearest _ _ hs hps hbound⟩
  · intro hs hp
    rcases hst with h | h <;> simp [jobProgress, h, hs] <;> omega
  · intro hs hp
    rcases hst with h | h <;> simp [jobProgress, h, hs] <;> omega
  · intro hlt hs
    have hn : ¬ (0 < se.readCount ∧ se.writeCount + se.writeSkipCount ≤ se.readCount) := by omega
    have hz : ¬ (se.readCount = 0 ∧ 0 < se.writeCount + se.writeSkipCount) := by omega
    rcases hst with h | h <;> simp only [jobProgress, h, gt_iff_lt, if_neg hn, if_neg hz] <;> simp

/-- Witness of C5 (amended) and the scenario of the specification: STARTED with readCount 50,
writeCount 20 and writeSkipCount 0 renders 40%. -/
theorem running_progress_witness :
    (updateBatchJobStatusDisplay sampleLocale samplePage
        (.value (sampleJob (.num 7) "STARTED" 50 20 0 0))) "batchJobProgress" =
      some { textContent := "40%", classList := [], disabled := false, styleWidth := "40%",
             children := [] } := by
  obtain ⟨progress, hshow, hround, -, -, -⟩ :=
    running_progress sampleLocale samplePage (sampleJob (.num 7) "STARTED" 50 20 0 0)
      ⟨"", [], false, "", []⟩ ⟨50, 20, 0, 0⟩ [] rfl rfl (by decide)
  have hnear := (hround (by decide) (by decide)).2 (by decide)
  have h40 : progress = 40 := by
    simp only [Nat.add_zero] at hnear
    omega
  rw [hshow, h40]
  rfl

/-- C6: for every job snapshot, the four counter slots rendered by
`updateBatchJobStatusDisplay` show, for the first step execution of the snapshot,
scanned = readCount, processed = writeCount + writeSkipCount, succeeded = writeCount and
failed = processSkipCount + writeSkipCount; a snapshot without step executions shows 0 in
all four. -/
theorem rendered_counters (loc : Locale) (d : Dom) (job : JobExecution)
    (scanned processed succeeded failed : Element)
    (h1 : d "batchFilesScanned" = some scanned)
    (h2 : d "batchFilesProcessed" = some processed)
    (h3 : d "batchSuccessfullyIndexed" = some succeeded)
    (h4 : d "batchFailedToIndex" = some failed) :
    (∀ (se : StepExecution) (rest : List StepExecution), job.stepExecutions = se :: rest →
      jobCounters job = (se.readCount, se.writeCount + se.writeSkipCount, se.writeCount,
        se.processSkipCount + se.writeSkipCount) ∧
      (updateBatchJobStatusDisplay loc d (.value job)) "batchFilesScanned" =
        some { scanned with textContent := toString se.readCount } ∧
      (updateBatchJobStatusDisplay loc d (.value job)) "batchFilesProcessed" =
        some { processed with textContent := toString (se.writeCount + se.writeSkipCount) } ∧
      (updateBatchJobStatusDisplay loc d (.value job)) "batchSuccessfullyIndexed" =
        some { succeeded with textContent := toString se.writeCount } ∧
      (updateBatchJobStatusDisplay loc d (.value job)) "batchFailedToIndex" =
        some { failed with textContent := toString (se.processSkipCount + se.writeSkipCount) }) ∧
    (job.stepExecutions = [] →
      (updateBatchJobStatusDisplay loc d (.value job)) "batchFilesScanned" =
        some { scanned with textContent := "0" } ∧
      (updateBatchJobStatusDisplay loc d (.value job)) "batchFilesProcessed" =
        some { processed with textContent := "0" } ∧
      (updateBatchJobStatusDisplay loc d (.value job)) "batchSuccessfullyIndexed" =
        some { succeeded with textContent := "0" } ∧
      (updateBatchJobStatusDisplay loc d (.value job)) "batchFailedToIndex" =
        some { failed with textContent := "0" }) := by
  have hc := display_counters loc d job
  simp only [h1, h2, h3, h4, Option.map_some'] at hc
  obtain ⟨c1, c2, c3, c4⟩ := hc
  constructor
  · intro se rest hsteps
    have hj := jobCounters_cons job se rest hsteps
    rw [c1, c2, c3, c4, hj]
    exact ⟨rfl, rfl, rfl, rfl, rfl⟩
  · intro hsteps
    have hj := jobCounters_nil job hsteps
    rw [c1, c2, c3, c4, hj]
    exact ⟨rfl, rfl, rfl, rfl⟩

/-- Witness of C6: readCount 50, writeCount 20, writeSkipCount 3, processSkipCount 4 render
50, 23, 20 and 7. -/
theorem rendered_counters_witness :
    (updateBatchJobStatusDisplay sampleLocale samplePage
        (.value (sampleJob (.num 7) "STARTED" 50 20 3 4))) "batchFilesProcessed" =
      some { textContent := "23", classList := [], disabled := false, styleWidth := "",
             children := [] } ∧
    (updateBatchJobStatusDisplay sampleLocale samplePage
        (.value (sampleJob (.num 7) "STARTED" 50 20 3 4))) "batchFailedToIndex" =
      some { textContent := "7", classList := [], disabled := false, styleWidth := "",
             children := [] } :=
  have h := (rendered_counters sampleLocale samplePage (sampleJob (.num 7) "STARTED" 50 20 3 4)
    ⟨"", [], false, "", []⟩ ⟨"", [], false, "", []⟩ ⟨"", [], false, "", []⟩
    ⟨"", [], false, "", []⟩ rfl rfl rfl rfl).1 ⟨50, 20, 3, 4⟩ [] rfl
  ⟨h.2.2.1, h.2.2.2.2⟩

theorem pad2_length (k : Nat) (hk : k < 100) : (pad2 k).length = 2 := by
  revert k
  decide

theorem secondsToFixed2_nonneg (diff : Int) (h : 0 ≤ diff) :
    secondsToFixed2 diff =
      toString ((Double.ofRatio diff.natAbs 1000).hundredths / 100) ++ "." ++
        pad2 ((Double.ofRatio diff.natAbs 1000).hundredths % 100) := by
  have hn : ¬ diff < 0 := by omega
  simp [secondsToFixed2, hn]

/-- C9: for every job id and every state, when the request of
`fetchAndDisplaySpecificJobStatus` is rejected (with any error) or resolves to `null`, the
call leaves the whole state unchanged: the tracked job id, the page (hence the displayed
job) and the log of rendering calls are those from before the call. -/
theorem failed_specific_fetch_keeps_tracking (loc : Locale) (a : App) (jobExecutionId : JobId) :
    (∀ message : String,
      fetchAndDisplaySpecificJobStatus loc a jobExecutionId (.rejected message) = a) ∧
    fetchAndDisplaySpecificJobStatus loc a jobExecutionId (.resolved none) = a ∧
    (∀ outcome : Outcome JobExecution,
      (outcome = .resolved none ∨ ∃ message, outcome = .rejected message) →
      (fetchAndDisplaySpecificJobStatus loc a jobExecutionId outcome).currentJobExecutionIdForPolling
          = a.currentJobExecutionIdForPolling ∧
      (fetchAndDisplaySpecificJobStatus loc a jobExecutionId outcome).dom = a.dom ∧
      (fetchAndDisplaySpecificJobStatus loc a jobExecutionId outcome).log = a.log) := by
  have hrej : ∀ message : String,
      fetchAndDisplaySpecificJobStatus loc a jobExecutionId (.rejected message) = a := by
    intro message
    unfold fetchAndDisplaySpecificJobStatus
    split <;> rfl
  have hnull : fetchAndDisplaySpecificJobStatus loc a jobExecutionId (.resolved none) = a := by
    unfold fetchAndDisplaySpecificJobStatus
    split <;> rfl
  refine ⟨hrej, hnull, ?_⟩
  rintro outcome (rfl | ⟨message, rfl⟩)
  · rw [hnull]; exact ⟨rfl, rfl, rfl⟩
  · rw [hrej]; exact ⟨rfl, rfl, rfl⟩

/-- Witness of C9: with job 7 tracked, a rejected request for job 7 leaves job 7 tracked. -/
theorem failed_specific_fetch_keeps_tracking_witness :
    (fetchAndDisplaySpecificJobStatus sampleLocale
      { App.initial samplePage with currentJobExecutionIdForPolling := some (.num 7) } (.num 7)
      (.rejected "HTTP error 500: Internal Server Error")).currentJobExecutionIdForPolling
      = some (.num 7) :=
  ((failed_specific_fetch_keeps_tracking sampleLocale
    { App.initial samplePage with currentJobExecutionIdForPolling := some (.num 7) }
    (.num 7)).2.2 (.rejected "HTTP error 500: Internal Server Error")
      (Or.inr ⟨_, rfl⟩)).1

/-- C10: for every tracked job id `j` and timestamps `T0 ≤ T1`, when the request for `j`
resolves to a snapshot with a terminal status (COMPLETED, FAILED or STOPPED), startTime `T0`
and endTime `T1`, then after `fetchAndDisplaySpecificJobStatus(j)` tracking is cleared, the
progress bar shows `100%`, and the duration slot shows `n / 100` written as the integer
part, a point and exactly two decimals, followed by the unit, where for `T1 - T0` below
`2 ^ 53` milliseconds `n / 100` is a hundredth nearest to `(T1 - T0) / 1000` seconds (it
differs from it by at most 0.005; an exact half may go either way, as `toFixed` rounds the
double quotient). -/
theorem terminal_specific_fetch_clears_tracking (loc : Locale) (a : App) (j : JobId)
    (job : JobExecution) (t0 t1 : JsDate) (progressBar durationSlot : Element)
    (htracked : a.currentJobExecutionIdForPolling = some j) (hj : j.truthy = true)
    (hst : job.status = "COMPLETED" ∨ job.status = "FAILED" ∨ job.status = "STOPPED")
    (hstart : job.startTime = some t0) (hend : job.endTime = some t1)
    (ht0 : t0.truthy = true) (ht1 : t1.truthy = true) (hle : t0.getTime ≤ t1.getTime)
    (hbar : a.dom "batchJobProgress" = some progressBar)
    (hdur : a.dom "batchLastRunDuration" = some durationSlot) :
    (fetchAndDisplaySpecificJobStatus loc a j (.resolved (some job))).currentJobExecutionIdForPolling
      = none ∧
    (fetchAndDisplaySpecificJobStatus loc a j (.resolved (some job))).dom "batchJobProgress" =
      some { progressBar with styleWidth := "100%", textContent := "100%" } ∧
    ∃ n : Nat,
      (fetchAndDisplaySpecificJobStatus loc a j (.resolved (some job))).dom "batchLastRunDuration" =
        some { durationSlot with
          textContent := toString (n / 100) ++ "." ++ pad2 (n % 100) ++ " 秒" } ∧
      (pad2 (n % 100)).length = 2 ∧
      (t1.getTime - t0.getTime < 2 ^ 53 →
        10 * (n : Int) ≤ (t1.getTime - t0.getTime) + 5 ∧
        (t1.getTime - t0.getTime) ≤ 10 * (n : Int) + 5) := by
  have hnr : ¬ (job.status = "STARTING" ∨ job.status = "STARTED" ∨ job.status = "STOPPING") := by
    rcases hst with h | h | h <;> simp [h]
  have hdom : (fetchAndDisplaySpecificJobStatus loc a j (.resolved (some job))).dom =
      updateBatchJobStatusDisplay loc a.dom (.value job) := by
    simp only [fetchAndDisplaySpecificJobStatus, hj, displayJob, if_neg hnr]
    simp only [Bool.not_true, Bool.false_eq_true, if_false]
    split <;> rfl
  have hcur : (fetchAndDisplaySpecificJobStatus loc a j
      (.resolved (some job))).currentJobExecutionIdForPolling = none := by
    simp only [fetchAndDisplaySpecificJobStatus, hj, displayJob, if_neg hnr, htracked]
    simp
  refine ⟨hcur, ?_,
    (Double.ofRatio (t1.getTime - t0.getTime).natAbs 1000).hundredths, ?_, ?_, ?_⟩
  · rw [hdom, display_progressBar, hbar]
    have h100 : jobProgress job.status (jobCounters job).1 (jobCounters job).2.1 = 100 := by
      simp [jobProgress, hst]
    rw [h100]
    rfl
  · rw [hdom, display_duration, hdur]
    have hd : jobDuration job = secondsToFixed2 (t1.getTime - t0.getTime) ++ " 秒" := by
      simp [jobDuration, hstart, hend, ht0, ht1]
    rw [hd, secondsToFixed2_nonneg _ (by omega)]
    rfl
  · exact pad2_length _ (Nat.mod_lt _ (by decide))
  · intro hspan
    have hlt : (t1.getTime - t0.getTime).natAbs < 2 ^ 53 := by omega
    have hnear := hundredths_nearest _ hlt
    omega

/-- Witness of C10: job 7 tracked, snapshot COMPLETED with `T0 = 1000` and `T1 = 3500`:
tracking is cleared, the bar shows 100% and the duration slot shows `2.50 秒`. -/
theorem terminal_specific_fetch_clears_tracking_witness :
    (fetchAndDisplaySpecificJobStatus sampleLocale
      { App.initial samplePage with currentJobExecutionIdForPolling := some (.num 7) } (.num 7)
      (.resolved (some { sampleJob (.num 7) "COMPLETED" 50 50 0 0 with
        startTime := some (.iso 1000), endTime := some (.iso 3500) }))).currentJobExecutionIdForPolling
      = none ∧
    (fetchAndDisplaySpecificJobStatus sampleLocale
      { App.initial samplePage with currentJobExecutionIdForPolling := some (.num 7) } (.num 7)
      (.resolved (some { sampleJob (.num 7) "COMPLETED" 50 50 0 0 with
        startTime := some (.iso 1000), endTime := some (.iso 3500) }))).dom "batchLastRunDuration"
      = some { textContent := "2.50 秒", classList := [], disabled := false, styleWidth := "",
               children := [] } := by
  obtain ⟨hcur, -, n, hshow, -, hnear⟩ :=
    terminal_specific_fetch_clears_tracking sampleLocale
      { App.initial samplePage with currentJobExecutionIdForPolling := some (.num 7) } (.num 7)
      { sampleJob (.num 7) "COMPLETED" 50 50 0 0 with
        startTime := some (.iso 1000), endTime := some (.iso 3500) }
      (.iso 1000) (.iso 3500) ⟨"", [], false, "", []⟩ ⟨"", [], false, "", []⟩
      rfl rfl (by decide) rfl rfl rfl rfl (by decide) rfl rfl
  have hn : n = 250 := by
    have h := hnear (by decide)
    simp only [JsDate.getTime] at h
    omega
  subst hn
  exact ⟨hcur, hshow.trans (by decide)⟩

/-! ## The auto-refresh timer -/

theorem timerInv_initial (dom : Dom) : TimerInv (App.initial dom) :=
  Or.inl ⟨rfl, rfl⟩

theorem onAutoRefreshToggle_off (a : App) (h : TimerInv a) :
    onAutoRefreshToggle a false =
      { a with isAutoRefreshEnabled := false
               dom := setDisabled a.dom "autoRefreshInterval" true
               autoRefreshIntervalId := none
               timers := [] } := by
  rcases h with ⟨hid, ht⟩ | ⟨p, hid, hpos, ht, -, -, -⟩
  · cases a
    simp_all [onAutoRefreshToggle, stopAutoRefresh]
  · have hne : a.timersCreated ≠ 0 := by omega
    cases a
    simp_all [onAutoRefreshToggle, stopAutoRefresh, timerIdTruthy, clearInterval]

theorem onAutoRefreshToggle_on (a : App) (h : TimerInv a) (p : Int)
    (hp : a.currentRefreshInterval = some p) (hpos : 0 < p) :
    onAutoRefreshToggle a true =
      { a with isAutoRefreshEnabled := true
               dom := setDisabled a.dom "autoRefreshInterval" false
               autoRefreshIntervalId := some (a.timersCreated + 1)
               timers := [(a.timersCreated + 1, p)]
               timersCreated := a.timersCreated + 1 } := by
  rcases h with ⟨hid, ht⟩ | ⟨q, hid, hcpos, ht, hen, hq, hqpos⟩
  · cases a
    simp_all [onAutoRefreshToggle, startAutoRefresh, setInterval]
  · have hne : a.timersCreated ≠ 0 := by omega
    cases a
    simp_all [onAutoRefreshToggle, startAutoRefresh, setInterval, timerIdTruthy, clearInterval]

theorem onAutoRefreshToggle_on_idle (a : App) (h : TimerInv a)
    (hp : ∀ p : Int, a.currentRefreshInterval = some p → ¬ 0 < p) :
    onAutoRefreshToggle a true =
      { a with isAutoRefreshEnabled := true
               dom := setDisabled a.dom "autoRefreshInterval" false } := by
  rcases h with ⟨hid, ht⟩ | ⟨q, hid, hcpos, ht, hen, hq, hqpos⟩
  · cases a with
    | mk id interval enabled cur dom timers created log =>
      cases interval with
      | none => simp_all [onAutoRefreshToggle, startAutoRefresh]
      | some v =>
        have := hp v rfl
        simp_all [onAutoRefreshToggle, startAutoRefresh]
  · exact absurd hqpos (hp q hq)

theorem timerInv_toggle (a : App) (h : TimerInv a) (checked : Bool) :
    TimerInv (onAutoRefreshToggle a checked) := by
  cases checked with
  | false =>
    rw [onAutoRefreshToggle_off a h]
    exact Or.inl ⟨rfl, rfl⟩
  | true =>
    by_cases hp : ∃ p : Int, a.currentRefreshInterval = some p ∧ 0 < p
    · obtain ⟨p, hp, hpos⟩ := hp
      rw [onAutoRefreshToggle_on a h p hp hpos]
      exact Or.inr ⟨p, rfl, Nat.succ_pos _, rfl, rfl, hp, hpos⟩
    · rw [onAutoRefreshToggle_on_idle a h (fun p hp1 hp2 => hp ⟨p, hp1, hp2⟩)]
      rcases h with ⟨hid, ht⟩ | ⟨q, hid, hcpos, ht, hen, hq, hqpos⟩
      · exact Or.inl ⟨hid, ht⟩
      · exact absurd ⟨q, hq, hqpos⟩ hp

theorem onIntervalChange_off (a : App) (value : Option Int)
    (hoff : a.isAutoRefreshEnabled = false) :
    onIntervalChange a value = { a with currentRefreshInterval := value } := by
  simp [onIntervalChange, hoff]

theorem onIntervalChange_on (a : App) (h : TimerInv a) (v : Int) (hv : 0 < v)
    (hon : a.isAutoRefreshEnabled = true) :
    onIntervalChange a (some v) =
      { a with currentRefreshInterval := some v
               autoRefreshIntervalId := some (a.timersCreated + 1)
               timers := [(a.timersCreated + 1, v)]
               timersCreated := a.timersCreated + 1 } := by
  rcases h with ⟨hid, ht⟩ | ⟨q, hid, hcpos, ht, hen, hq, hqpos⟩
  · cases a
    simp_all [onIntervalChange, startAutoRefresh, stopAutoRefresh, setInterval]
  · have hne : a.timersCreated ≠ 0 := by omega
    cases a
    simp_all [onIntervalChange, startAutoRefresh, stopAutoRefresh, setInterval, timerIdTruthy,
      clearInterval]

theorem onIntervalChange_on_idle (a : App) (h : TimerInv a) (value : Option Int)
    (hv : ∀ v : Int, value = some v → ¬ 0 < v) (hon : a.isAutoRefreshEnabled = true) :
    onIntervalChange a value =
      { a with currentRefreshInterval := value, autoRefreshIntervalId := none, timers := [] } := by
  rcases h with ⟨hid, ht⟩ | ⟨q, hid, hcpos, ht, hen, hq, hqpos⟩
  · cases a
    cases value with
    | none => simp_all [onIntervalChange, startAutoRefresh, stopAutoRefresh]
    | some v =>
      have := hv v rfl
      simp_all [onIntervalChange, startAutoRefresh, stopAutoRefresh]
  · have hne : a.timersCreated ≠ 0 := by omega
    cases a
    cases value with
    | none =>
      simp_all [onIntervalChange, startAutoRefresh, stopAutoRefresh, timerIdTruthy, clearInterval]
    | some v =>
      have := hv v rfl
      simp_all [onIntervalChange, startAutoRefresh, stopAutoRefresh, timerIdTruthy, clearInterval]

theorem timerInv_intervalChange (a : App) (h : TimerInv a) (value : Option Int) :
    TimerInv (onIntervalChange a value) := by
  cases hen : a.isAutoRefreshEnabled with
  | false =>
    rw [onIntervalChange_off a value hen]
    rcases h with ⟨hid, ht⟩ | ⟨q, hid, hcpos, ht, hen', hq, hqpos⟩
    · exact Or.inl ⟨hid, ht⟩
    · rw [hen] at hen'
      cases hen'
  | true =>
    by_cases hp : ∃ v : Int, value = some v ∧ 0 < v
    · obtain ⟨v, rfl, hv⟩ := hp
      rw [onIntervalChange_on a h v hv hen]
      exact Or.inr ⟨v, rfl, Nat.succ_pos _, rfl, hen, rfl, hv⟩
    · rw [onIntervalChange_on_idle a h value (fun v h1 h2 => hp ⟨v, h1, h2⟩) hen]
      exact Or.inl ⟨rfl, rfl⟩

theorem timerInv_runEvents (events : List RefreshEvent) (a : App) (h : TimerInv a) :
    TimerInv (runEvents a events) := by
  induction events generalizing a with
  | nil => exact h
  | cons e es ih =>
    cases e with
    | toggle checked => exact ih _ (timerInv_toggle a h checked)
    | intervalChange value => exact ih _ (timerInv_intervalChange a h value)

theorem runEvents_append (a : App) (es fs : List RefreshEvent) :
    runEvents a (es ++ fs) = runEvents (runEvents a es) fs := by
  simp [runEvents, List.foldl_append]

theorem onAutoRefreshToggle_interval (a : App) (checked : Bool) :
    (onAutoRefreshToggle a checked).currentRefreshInterval = a.currentRefreshInterval := by
  cases a with
  | mk id interval enabled cur dom timers created log =>
    cases checked <;> cases id <;> cases interval <;>
      simp [onAutoRefreshToggle, startAutoRefresh, stopAutoRefresh, setInterval, clearInterval] <;>
      repeat' split
    all_goals rfl

theorem runEvents_toggles_interval (events : List RefreshEvent) (a : App)
    (h : ∀ e ∈ events, ∃ checked, e = RefreshEvent.toggle checked) :
    (runEvents a events).currentRefreshInterval = a.currentRefreshInterval := by
  induction events generalizing a with
  | nil => rfl
  | cons e es ih =>
    obtain ⟨checked, rfl⟩ := h e (List.mem_cons_self _ _)
    have hes : ∀ e ∈ es, ∃ checked, e = RefreshEvent.toggle checked :=
      fun e he => h e (List.mem_cons_of_mem _ he)
    exact (ih (onAutoRefreshToggle a checked) hes).trans (onAutoRefreshToggle_interval a checked)

/-- C7: starting from the initial session state (auto-refresh off, interval 30000, no
timer), after every finite sequence of toggle and interval-change events at most one
periodic timer is live, and `autoRefreshIntervalId` is `null` with no live timer or is the
handle of the only live timer. Moreover toggling off and then on, with no interval change
in between, leaves exactly one live timer (running with the current interval) whenever the
current interval is positive; in particular it does so, with period 30000, when no
interval-change event occurred at all. -/
theorem single_timer_invariant (dom : Dom) (events : List RefreshEvent) :
    (runEvents (App.initial dom) events).timers.length ≤ 1 ∧
    (((runEvents (App.initial dom) events).autoRefreshIntervalId = none ∧
        (runEvents (App.initial dom) events).timers = []) ∨
      ∃ (h : Nat) (p : Int),
        (runEvents (App.initial dom) events).autoRefreshIntervalId = some h ∧
        (runEvents (App.initial dom) events).timers = [(h, p)]) ∧
    (∀ p : Int, (runEvents (App.initial dom) events).currentRefreshInterval = some p → 0 < p →
      (runEvents (App.initial dom)
          (events ++ [RefreshEvent.toggle false, RefreshEvent.toggle true])).timers =
        [((runEvents (App.initial dom) events).timersCreated + 1, p)] ∧
      (runEvents (App.initial dom)
          (events ++ [RefreshEvent.toggle false, RefreshEvent.toggle true])).autoRefreshIntervalId =
        some ((runEvents (App.initial dom) events).timersCreated + 1)) ∧
    ((∀ e ∈ events, ∃ checked, e = RefreshEvent.toggle checked) →
      (runEvents (App.initial dom) events).currentRefreshInterval = some 30000 ∧
      (runEvents (App.initial dom)
          (events ++ [RefreshEvent.toggle false, RefreshEvent.toggle true])).timers =
        [((runEvents (App.initial dom) events).timersCreated + 1, 30000)]) := by
  have hinv := timerInv_runEvents events (App.initial dom) (timerInv_initial dom)
  have hoffon : ∀ p : Int,
      (runEvents (App.initial dom) events).currentRefreshInterval = some p → 0 < p →
      (runEvents (App.initial dom)
          (events ++ [RefreshEvent.toggle false, RefreshEvent.toggle true])).timers =
        [((runEvents (App.initial dom) events).timersCreated + 1, p)] ∧
      (runEvents (App.initial dom)
          (events ++ [RefreshEvent.toggle false, RefreshEvent.toggle true])).autoRefreshIntervalId =
        some ((runEvents (App.initial dom) events).timersCreated + 1) := by
    intro p hp hpos
    have hoff := onAutoRefreshToggle_off _ hinv
    have hinv' := timerInv_toggle _ hinv false
    have hp' : (onAutoRefreshToggle (runEvents (App.initial dom) events)
        false).currentRefreshInterval = some p := by
      rw [onAutoRefreshToggle_interval]; exact hp
    have hon := onAutoRefreshToggle_on _ hinv' p hp' hpos
    rw [runEvents_append]
    simp only [runEvents, List.foldl_cons, List.foldl_nil, RefreshEvent.apply]
    simp only [runEvents] at hon hoff
    rw [hon, hoff]
    exact ⟨rfl, rfl⟩
  refine ⟨?_, ?_, hoffon, ?_⟩
  · rcases hinv with ⟨-, ht⟩ | ⟨p, -, -, ht, -, -, -⟩ <;> simp [ht]
  · rcases hinv with ⟨hid, ht⟩ | ⟨p, hid, -, ht, -, -, -⟩
    · exact Or.inl ⟨hid, ht⟩
    · exact Or.inr ⟨_, p, hid, ht⟩
  · intro h
    have h30 : (runEvents (App.initial dom) events).currentRefreshInterval = some 30000 :=
      runEvents_toggles_interval events _ h
    exact ⟨h30, (hoffon 30000 h30 (by decide)).1⟩

/-- Witness of C7: on, interval 5000, on again, then off and on: one live timer, the fourth
created, with period 5000. -/
theorem single_timer_invariant_witness :
    (runEvents (App.initial samplePage)
      ([RefreshEvent.toggle true, RefreshEvent.intervalChange (some 5000),
        RefreshEvent.toggle true] ++
        [RefreshEvent.toggle false, RefreshEvent.toggle true])).timers = [(4, 5000)] :=
  ((single_timer_invariant samplePage
    [RefreshEvent.toggle true, RefreshEvent.intervalChange (some 5000),
      RefreshEvent.toggle true]).2.2.1 5000 (by decide) (by decide)).1

/-- C8: for every positive interval value `v` and every state reached from the initial
state, an interval-change event received while auto-refresh is on cancels the previous
timer and leaves exactly one live timer, newly created with period `v` and stored in
`autoRefreshIntervalId`, with auto-refresh still on; received while auto-refresh is off it
only updates `currentRefreshInterval`: no timer is created and none is live. -/
theorem interval_change_rearms (dom : Dom) (events : List RefreshEvent) (v : Int) (hv : 0 < v) :
    ((runEvents (App.initial dom) events).isAutoRefreshEnabled = true →
      (onIntervalChange (runEvents (App.initial dom) events) (some v)).timers =
        [((runEvents (App.initial dom) events).timersCreated + 1, v)] ∧
      (onIntervalChange (runEvents (App.initial dom) events) (some v)).autoRefreshIntervalId =
        some ((runEvents (App.initial dom) events).timersCreated + 1) ∧
      (∀ t ∈ (runEvents (App.initial dom) events).timers,
        t ∉ (onIntervalChange (runEvents (App.initial dom) events) (some v)).timers) ∧
      (onIntervalChange (runEvents (App.initial dom) events) (some v)).isAutoRefreshEnabled = true ∧
      (onIntervalChange (runEvents (App.initial dom) events) (some v)).currentRefreshInterval =
        some v) ∧
    ((runEvents (App.initial dom) events).isAutoRefreshEnabled = false →
      onIntervalChange (runEvents (App.initial dom) events) (some v) =
        { runEvents (App.initial dom) events with currentRefreshInterval := some v } ∧
      (onIntervalChange (runEvents (App.initial dom) events) (some v)).timers = []) := by
  have hinv := timerInv_runEvents events (App.initial dom) (timerInv_initial dom)
  constructor
  · intro hon
    rw [onIntervalChange_on _ hinv v hv hon]
    refine ⟨rfl, rfl, ?_, hon, rfl⟩
    intro t ht
    rcases hinv with ⟨-, hnil⟩ | ⟨p, -, -, hone, -, -, -⟩
    · rw [hnil] at ht
      cases ht
    · rw [hone] at ht
      simp only [List.mem_singleton] at ht
      subst ht
      simp
  · intro hoff
    rw [onIntervalChange_off _ _ hoff]
    refine ⟨rfl, ?_⟩
    rcases hinv with ⟨-, hnil⟩ | ⟨p, -, -, -, hen, -, -⟩
    · exact hnil
    · rw [hoff] at hen
      cases hen

/-- Witness of C8: auto-refresh on with the 30000 timer, then interval 5000: the only live
timer is the second one created, with period 5000. -/
theorem interval_change_rearms_witness :
    (onIntervalChange (runEvents (App.initial samplePage) [RefreshEvent.toggle true])
      (some 5000)).timers = [(2, 5000)] :=
  ((interval_change_rearms samplePage [RefreshEvent.toggle true] 5000 (by decide)).1
    (by decide)).1

/-! ## The refresh cycle -/

theorem isTerminal_iff (status : String) :
    isTerminal status = true ↔
      (status = "COMPLETED" ∨ status = "FAILED" ∨ status = "STOPPED") := by
  simp [isTerminal, terminalStatuses]

theorem renderPanels_polling (loc : Locale) (a : App) (health esHealth : Outcome HealthData)
    (kafkaLag : Outcome LagData) (dlqSummary : Outcome DlqSummary)
    (esIndexStats : Outcome IndexStats) :
    (renderPanels loc a health esHealth kafkaLag dlqSummary
        esIndexStats).currentJobExecutionIdForPolling = a.currentJobExecutionIdForPolling ∧
    (renderPanels loc a health esHealth kafkaLag dlqSummary esIndexStats).log = a.log := by
  unfold renderPanels
  simp only
  split <;> split <;> split <;> exact ⟨rfl, rfl⟩

theorem pollTrackedJob_log (a : App) : (pollTrackedJob a).log = a.log ++ polledJob a := by
  unfold pollTrackedJob polledJob
  split
  · split <;> simp
  · simp

theorem pollTrackedJob_polling (a : App) :
    (pollTrackedJob a).currentJobExecutionIdForPolling = a.currentJobExecutionIdForPolling := by
  unfold pollTrackedJob
  split
  · split <;> rfl
  · rfl

theorem finishCycle_log (loc : Locale) (a : App) :
    (finishCycle loc a).log = a.log ++ finishLog a := by
  unfold finishCycle finishLog
  split
  · split <;> simp
  · simp

theorem finishCycle_polling (loc : Locale) (a : App) :
    (finishCycle loc a).currentJobExecutionIdForPolling = a.currentJobExecutionIdForPolling := by
  unfold finishCycle
  split
  · split <;> rfl
  · rfl

theorem mem_finishLog (a : App) (e : Effect) (h : e ∈ finishLog a) :
    e = Effect.uncaught "TypeError: Cannot read properties of null" := by
  unfold finishLog at h
  split at h
  · cases h
  · simpa using h

theorem mem_polledJob (a : App) (e : Effect) :
    e ∈ polledJob a ↔
      ∃ k, e = Effect.specificFetch k ∧ a.currentJobExecutionIdForPolling = some k ∧
        k.truthy = true := by
  unfold polledJob
  cases hc : a.currentJobExecutionIdForPolling with
  | none => simp
  | some j =>
    by_cases hj : j.truthy = true
    · simp only [hj, if_true, List.mem_singleton, Option.some.injEq]
      constructor
      · rintro rfl
        exact ⟨j, rfl, rfl, hj⟩
      · rintro ⟨k, rfl, rfl, -⟩
        rfl
    · have hf : j.truthy = false := by simpa using hj
      simp only [hf]
      constructor
      · intro h
        simp at h
      · rintro ⟨k, -, hk, hkt⟩
        cases hk
        rw [hf] at hkt
        cases hkt

/-- The reconciliation block on a non-empty list when the display is to be updated. -/
theorem reconcile_adopts (loc : Locale) (a : App) (latest : JobExecution)
    (rest : List JobExecution)
    (h : a.currentJobExecutionIdForPolling = none ∨
      ∃ job ∈ latest :: rest, a.currentJobExecutionIdForPolling = some job.jobExecutionId ∧
        isTerminal job.status = true) :
    reconcileLatestJobs loc a (.value (latest :: rest)) =
      ({ a with
          dom := updateBatchJobStatusDisplay loc
            (updateBatchJobHistory loc a.dom (.value (latest :: rest))).1 (.value latest)
          log := a.log ++ [Effect.historyRendered (.value (latest :: rest)),
            Effect.jobDisplayed (.value latest)]
          currentJobExecutionIdForPolling :=
            if isTerminal latest.status = true then none else some latest.jobExecutionId },
        none) := by
  have hshould : (!pollingIdTruthy (renderHistory loc a (.value (latest :: rest))).1 ||
      (pollingIdTruthy (renderHistory loc a (.value (latest :: rest))).1 &&
        ((latest :: rest).find? (fun job =>
          decide (some job.jobExecutionId =
            (renderHistory loc a (.value (latest :: rest))).1.currentJobExecutionIdForPolling) &&
          isTerminal job.status)).isSome)) = true := by
    rcases h with hnone | ⟨job, hmem, hid, hterm⟩
    · simp [pollingIdTruthy, renderHistory, hnone]
    · cases hp : pollingIdTruthy (renderHistory loc a (.value (latest :: rest))).1 with
      | false => simp
      | true =>
        simp only [Bool.not_true, Bool.false_or, Bool.true_and]
        rw [List.find?_isSome]
        exact ⟨job, hmem, by simp [renderHistory, hid, hterm]⟩
  simp only [reconcileLatestJobs, hshould, if_true]
  cases ht : isTerminal latest.status <;>
    simp [displayJob, renderHistory]

theorem newLog_append (a b : App) (l : List Effect) (h : b.log = a.log ++ l) :
    newLog a b = l := by
  unfold newLog
  rw [h, List.drop_left]

/-- C1: for every non-empty fresh job list `latest :: rest` (newest first) and every polling
state in which no job is tracked or the tracked id appears in the list with status
COMPLETED, FAILED or STOPPED, the reconciliation block of `fetchAllData` raises nothing,
renders the history and calls `updateBatchJobStatusDisplay` exactly once, with the first
list entry, and afterwards the tracked id is that entry's `jobExecutionId` if its status is
non-terminal and `null` otherwise; the same holds for the whole cycle, whatever the other
five requests return. -/
theorem newest_job_adopted (loc : Locale) (a : App) (latest : JobExecution)
    (rest : List JobExecution)
    (h : a.currentJobExecutionIdForPolling = none ∨
      ∃ job ∈ latest :: rest, a.currentJobExecutionIdForPolling = some job.jobExecutionId ∧
        (job.status = "COMPLETED" ∨ job.status = "FAILED" ∨ job.status = "STOPPED")) :
    (reconcileLatestJobs loc a (.value (latest :: rest))).2 = none ∧
    newLog a (reconcileLatestJobs loc a (.value (latest :: rest))).1 =
      [Effect.historyRendered (.value (latest :: rest)), Effect.jobDisplayed (.value latest)] ∧
    (reconcileLatestJobs loc a (.value (latest :: rest))).1.dom =
      updateBatchJobStatusDisplay loc
        (updateBatchJobHistory loc a.dom (.value (latest :: rest))).1 (.value latest) ∧
    (reconcileLatestJobs loc a (.value (latest :: rest))).1.currentJobExecutionIdForPolling =
      (if latest.status = "COMPLETED" ∨ latest.status = "FAILED" ∨ latest.status = "STOPPED"
        then none else some latest.jobExecutionId) ∧
    ∀ (health esHealth : Outcome HealthData) (kafkaLag : Outcome LagData)
      (dlqSummary : Outcome DlqSummary) (esIndexStats : Outcome IndexStats),
      (∀ arg : Fetched JobExecution,
        Effect.jobDisplayed arg ∈ newLog a (fetchAllData loc a health esHealth kafkaLag dlqSummary
          (.resolved (some (latest :: rest))) esIndexStats) ↔ arg = .value latest) ∧
      (fetchAllData loc a health esHealth kafkaLag dlqSummary
          (.resolved (some (latest :: rest))) esIndexStats).currentJobExecutionIdForPolling =
        (if latest.status = "COMPLETED" ∨ latest.status = "FAILED" ∨ latest.status = "STOPPED"
          then none else some latest.jobExecutionId) := by
  have hterm : ∀ (x : App), (a.currentJobExecutionIdForPolling = x.currentJobExecutionIdForPolling) →
      (x.currentJobExecutionIdForPolling = none ∨
      ∃ job ∈ latest :: rest, x.currentJobExecutionIdForPolling = some job.jobExecutionId ∧
        isTerminal job.status = true) := by
    intro x hx
    rw [← hx]
    rcases h with h | ⟨job, hm, hid, hst⟩
    · exact Or.inl h
    · exact Or.inr ⟨job, hm, hid, (isTerminal_iff _).2 hst⟩
  have hif : (if isTerminal latest.status = true then (none : Option JobId)
      else some latest.jobExecutionId) =
      (if latest.status = "COMPLETED" ∨ latest.status = "FAILED" ∨ latest.status = "STOPPED"
        then none else some latest.jobExecutionId) := by
    simp only [isTerminal_iff]
  refine ⟨?_, ?_, ?_, ?_, ?_⟩
  · rw [reconcile_adopts loc a latest rest (hterm a rfl)]
  · rw [reconcile_adopts loc a latest rest (hterm a rfl)]
    exact newLog_append _ _ _ rfl
  · rw [reconcile_adopts loc a latest rest (hterm a rfl)]
  · rw [reconcile_adopts loc a latest rest (hterm a rfl)]
    exact hif
  · intro health esHealth kafkaLag dlqSummary esIndexStats
    have hp := renderPanels_polling loc
      { a with dom := updateText a.dom "lastDataUpdate" (some "加载中...") }
      health esHealth kafkaLag dlqSummary esIndexStats
    have hr := reconcile_adopts loc (renderPanels loc
      { a with dom := updateText a.dom "lastDataUpdate" (some "加载中...") }
      health esHealth kafkaLag dlqSummary esIndexStats) latest rest (hterm _ hp.1.symm)
    have hfetch : fetchAllData loc a health esHealth kafkaLag dlqSummary
        (.resolved (some (latest :: rest))) esIndexStats =
        finishCycle loc (pollTrackedJob (reconcileLatestJobs loc (renderPanels loc
          { a with dom := updateText a.dom "lastDataUpdate" (some "加载中...") }
          health esHealth kafkaLag dlqSummary esIndexStats) (.value (latest :: rest))).1) := by
      simp only [fetchAllData, settle, hr]
    constructor
    · intro arg
      have hlog : (fetchAllData loc a health esHealth kafkaLag dlqSummary
          (.resolved (some (latest :: rest))) esIndexStats).log =
          a.log ++ ([Effect.historyRendered (.value (latest :: rest)),
            Effect.jobDisplayed (.value latest)] ++
            polledJob (reconcileLatestJobs loc (renderPanels loc
              { a with dom := updateText a.dom "lastDataUpdate" (some "加载中...") }
              health esHealth kafkaLag dlqSummary esIndexStats) (.value (latest :: rest))).1 ++
            finishLog (pollTrackedJob (reconcileLatestJobs loc (renderPanels loc
              { a with dom := updateText a.dom "lastDataUpdate" (some "加载中...") }
              health esHealth kafkaLag dlqSummary esIndexStats) (.value (latest :: rest))).1)) := by
        rw [hfetch, finishCycle_log, pollTrackedJob_log]
        rw [hr]
        simp only [hp.2, List.append_assoc]
      rw [newLog_append _ _ _ hlog]
      simp only [List.mem_append, List.mem_cons, List.mem_singleton, List.not_mem_nil, or_false]
      constructor
      · rintro ((h1 | h1) | h1)
        · rcases h1 with h1 | h1
          · cases h1
          · cases h1
            rfl
        · obtain ⟨k, hk, -⟩ := (mem_polledJob _ _).1 h1
          cases hk
        · have := mem_finishLog _ _ h1
          cases this
      · rintro rfl
        exact Or.inl (Or.inl (Or.inr rfl))
    · rw [hfetch, finishCycle_polling, pollTrackedJob_polling, hr]
      exact hif

/-- Witness of C1, the scenario of the specification: nothing tracked and the list
`[{id: 7, status: STARTED}]`: job 7 is displayed and becomes the tracked job. -/
theorem newest_job_adopted_witness :
    (reconcileLatestJobs sampleLocale (App.initial samplePage)
      (.value [sampleJob (.num 7) "STARTED" 50 20 0 0])).1.currentJobExecutionIdForPolling =
      some (.num 7) ∧
    newLog (App.initial samplePage) (reconcileLatestJobs sampleLocale (App.initial samplePage)
      (.value [sampleJob (.num 7) "STARTED" 50 20 0 0])).1 =
      [Effect.historyRendered (.value [sampleJob (.num 7) "STARTED" 50 20 0 0]),
       Effect.jobDisplayed (.value (sampleJob (.num 7) "STARTED" 50 20 0 0))] :=
  have h := newest_job_adopted sampleLocale (App.initial samplePage)
    (sampleJob (.num 7) "STARTED" 50 20 0 0) [] (Or.inl rfl)
  ⟨h.2.2.2.1.trans (by decide), h.2.1⟩

/-- The reconciliation block never raises when the job list request resolves, and it logs
rendering calls only. -/
theorem reconcile_resolved (loc : Locale) (a : App) (data : Option (List JobExecution)) :
    (reconcileLatestJobs loc a (settle "最新批处理作业" (.resolved data))).2 = none ∧
    ∃ rendered : List Effect,
      (reconcileLatestJobs loc a (settle "最新批处理作业" (.resolved data))).1.log =
        a.log ++ rendered ∧
      ∀ e ∈ rendered, ∀ k, e ≠ Effect.specificFetch k := by
  cases data with
  | none =>
    refine ⟨rfl, [Effect.historyRendered (.value []), Effect.jobDisplayed .null], ?_, ?_⟩
    · simp [settle, reconcileLatestJobs, displayJob, renderHistory]
    · intro e he k
      simp at he
      rcases he with rfl | rfl <;> simp
  | some jobs =>
    cases jobs with
    | nil =>
      simp only [settle, reconcileLatestJobs]
      split
      · refine ⟨rfl, [Effect.historyRendered (.value []), Effect.jobDisplayed .null], ?_, ?_⟩
        · simp [displayJob, renderHistory]
        · intro e he k
          simp at he
          rcases he with rfl | rfl <;> simp
      · refine ⟨rfl, [Effect.historyRendered (.value [])], ?_, ?_⟩
        · simp [renderHistory]
        · intro e he k
          simp at he
          rcases he with rfl
          simp
    | cons latest rest =>
      simp only [settle, reconcileLatestJobs]
      split
      · split
        all_goals
          refine ⟨rfl, [Effect.historyRendered (.value (latest :: rest)),
            Effect.jobDisplayed (.value latest)], ?_, ?_⟩
          · simp [displayJob, renderHistory]
          · intro e he k
            simp at he
            rcases he with rfl | rfl <;> simp
      · refine ⟨rfl, [Effect.historyRendered (.value (latest :: rest))], ?_, ?_⟩
        · simp [renderHistory]
        · intro e he k
          simp at he
          rcases he with rfl
          simp

/-- The reconciliation block keeps a tracked id that the list does not show as terminal. -/
theorem reconcile_keeps (loc : Locale) (a : App) (j : JobId) (data : Option (List JobExecution))
    (hcur : a.currentJobExecutionIdForPolling = some j) (hj : j.truthy = true)
    (hlist : ∀ jobs, data = some jobs → ∀ job ∈ jobs,
      ¬ (job.jobExecutionId = j ∧ isTerminal job.status = true)) :
    (reconcileLatestJobs loc a
      (settle "最新批处理作业" (.resolved data))).1.currentJobExecutionIdForPolling = some j := by
  cases data with
  | none => simp [settle, reconcileLatestJobs, displayJob, renderHistory, hcur]
  | some jobs =>
    have hfind : jobs.find? (fun job =>
        decide (some job.jobExecutionId = some j) && isTerminal job.status) = none := by
      rw [List.find?_eq_none]
      intro job hmem
      have := hlist jobs rfl job hmem
      simp only [Option.some.injEq, Bool.and_eq_true, decide_eq_true_eq]
      exact this
    cases jobs with
    | nil => simp [settle, reconcileLatestJobs, renderHistory, pollingIdTruthy, hcur, hj]
    | cons latest rest =>
      have hshould : (!pollingIdTruthy (renderHistory loc a (.value (latest :: rest))).1 ||
          (pollingIdTruthy (renderHistory loc a (.value (latest :: rest))).1 &&
            ((latest :: rest).find? (fun job =>
              decide (some job.jobExecutionId =
                (renderHistory loc a (.value (latest :: rest))).1.currentJobExecutionIdForPolling) &&
              isTerminal job.status)).isSome)) = false := by
        have hc : (renderHistory loc a (.value (latest :: rest))).1.currentJobExecutionIdForPolling
            = some j := hcur
        have hp : pollingIdTruthy (renderHistory loc a (.value (latest :: rest))).1 = true := by
          simp [pollingIdTruthy, hc, hj]
        rw [hp, hc, hfind]
        rfl
      simp only [settle, reconcileLatestJobs, hshould]
      exact hcur

/-- C2 (counterexample): the cycle begins with job 7 tracked and the fresh list shows job 7
as COMPLETED: reconciliation clears the tracking and the cycle issues no specific-status
fetch at all (it only renders the history and the newest job). -/
theorem specific_fetch_counterexample :
    newLog { App.initial samplePage with currentJobExecutionIdForPolling := some (.num 7) }
      (fetchAllData sampleLocale
        { App.initial samplePage with currentJobExecutionIdForPolling := some (.num 7) }
        (.resolved (some ⟨some "UP", false⟩)) (.resolved (some ⟨some "GREEN", false⟩))
        (.resolved (some [])) (.resolved (some []))
        (.resolved (some [sampleJob (.num 7) "COMPLETED" 50 50 0 0]))
        (.resolved none)) =
      [Effect.historyRendered (.value [sampleJob (.num 7) "COMPLETED" 50 50 0 0]),
       Effect.jobDisplayed (.value (sampleJob (.num 7) "COMPLETED" 50 50 0 0))] ∧
    Effect.specificFetch (.num 7) ∉
      newLog { App.initial samplePage with currentJobExecutionIdForPolling := some (.num 7) }
        (fetchAllData sampleLocale
          { App.initial samplePage with currentJobExecutionIdForPolling := some (.num 7) }
          (.resolved (some ⟨some "UP", false⟩)) (.resolved (some ⟨some "GREEN", false⟩))
          (.resolved (some [])) (.resolved (some []))
          (.resolved (some [sampleJob (.num 7) "COMPLETED" 50 50 0 0]))
          (.resolved none)) := by
  decide

/-- C2 (amended): in every refresh cycle whose latest-job-list request resolves (to a list
or to no content), whatever the other requests return, a specific-status fetch is issued
exactly for the job id that is tracked after the list-based reconciliation (none when
tracking was cleared). In particular, when the cycle begins with a tracked id `j` that the
list does not show with a terminal status, the fetch for `j` is issued. -/
theorem specific_fetch_follows_reconciliation (loc : Locale) (a : App)
    (health esHealth : Outcome HealthData) (kafkaLag : Outcome LagData)
    (dlqSummary : Outcome DlqSummary) (esIndexStats : Outcome IndexStats)
    (data : Option (List JobExecution)) :
    (∀ k : JobId,
      Effect.specificFetch k ∈ newLog a (fetchAllData loc a health esHealth kafkaLag dlqSummary
          (.resolved data) esIndexStats) ↔
        ((fetchAllData loc a health esHealth kafkaLag dlqSummary
          (.resolved data) esIndexStats).currentJobExecutionIdForPolling = some k ∧
          k.truthy = true)) ∧
    (∀ j : JobId, a.currentJobExecutionIdForPolling = some j → j.truthy = true →
      (∀ jobs, data = some jobs → ∀ job ∈ jobs, ¬ (job.jobExecutionId = j ∧
        (job.status = "COMPLETED" ∨ job.status = "FAILED" ∨ job.status = "STOPPED"))) →
      Effect.specificFetch j ∈ newLog a (fetchAllData loc a health esHealth kafkaLag dlqSummary
          (.resolved data) esIndexStats)) := by
  have hp := renderPanels_polling loc
    { a with dom := updateText a.dom "lastDataUpdate" (some "加载中...") }
    health esHealth kafkaLag dlqSummary esIndexStats
  obtain ⟨hnone, rendered, hlogr, hrendered⟩ := reconcile_resolved loc (renderPanels loc
    { a with dom := updateText a.dom "lastDataUpdate" (some "加载中...") }
    health esHealth kafkaLag dlqSummary esIndexStats) data
  have hfetch : fetchAllData loc a health esHealth kafkaLag dlqSummary
      (.resolved data) esIndexStats =
      finishCycle loc (pollTrackedJob (reconcileLatestJobs loc (renderPanels loc
        { a with dom := updateText a.dom "lastDataUpdate" (some "加载中...") }
        health esHealth kafkaLag dlqSummary esIndexStats)
        (settle "最新批处理作业" (.resolved data))).1) := by
    simp only [fetchAllData, hnone]
  have hcur : (fetchAllData loc a health esHealth kafkaLag dlqSummary
      (.resolved data) esIndexStats).currentJobExecutionIdForPolling =
      (reconcileLatestJobs loc (renderPanels loc
        { a with dom := updateText a.dom "lastDataUpdate" (some "加载中...") }
        health esHealth kafkaLag dlqSummary esIndexStats)
        (settle "最新批处理作业" (.resolved data))).1.currentJobExecutionIdForPolling := by
    rw [hfetch, finishCycle_polling, pollTrackedJob_polling]
  have hlog : (fetchAllData loc a health esHealth kafkaLag dlqSummary
      (.resolved data) esIndexStats).log =
      a.log ++ (rendered ++ polledJob (reconcileLatestJobs loc (renderPanels loc
          { a with dom := updateText a.dom "lastDataUpdate" (some "加载中...") }
          health esHealth kafkaLag dlqSummary esIndexStats)
          (settle "最新批处理作业" (.resolved data))).1 ++
        finishLog (pollTrackedJob (reconcileLatestJobs loc (renderPanels loc
          { a with dom := updateText a.dom "lastDataUpdate" (some "加载中...") }
          health esHealth kafkaLag dlqSummary esIndexStats)
          (settle "最新批处理作业" (.resolved data))).1)) := by
    rw [hfetch, finishCycle_log, pollTrackedJob_log, hlogr, hp.2]
    simp only [List.append_assoc]
  have hiff : ∀ k : JobId,
      Effect.specificFetch k ∈ newLog a (fetchAllData loc a health esHealth kafkaLag dlqSummary
          (.resolved data) esIndexStats) ↔
        ((fetchAllData loc a health esHealth kafkaLag dlqSummary
          (.resolved data) esIndexStats).currentJobExecutionIdForPolling = some k ∧
          k.truthy = true) := by
    intro k
    rw [newLog_append _ _ _ hlog, hcur]
    simp only [List.mem_append]
    constructor
    · rintro ((h1 | h1) | h1)
      · exact absurd rfl (hrendered _ h1 k)
      · obtain ⟨k', hk', hc, ht⟩ := (mem_polledJob _ _).1 h1
        cases hk'
        exact ⟨hc, ht⟩
      · have := mem_finishLog _ _ h1
        cases this
    · rintro ⟨hc, ht⟩
      exact Or.inl (Or.inr ((mem_polledJob _ _).2 ⟨k, rfl, hc, ht⟩))
  refine ⟨hiff, ?_⟩
  intro j hj htruthy hlist
  rw [hiff j, hcur]
  refine ⟨reconcile_keeps loc _ j data (hp.1.trans hj) htruthy ?_, htruthy⟩
  intro jobs hd job hmem hbad
  exact hlist jobs hd job hmem ⟨hbad.1, (isTerminal_iff _).1 hbad.2⟩

/-- Witness of C2 (amended): job 7 is tracked and the list shows it as STARTED below a
COMPLETED job 8: the cycle issues the specific-status fetch for job 7. -/
theorem specific_fetch_follows_reconciliation_witness :
    Effect.specificFetch (.num 7) ∈
      newLog { App.initial samplePage with currentJobExecutionIdForPolling := some (.num 7) }
        (fetchAllData sampleLocale
          { App.initial samplePage with currentJobExecutionIdForPolling := some (.num 7) }
          (.resolved (some ⟨some "UP", false⟩)) (.resolved (some ⟨some "GREEN", false⟩))
          (.resolved (some [])) (.resolved (some []))
          (.resolved (some [sampleJob (.num 8) "COMPLETED" 9 9 0 0,
            sampleJob (.num 7) "STARTED" 50 20 0 0]))
          (.resolved none)) :=
  (specific_fetch_follows_reconciliation sampleLocale
    { App.initial samplePage with currentJobExecutionIdForPolling := some (.num 7) }
    (.resolved (some ⟨some "UP", false⟩)) (.resolved (some ⟨some "GREEN", false⟩))
    (.resolved (some [])) (.resolved (some []))
    (.resolved none)
    (some [sampleJob (.num 8) "COMPLETED" 9 9 0 0, sampleJob (.num 7) "STARTED" 50 20 0 0])).2
    (.num 7) rfl rfl
    (fun jobs hjobs job hmem => by
      cases hjobs
      simp only [List.mem_cons, List.mem_singleton, List.not_mem_nil, or_false] at hmem
      rcases hmem with rfl | rfl <;> decide)

/-- C3 (the code at the failing input): nothing is tracked, every element of the page
exists, and only the latest-job-list request fails. `updateBatchJobHistory` receives the
tagged value and raises, so the cycle ends in the top-level `catch`: the page-level failure
notification is shown, the job panel is not rendered at all (its status slot keeps its
old, blank text instead of a failure state) and no specific-status fetch is issued, while
the panels rendered before it are up to date. -/
theorem job_list_failure_reaches_top_level_catch :
    (fetchAllData sampleLocale (App.initial samplePage)
      (.resolved (some ⟨some "UP", false⟩)) (.resolved (some ⟨some "GREEN", false⟩))
      (.resolved (some [])) (.resolved (some []))
      (.rejected "HTTP error 500: Internal Server Error")
      (.resolved none)).log =
      [Effect.historyRendered (.errorTag "HTTP error 500: Internal Server Error" "最新批处理作业"),
       Effect.notification "获取部分或全部监控数据失败，请检查控制台日志。" "error"] ∧
    ((fetchAllData sampleLocale (App.initial samplePage)
      (.resolved (some ⟨some "UP", false⟩)) (.resolved (some ⟨some "GREEN", false⟩))
      (.resolved (some [])) (.resolved (some []))
      (.rejected "HTTP error 500: Internal Server Error")
      (.resolved none)).dom "batchJobStatus").map (fun e => e.textContent) = some "" ∧
    ((fetchAllData sampleLocale (App.initial samplePage)
      (.resolved (some ⟨some "UP", false⟩)) (.resolved (some ⟨some "GREEN", false⟩))
      (.resolved (some [])) (.resolved (some []))
      (.rejected "HTTP error 500: Internal Server Error")
      (.resolved none)).dom "indexerStatus").map (fun e => e.textContent) = some "UP" := by
  decide

/-! ## Starting a job -/

theorem handleStartBatchJobBegin_spec (a : App) :
    handleStartBatchJobBegin a =
      { a with
        dom := updateText (setDisabled a.dom "startBatchJobButton" true) "batchJobStatus"
          (some "请求启动中...")
        log := a.log ++ [Effect.notification "正在请求启动历史数据索引作业..." "info"] } := rfl

theorem startWithoutId_spec (a : App) :
    startWithoutId a =
      { a with
        dom := setDisabled a.dom "startBatchJobButton" false
        log := a.log ++ [Effect.notification "启动作业失败，未收到有效的作业执行ID。" "error"] } := rfl

/-- C11: for every start response that carries a (truthy) `jobExecutionId`,
`handleStartBatchJob` sets the tracked job id to that id, whatever was tracked before,
leaves the start control disabled, and, after its two notifications, starts a
specific-status fetch for that id and a full refresh cycle. The part of the handler that
runs when the response arrives writes nothing to the page but the text `加载中...` of
`lastDataUpdate`, with which the refresh cycle begins: every other element, the start
control among them, is as it was. -/
theorem start_sets_tracking (a : App) (result : StartResult) (id : JobId)
    (startButton : Element) (hid : result.jobExecutionId = some id) (htruthy : id.truthy = true)
    (hbutton : a.dom "startBatchJobButton" = some startButton) :
    (handleStartBatchJob a (.resolved (some result))).currentJobExecutionIdForPolling = some id ∧
    (handleStartBatchJob a (.resolved (some result))).dom "startBatchJobButton" =
      some { startButton with disabled := true } ∧
    newLog a (handleStartBatchJob a (.resolved (some result))) =
      [Effect.notification "正在请求启动历史数据索引作业..." "info",
       Effect.notification ("作业已请求启动。ID: " ++ id.toText ++ ", 状态: " ++
          (match result.status with
           | some st => st
           | none => "undefined")) "success",
       Effect.specificFetch id, Effect.refresh] ∧
    (∀ s : App,
      (handleStartBatchJobSettle s (.resolved (some result))).dom =
        updateText s.dom "lastDataUpdate" (some "加载中...") ∧
      (∀ k : String, k ≠ "lastDataUpdate" →
        (handleStartBatchJobSettle s (.resolved (some result))).dom k = s.dom k) ∧
      (handleStartBatchJobSettle s (.resolved (some result))).dom "startBatchJobButton" =
        s.dom "startBatchJobButton" ∧
      (handleStartBatchJobSettle s (.resolved (some result))).currentJobExecutionIdForPolling =
        some id) := by
  have hsettle : ∀ s : App, handleStartBatchJobSettle s (.resolved (some result)) =
      { s with
        currentJobExecutionIdForPolling := some id
        dom := updateText s.dom "lastDataUpdate" (some "加载中...")
        log := s.log ++ [Effect.notification ("作业已请求启动。ID: " ++ id.toText ++ ", 状态: " ++
            (match result.status with
             | some st => st
             | none => "undefined")) "success", Effect.specificFetch id, Effect.refresh] } := by
    intro s
    simp [handleStartBatchJobSettle, hid, htruthy, showNotification]
  refine ⟨?_, ?_, ?_, ?_⟩
  · rw [handleStartBatchJob, hsettle]
  · rw [handleStartBatchJob, hsettle, handleStartBatchJobBegin_spec]
    simp [updateText_apply, setDisabled_apply, hbutton]
  · rw [handleStartBatchJob, hsettle, handleStartBatchJobBegin_spec]
    apply newLog_append
    simp
  · intro s
    rw [hsettle]
    refine ⟨rfl, ?_, ?_, rfl⟩
    · intro k hk
      simp [updateText_apply, hk]
    · simp [updateText_apply]

/-- Witness of C11: job 3 is tracked and the start response is `{jobExecutionId: 9,
status: "STARTING"}`: job 9 becomes the tracked job, and the start control is disabled. -/
theorem start_sets_tracking_witness :
    (handleStartBatchJob
      { App.initial samplePage with currentJobExecutionIdForPolling := some (.num 3) }
      (.resolved (some ⟨some (.num 9), some "STARTING"⟩))).currentJobExecutionIdForPolling =
      some (.num 9) ∧
    (handleStartBatchJob
      { App.initial samplePage with currentJobExecutionIdForPolling := some (.num 3) }
      (.resolved (some ⟨some (.num 9), some "STARTING"⟩))).dom "startBatchJobButton" =
      some { textContent := "", classList := [], disabled := true, styleWidth := "",
             children := [] } :=
  have h := start_sets_tracking
    { App.initial samplePage with currentJobExecutionIdForPolling := some (.num 3) }
    ⟨some (.num 9), some "STARTING"⟩ (.num 9) ⟨"", [], false, "", []⟩ rfl rfl rfl
  ⟨h.1, h.2.1⟩

/-- C12: whenever the start request is rejected, resolves to no content, or resolves to a
result without a usable `jobExecutionId` (missing, `0` or empty), `handleStartBatchJob` shows
an error notification, re-enables the start control, starts no specific-status fetch and no
refresh cycle, and leaves the tracked job id unchanged. -/
theorem failed_start_keeps_tracking (a : App) (outcome : Outcome StartResult)
    (startButton : Element) (hbutton : a.dom "startBatchJobButton" = some startButton)
    (hfail : (∃ message, outcome = .rejected message) ∨ outcome = .resolved none ∨
      ∃ result, outcome = .resolved (some result) ∧
        (result.jobExecutionId = none ∨
          ∃ id, result.jobExecutionId = some id ∧ id.truthy = false)) :
    (handleStartBatchJob a outcome).currentJobExecutionIdForPolling =
      a.currentJobExecutionIdForPolling ∧
    (handleStartBatchJob a outcome).dom "startBatchJobButton" =
      some { startButton with disabled := false } ∧
    (∃ message : String, newLog a (handleStartBatchJob a outcome) =
      [Effect.notification "正在请求启动历史数据索引作业..." "info",
       Effect.notification message "error"]) := by
  have hnoid : handleStartBatchJob a outcome = startWithoutId (handleStartBatchJobBegin a) ∨
      ∃ message, outcome = .rejected message := by
    rcases hfail with ⟨message, rfl⟩ | rfl | ⟨result, rfl, hnone | ⟨id, hid, hfalsy⟩⟩
    · exact Or.inr ⟨message, rfl⟩
    · exact Or.inl rfl
    · left
      simp [handleStartBatchJob, handleStartBatchJobSettle, hnone]
    · left
      simp [handleStartBatchJob, handleStartBatchJobSettle, hid, hfalsy]
  rcases hnoid with h | ⟨message, rfl⟩
  · rw [h, startWithoutId_spec, handleStartBatchJobBegin_spec]
    refine ⟨rfl, ?_, "启动作业失败，未收到有效的作业执行ID。", ?_⟩
    · simp [updateText_apply, setDisabled_apply, hbutton]
    · apply newLog_append
      simp
  · refine ⟨rfl, ?_, "启动作业失败: " ++ (if message ≠ "" then message else "未知错误"), ?_⟩
    · simp [handleStartBatchJob, handleStartBatchJobSettle, handleStartBatchJobBegin_spec,
        showNotification, updateText_apply, setDisabled_apply, hbutton]
    · apply newLog_append
      simp [handleStartBatchJob, handleStartBatchJobSettle, handleStartBatchJobBegin_spec,
        showNotification]

/-- Witness of C12: job 3 is tracked and the start request is rejected: job 3 stays
tracked and the start control is enabled again. -/
theorem failed_start_keeps_tracking_witness :
    (handleStartBatchJob
      { App.initial samplePage with currentJobExecutionIdForPolling := some (.num 3) }
      (.rejected "HTTP error 409: already running")).currentJobExecutionIdForPolling =
      some (.num 3) ∧
    (handleStartBatchJob
      { App.initial samplePage with currentJobExecutionIdForPolling := some (.num 3) }
      (.rejected "HTTP error 409: already running")).dom "startBatchJobButton" =
      some { textContent := "", classList := [], disabled := false, styleWidth := "",
             children := [] } :=
  have h := failed_start_keeps_tracking
    { App.initial samplePage with currentJobExecutionIdForPolling := some (.num 3) }
    (.rejected "HTTP error 409: already running") ⟨"", [], false, "", []⟩ rfl
    (Or.inl ⟨_, rfl⟩)
  ⟨h.1, h.2.1⟩

/-! ## Consumer lag -/

theorem foldl_lag (ps : List PartitionLag) (acc : Int) :
    ps.foldl (fun acc p => if p.lag > 0 then acc + p.lag else acc) acc =
      acc + positiveLagSum ps := by
  induction ps generalizing acc with
  | nil => simp [positiveLagSum]
  | cons p ps ih =>
    simp only [List.foldl_cons, ih]
    by_cases hp : p.lag > 0
    · simp [positiveLagSum, hp, List.filter_cons]
      omega
    · simp [positiveLagSum, hp, List.filter_cons]

theorem groupTotalLag_eq (ps : List PartitionLag) : groupTotalLag ps = positiveLagSum ps := by
  unfold groupTotalLag
  rw [foldl_lag]
  simp

/-- The texts computed for a group with the given key and partitions. -/
theorem kafkaGroupStep_some (up del : String) (acc : TopicStats × TopicStats) (key : String)
    (ps : List PartitionLag) :
    kafkaGroupStep up del acc (key, .group (some ps)) =
      (if ps.any (fun p => decide (p.topic = up)) then
          { groupId := String.mk (removeFirst "group_".toList key.toList)
            assignedPartitions := joinOrNone (ps.map (fun p => toString p.partition))
            totalLag := toString (positiveLagSum ps)
            lagPerPartition := joinOrNone
              (ps.map (fun p => "P" ++ toString p.partition ++ ": " ++ toString p.lag)) }
        else acc.1,
       if ps.any (fun p => decide (p.topic = del)) then
          { groupId := String.mk (removeFirst "group_".toList key.toList)
            assignedPartitions := joinOrNone (ps.map (fun p => toString p.partition))
            totalLag := toString (positiveLagSum ps)
            lagPerPartition := joinOrNone
              (ps.map (fun p => "P" ++ toString p.partition ++ ": " ++ toString p.lag)) }
        else acc.2) := by
  simp [kafkaGroupStep, GroupInfo.partitions, groupTotalLag_eq]

theorem kafkaGroupStep_fst_of_not (up del : String) (acc : TopicStats × TopicStats)
    (entry : String × GroupInfo) (h : ¬ referencesTopic entry up) :
    (kafkaGroupStep up del acc entry).1 = acc.1 := by
  obtain ⟨key, info⟩ := entry
  cases info with
  | falsy => rfl
  | group partitions =>
    cases partitions with
    | none => rfl
    | some ps =>
      have hany : ps.any (fun p => decide (p.topic = up)) = false := by
        rw [List.any_eq_false]
        intro p hp hpt
        exact h ⟨ps, rfl, p, hp, by simpa using hpt⟩
      rw [kafkaGroupStep_some, hany]
      rfl

theorem kafkaGroupStep_snd_of_not (up del : String) (acc : TopicStats × TopicStats)
    (entry : String × GroupInfo) (h : ¬ referencesTopic entry del) :
    (kafkaGroupStep up del acc entry).2 = acc.2 := by
  obtain ⟨key, info⟩ := entry
  cases info with
  | falsy => rfl
  | group partitions =>
    cases partitions with
    | none => rfl
    | some ps =>
      have hany : ps.any (fun p => decide (p.topic = del)) = false := by
        rw [List.any_eq_false]
        intro p hp hpt
        exact h ⟨ps, rfl, p, hp, by simpa using hpt⟩
      rw [kafkaGroupStep_some, hany]
      rfl

theorem foldl_fst_of_not (up del : String) (groups : LagData) (acc : TopicStats × TopicStats)
    (h : ∀ g ∈ groups, ¬ referencesTopic g up) :
    (groups.foldl (kafkaGroupStep up del) acc).1 = acc.1 := by
  induction groups generalizing acc with
  | nil => rfl
  | cons g gs ih =>
    rw [List.foldl_cons, ih _ (fun x hx => h x (List.mem_cons_of_mem _ hx))]
    exact kafkaGroupStep_fst_of_not up del acc g (h g (List.mem_cons_self _ _))

theorem foldl_snd_of_not (up del : String) (groups : LagData) (acc : TopicStats × TopicStats)
    (h : ∀ g ∈ groups, ¬ referencesTopic g del) :
    (groups.foldl (kafkaGroupStep up del) acc).2 = acc.2 := by
  induction groups generalizing acc with
  | nil => rfl
  | cons g gs ih =>
    rw [List.foldl_cons, ih _ (fun x hx => h x (List.mem_cons_of_mem _ hx))]
    exact kafkaGroupStep_snd_of_not up del acc g (h g (List.mem_cons_self _ _))

theorem any_topic (ps : List PartitionLag) (topic : String) (h : ∃ p ∈ ps, p.topic = topic) :
    ps.any (fun p => decide (p.topic = topic)) = true := by
  obtain ⟨p, hp, hpt⟩ := h
  rw [List.any_eq_true]
  exact ⟨p, hp, by simpa using hpt⟩

/-- The total lag computed for a topic when exactly one group of the map references it and
the map has no truthy `error` entry. -/
theorem kafkaTopicStats_total (pre post : LagData) (key : String) (ps : List PartitionLag)
    (up del : String) (herr : lagDataError (pre ++ (key, .group (some ps)) :: post) = false) :
    ((∃ p ∈ ps, p.topic = up) → (∀ g ∈ pre ++ post, ¬ referencesTopic g up) →
      (kafkaTopicStats (.value (pre ++ (key, .group (some ps)) :: post)) up del).1.totalLag =
        toString (positiveLagSum ps)) ∧
    ((∃ p ∈ ps, p.topic = del) → (∀ g ∈ pre ++ post, ¬ referencesTopic g del) →
      (kafkaTopicStats (.value (pre ++ (key, .group (some ps)) :: post)) up del).2.totalLag =
        toString (positiveLagSum ps)) := by
  have hlen : (pre ++ (key, GroupInfo.group (some ps)) :: post).length > 0 ∧
      lagDataError (pre ++ (key, .group (some ps)) :: post) = false := ⟨by simp, herr⟩
  constructor
  · intro href hothers
    simp only [kafkaTopicStats, if_pos hlen, List.foldl_append, List.foldl_cons]
    rw [foldl_fst_of_not up del post _ (fun g hg => hothers g (List.mem_append_right _ hg))]
    rw [kafkaGroupStep_some, any_topic ps up href]
    rfl
  · intro href hothers
    simp only [kafkaTopicStats, if_pos hlen, List.foldl_append, List.foldl_cons]
    rw [foldl_snd_of_not up del post _ (fun g hg => hothers g (List.mem_append_right _ hg))]
    rw [kafkaGroupStep_some, any_topic ps del href]
    rfl

/-- The eight value slots of the consumer panel after `updateKafkaConsumerStats`. -/
theorem kafka_slots (d : Dom) (lagData : Fetched LagData) (topicNames : TopicNames) :
    (updateKafkaConsumerStats d lagData topicNames) "kafkaUpsertGroupId" =
      (d "kafkaUpsertGroupId").map (fun e => { e with textContent :=
        (kafkaTopicStats lagData topicNames.upsertTopicName topicNames.deleteTopicName).1.groupId }) ∧
    (updateKafkaConsumerStats d lagData topicNames) "kafkaUpsertAssignedPartitions" =
      (d "kafkaUpsertAssignedPartitions").map (fun e => { e with textContent :=
        (kafkaTopicStats lagData topicNames.upsertTopicName
          topicNames.deleteTopicName).1.assignedPartitions }) ∧
    (updateKafkaConsumerStats d lagData topicNames) "kafkaUpsertTotalLag" =
      (d "kafkaUpsertTotalLag").map (fun e => { e with textContent :=
        (kafkaTopicStats lagData topicNames.upsertTopicName topicNames.deleteTopicName).1.totalLag }) ∧
    (updateKafkaConsumerStats d lagData topicNames) "kafkaUpsertLagPerPartition" =
      (d "kafkaUpsertLagPerPartition").map (fun e => { e with textContent :=
        (kafkaTopicStats lagData topicNames.upsertTopicName
          topicNames.deleteTopicName).1.lagPerPartition }) ∧
    (updateKafkaConsumerStats d lagData topicNames) "kafkaDeleteGroupId" =
      (d "kafkaDeleteGroupId").map (fun e => { e with textContent :=
        (kafkaTopicStats lagData topicNames.upsertTopicName topicNames.deleteTopicName).2.groupId }) ∧
    (updateKafkaConsumerStats d lagData topicNames) "kafkaDeleteAssignedPartitions" =
      (d "kafkaDeleteAssignedPartitions").map (fun e => { e with textContent :=
        (kafkaTopicStats lagData topicNames.upsertTopicName
          topicNames.deleteTopicName).2.assignedPartitions }) ∧
    (updateKafkaConsumerStats d lagData topicNames) "kafkaDeleteTotalLag" =
      (d "kafkaDeleteTotalLag").map (fun e => { e with textContent :=
        (kafkaTopicStats lagData topicNames.upsertTopicName topicNames.deleteTopicName).2.totalLag }) ∧
    (updateKafkaConsumerStats d lagData topicNames) "kafkaDeleteLagPerPartition" =
      (d "kafkaDeleteLagPerPartition").map (fun e => { e with textContent :=
        (kafkaTopicStats lagData topicNames.upsertTopicName
          topicNames.deleteTopicName).2.lagPerPartition }) := by
  rcases hs : kafkaTopicStats lagData topicNames.upsertTopicName topicNames.deleteTopicName
    with ⟨upsert, delete⟩
  simp [updateKafkaConsumerStats, hs, updateText_apply]

/-- C13 (counterexample): a lag map that holds one group whose partitions of the upsert
topic have lags 3, 0 and 5, and besides it a truthy value under the key `error`, renders
the total `-` for the upsert topic, where the claim says 8, the sum of the lags greater
than 0: `updateKafkaConsumerStats` skips the whole map when `lagData.error` is truthy. -/
theorem total_lag_counterexample :
    (updateKafkaConsumerStats samplePage
      (.value [("group_dms-es-indexer-group",
        .group (some [⟨"dms-file-upsert-events", 0, 3⟩, ⟨"dms-file-upsert-events", 1, 0⟩,
          ⟨"dms-file-upsert-events", 2, 5⟩])), ("error", .group none)]) TOPIC_NAMES)
        "kafkaUpsertTotalLag" =
      some { textContent := "-", classList := [], disabled := false, styleWidth := "",
             children := [] } ∧
    positiveLagSum [⟨"dms-file-upsert-events", 0, 3⟩, ⟨"dms-file-upsert-events", 1, 0⟩,
      ⟨"dms-file-upsert-events", 2, 5⟩] = 8 := by
  decide

/-- C13 (amended): for every lag map without a truthy value under the key `error`, in
which exactly one group references a monitored topic (the upsert topic, or the delete
topic), whatever other entries the map holds, the total lag rendered for that topic is the
sum of that group's per-partition lag values that are greater than 0 (values `≤ 0`
contribute nothing); e.g. lags 3, 0, 5 render 8. -/
theorem total_lag_is_positive_sum (d : Dom) (topicNames : TopicNames) (pre post : LagData)
    (key : String) (ps : List PartitionLag) (upsertSlot deleteSlot : Element)
    (herr : lagDataError (pre ++ (key, .group (some ps)) :: post) = false)
    (hu : d "kafkaUpsertTotalLag" = some upsertSlot)
    (hd : d "kafkaDeleteTotalLag" = some deleteSlot) :
    ((∃ p ∈ ps, p.topic = topicNames.upsertTopicName) →
      (∀ g ∈ pre ++ post, ¬ referencesTopic g topicNames.upsertTopicName) →
      (updateKafkaConsumerStats d (.value (pre ++ (key, .group (some ps)) :: post)) topicNames)
          "kafkaUpsertTotalLag" =
        some { upsertSlot with textContent := toString (positiveLagSum ps) }) ∧
    ((∃ p ∈ ps, p.topic = topicNames.deleteTopicName) →
      (∀ g ∈ pre ++ post, ¬ referencesTopic g topicNames.deleteTopicName) →
      (updateKafkaConsumerStats d (.value (pre ++ (key, .group (some ps)) :: post)) topicNames)
          "kafkaDeleteTotalLag" =
        some { deleteSlot with textContent := toString (positiveLagSum ps) }) := by
  have hslots := kafka_slots d (.value (pre ++ (key, .group (some ps)) :: post)) topicNames
  have htotal := kafkaTopicStats_total pre post key ps topicNames.upsertTopicName
    topicNames.deleteTopicName herr
  constructor
  · intro href hothers
    rw [hslots.2.2.1, hu, htotal.1 href hothers]
    rfl
  · intro href hothers
    rw [hslots.2.2.2.2.2.2.1, hd, htotal.2 href hothers]
    rfl

/-- Witness of C13 (amended), the scenario of the specification: one group whose three
partitions of the upsert topic have lags 3, 0 and 5 renders the total 8. -/
theorem total_lag_is_positive_sum_witness :
    (updateKafkaConsumerStats samplePage
      (.value [("group_dms-es-indexer-group",
        .group (some [⟨"dms-file-upsert-events", 0, 3⟩, ⟨"dms-file-upsert-events", 1, 0⟩,
          ⟨"dms-file-upsert-events", 2, 5⟩]))]) TOPIC_NAMES) "kafkaUpsertTotalLag" =
      some { textContent := "8", classList := [], disabled := false, styleWidth := "",
             children := [] } :=
  ((total_lag_is_positive_sum samplePage TOPIC_NAMES [] [] "group_dms-es-indexer-group"
    [⟨"dms-file-upsert-events", 0, 3⟩, ⟨"dms-file-upsert-events", 1, 0⟩,
      ⟨"dms-file-upsert-events", 2, 5⟩] ⟨"", [], false, "", []⟩ ⟨"", [], false, "", []⟩
    (by decide) rfl rfl).1 ⟨⟨"dms-file-upsert-events", 0, 3⟩, by decide, rfl⟩
    (fun g hg => by cases hg)).trans (by decide)

theorem lagDataError_single (key : String) (info : GroupInfo) (hkey : key ≠ "error") :
    lagDataError [(key, info)] = false := by
  have hne : ("error" == key) = false := by
    rw [beq_eq_false_iff_ne]
    exact fun h => hkey h.symm
  simp [lagDataError, List.lookup, hne]

theorem kafkaTopicStats_single (key : String) (ps : List PartitionLag) (up del : String)
    (hkey : key ≠ "error")
    (hup : ∃ p ∈ ps, p.topic = up) (hdel : ∃ p ∈ ps, p.topic = del) :
    kafkaTopicStats (.value [(key, .group (some ps))]) up del =
      ({ groupId := String.mk (removeFirst "group_".toList key.toList)
         assignedPartitions := joinOrNone (ps.map (fun p => toString p.partition))
         totalLag := toString (positiveLagSum ps)
         lagPerPartition := joinOrNone
           (ps.map (fun p => "P" ++ toString p.partition ++ ": " ++ toString p.lag)) },
       { groupId := String.mk (removeFirst "group_".toList key.toList)
         assignedPartitions := joinOrNone (ps.map (fun p => toString p.partition))
         totalLag := toString (positiveLagSum ps)
         lagPerPartition := joinOrNone
           (ps.map (fun p => "P" ++ toString p.partition ++ ": " ++ toString p.lag)) }) := by
  have hguard : [(key, GroupInfo.group (some ps))].length > 0 ∧
      lagDataError [(key, .group (some ps))] = false :=
    ⟨by simp, lagDataError_single key _ hkey⟩
  simp only [kafkaTopicStats, if_pos hguard, List.foldl_cons, List.foldl_nil]
  rw [kafkaGroupStep_some, any_topic ps up hup, any_topic ps del hdel]
  rfl

/-- C18 (counterexample): a lag map that consists of the single group `error`, whose
partitions reference the upsert topic (lag 3) and the delete topic (lags 4 and -1), renders
`-` as the total lag and as the group id of both panels, where the claim says the total 7
and the group id `error`: the value under the key `error` is truthy, so
`updateKafkaConsumerStats` skips the map. -/
theorem shared_group_counterexample :
    ((updateKafkaConsumerStats samplePage
        (.value [("error",
          .group (some [⟨"dms-file-upsert-events", 0, 3⟩, ⟨"dms-file-delete-events", 0, 4⟩,
            ⟨"dms-file-delete-events", 1, -1⟩]))]) TOPIC_NAMES
        "kafkaUpsertTotalLag").map (fun e => e.textContent) = some "-" ∧
      (updateKafkaConsumerStats samplePage
        (.value [("error",
          .group (some [⟨"dms-file-upsert-events", 0, 3⟩, ⟨"dms-file-delete-events", 0, 4⟩,
            ⟨"dms-file-delete-events", 1, -1⟩]))]) TOPIC_NAMES
        "kafkaDeleteTotalLag").map (fun e => e.textContent) = some "-") ∧
    ((updateKafkaConsumerStats samplePage
        (.value [("error",
          .group (some [⟨"dms-file-upsert-events", 0, 3⟩, ⟨"dms-file-delete-events", 0, 4⟩,
            ⟨"dms-file-delete-events", 1, -1⟩]))]) TOPIC_NAMES
        "kafkaUpsertGroupId").map (fun e => e.textContent) = some "-" ∧
      (updateKafkaConsumerStats samplePage
        (.value [("error",
          .group (some [⟨"dms-file-upsert-events", 0, 3⟩, ⟨"dms-file-delete-events", 0, 4⟩,
            ⟨"dms-file-delete-events", 1, -1⟩]))]) TOPIC_NAMES
        "kafkaDeleteGroupId").map (fun e => e.textContent) = some "-") ∧
    positiveLagSum [⟨"dms-file-upsert-events", 0, 3⟩, ⟨"dms-file-delete-events", 0, 4⟩,
      ⟨"dms-file-delete-events", 1, -1⟩] = 7 := by
  decide

/-- C18 (amended): for every lag map that consists of a single group, under a key other
than `error`, whose partitions reference both the upsert topic and the delete topic, the
upsert panel and the delete panel show the same group id (the key without its first
`group_`), the same assigned-partition list, the same per-partition lag text and the same
total lag, and that total is the sum of the positive lags over all partitions of the group,
of both topics. -/
theorem shared_group_fills_both_panels (d : Dom) (topicNames : TopicNames) (key : String)
    (ps : List PartitionLag) (hkey : key ≠ "error")
    (hup : ∃ p ∈ ps, p.topic = topicNames.upsertTopicName)
    (hdel : ∃ p ∈ ps, p.topic = topicNames.deleteTopicName)
    (hslots : ∀ slot ∈ ["kafkaUpsertGroupId", "kafkaUpsertAssignedPartitions",
      "kafkaUpsertTotalLag", "kafkaUpsertLagPerPartition", "kafkaDeleteGroupId",
      "kafkaDeleteAssignedPartitions", "kafkaDeleteTotalLag", "kafkaDeleteLagPerPartition"],
      (d slot).isSome = true) :
    ((updateKafkaConsumerStats d (.value [(key, .group (some ps))]) topicNames
        "kafkaUpsertGroupId").map (fun e => e.textContent) =
        some (String.mk (removeFirst "group_".toList key.toList)) ∧
      (updateKafkaConsumerStats d (.value [(key, .group (some ps))]) topicNames
        "kafkaDeleteGroupId").map (fun e => e.textContent) =
        some (String.mk (removeFirst "group_".toList key.toList))) ∧
    ((updateKafkaConsumerStats d (.value [(key, .group (some ps))]) topicNames
        "kafkaUpsertAssignedPartitions").map (fun e => e.textContent) =
        some (joinOrNone (ps.map (fun p => toString p.partition))) ∧
      (updateKafkaConsumerStats d (.value [(key, .group (some ps))]) topicNames
        "kafkaDeleteAssignedPartitions").map (fun e => e.textContent) =
        some (joinOrNone (ps.map (fun p => toString p.partition)))) ∧
    ((updateKafkaConsumerStats d (.value [(key, .group (some ps))]) topicNames
        "kafkaUpsertLagPerPartition").map (fun e => e.textContent) =
        some (joinOrNone
          (ps.map (fun p => "P" ++ toString p.partition ++ ": " ++ toString p.lag))) ∧
      (updateKafkaConsumerStats d (.value [(key, .group (some ps))]) topicNames
        "kafkaDeleteLagPerPartition").map (fun e => e.textContent) =
        some (joinOrNone
          (ps.map (fun p => "P" ++ toString p.partition ++ ": " ++ toString p.lag)))) ∧
    ((updateKafkaConsumerStats d (.value [(key, .group (some ps))]) topicNames
        "kafkaUpsertTotalLag").map (fun e => e.textContent) =
        some (toString (positiveLagSum ps)) ∧
      (updateKafkaConsumerStats d (.value [(key, .group (some ps))]) topicNames
        "kafkaDeleteTotalLag").map (fun e => e.textContent) =
        some (toString (positiveLagSum ps))) := by
  have hk := kafka_slots d (.value [(key, .group (some ps))]) topicNames
  rw [kafkaTopicStats_single key ps _ _ hkey hup hdel] at hk
  obtain ⟨h1, h2, h3, h4, h5, h6, h7, h8⟩ := hk
  have hsome : ∀ slot ∈ ["kafkaUpsertGroupId", "kafkaUpsertAssignedPartitions",
      "kafkaUpsertTotalLag", "kafkaUpsertLagPerPartition", "kafkaDeleteGroupId",
      "kafkaDeleteAssignedPartitions", "kafkaDeleteTotalLag", "kafkaDeleteLagPerPartition"],
      ∃ e, d slot = some e := by
    intro slot hslot
    exact Option.isSome_iff_exists.1 (hslots slot hslot)
  obtain ⟨e1, he1⟩ := hsome "kafkaUpsertGroupId" (by simp)
  obtain ⟨e2, he2⟩ := hsome "kafkaUpsertAssignedPartitions" (by simp)
  obtain ⟨e3, he3⟩ := hsome "kafkaUpsertTotalLag" (by simp)
  obtain ⟨e4, he4⟩ := hsome "kafkaUpsertLagPerPartition" (by simp)
  obtain ⟨e5, he5⟩ := hsome "kafkaDeleteGroupId" (by simp)
  obtain ⟨e6, he6⟩ := hsome "kafkaDeleteAssignedPartitions" (by simp)
  obtain ⟨e7, he7⟩ := hsome "kafkaDeleteTotalLag" (by simp)
  obtain ⟨e8, he8⟩ := hsome "kafkaDeleteLagPerPartition" (by simp)
  rw [h1, h2, h3, h4, h5, h6, h7, h8, he1, he2, he3, he4, he5, he6, he7, he8]
  exact ⟨⟨rfl, rfl⟩, ⟨rfl, rfl⟩, ⟨rfl, rfl⟩, ⟨rfl, rfl⟩⟩

/-- Witness of C18 (amended): a group with one upsert partition (lag 3), one delete
partition (lag 4) and one more delete partition (lag -1): both panels show the total 7. -/
theorem shared_group_fills_both_panels_witness :
    (updateKafkaConsumerStats samplePage
        (.value [("group_dms-es-indexer-group",
          .group (some [⟨"dms-file-upsert-events", 0, 3⟩, ⟨"dms-file-delete-events", 0, 4⟩,
            ⟨"dms-file-delete-events", 1, -1⟩]))]) TOPIC_NAMES
        "kafkaUpsertTotalLag").map (fun e => e.textContent) = some "7" ∧
    (updateKafkaConsumerStats samplePage
        (.value [("group_dms-es-indexer-group",
          .group (some [⟨"dms-file-upsert-events", 0, 3⟩, ⟨"dms-file-delete-events", 0, 4⟩,
            ⟨"dms-file-delete-events", 1, -1⟩]))]) TOPIC_NAMES
        "kafkaDeleteTotalLag").map (fun e => e.textContent) = some "7" :=
  have h := (shared_group_fills_both_panels samplePage TOPIC_NAMES "group_dms-es-indexer-group"
    [⟨"dms-file-upsert-events", 0, 3⟩, ⟨"dms-file-delete-events", 0, 4⟩,
      ⟨"dms-file-delete-events", 1, -1⟩] (by decide)
    ⟨⟨"dms-file-upsert-events", 0, 3⟩, by decide, rfl⟩
    ⟨⟨"dms-file-delete-events", 0, 4⟩, by decide, rfl⟩
    (fun slot _ => rfl)).2.2.2
  ⟨h.1.trans (by decide), h.2.trans (by decide)⟩

/-! ## Status severity -/

theorem upperChar_toLower (c : Char) : upperChar c.toLower = upperChar c := by
  by_cases h : c.toNat ≥ 65 ∧ c.toNat ≤ 90
  · have hc : c = Char.ofNat c.toNat := (Char.ofNat_toNat c).symm
    obtain ⟨h1, h2⟩ := h
    generalize c.toNat = n at hc h1 h2
    subst hc
    interval_cases n <;> decide
  · simp [Char.toLower, h]

theorem toUpper_eq_of_lowerChars_eq (s1 s2 : String) (h : lowerChars s1 = lowerChars s2) :
    jsToUpperCase s1 = jsToUpperCase s2 := by
  simp only [jsToUpperCase, lowerChars] at h ⊢
  have hmap : ∀ l : List Char, l.flatMap upperChar = (l.map Char.toLower).flatMap upperChar := by
    intro l
    induction l with
    | nil => rfl
    | cons c cs ih => simp [List.flatMap_cons, upperChar_toLower, ih]
  rw [hmap s1.toList, hmap s2.toList, h]

/-- A status that contains a code point outside ASCII whose upper-case form is not ASCII
is upper-cased to none of the keywords. -/
theorem severityClass_of_foreign (status : String) (c : Char) (hc : c ∈ status.toList)
    (h128 : 128 ≤ c.toNat) (hsp : c ∉ asciiUpperCodePoints) :
    severityClass status = "status-unknown" := by
  have hup : upperChar c = [c] := by
    simp only [asciiUpperCodePoints, List.mem_cons, List.mem_singleton, List.not_mem_nil,
      or_false, not_or] at hsp
    obtain ⟨h1, h2, h3, h4, h5, h6, h7, h8, h9, h10⟩ := hsp
    simp [upperChar, h1, h2, h3, h4, h5, h6, h7, h8, h9, h10, Char.toUpper]
    intro h97 h122
    omega
  have hmem : c ∈ (jsToUpperCase status).toList := by
    show c ∈ status.toList.flatMap upperChar
    rw [List.mem_flatMap]
    exact ⟨c, hc, by rw [hup]; exact List.mem_singleton_self c⟩
  have hascii : ∀ kw ∈ ["UP", "GREEN", "CONNECTED", "DOWN", "RED", "DISCONNECTED", "WARN",
      "YELLOW", "DEGRADED"], ∀ x ∈ String.toList kw, x.toNat < 128 := by decide
  have hne : ∀ kw ∈ ["UP", "GREEN", "CONNECTED", "DOWN", "RED", "DISCONNECTED", "WARN",
      "YELLOW", "DEGRADED"], jsToUpperCase status ≠ kw := by
    intro kw hkw heq
    have := hascii kw hkw c (heq ▸ hmem)
    omega
  have e1 := hne "UP" (by simp)
  have e2 := hne "GREEN" (by simp)
  have e3 := hne "CONNECTED" (by simp)
  have e4 := hne "DOWN" (by simp)
  have e5 := hne "RED" (by simp)
  have e6 := hne "DISCONNECTED" (by simp)
  have e7 := hne "WARN" (by simp)
  have e8 := hne "YELLOW" (by simp)
  have e9 := hne "DEGRADED" (by simp)
  simp [severityClass, e1, e2, e3, e4, e5, e6, e7, e8, e9]

theorem severityClass_of_upper_eq (s1 s2 : String) (h : jsToUpperCase s1 = jsToUpperCase s2) :
    severityClass s1 = severityClass s2 := by
  simp only [severityClass, h]

/-- C14: for every status string `s`, `updateStatusIndicator` resets the class list of the
indicator and adds exactly one of the four severity classes, determined by the upper-cased
`s`: UP, GREEN, CONNECTED give up; DOWN, RED, DISCONNECTED give down; WARN, YELLOW, DEGRADED
give warn; every other string gives unknown. Consequently two strings that differ only in
letter case (equal once their letters `A`..`Z` are lower-cased) map to the same severity;
and a string with a code point outside ASCII gives unknown, in whatever case it is written,
unless that code point is one of the ten whose upper-case form is ASCII. -/
theorem status_severity_mapping (d : Dom) (elementId : String) (element : Element)
    (status : String) (h : d elementId = some element) :
    (updateStatusIndicator d elementId status) elementId =
      some { element with classList := ["status-indicator", severityClass status] } ∧
    (severityClass status = "status-up" ∨ severityClass status = "status-down" ∨
      severityClass status = "status-warn" ∨ severityClass status = "status-unknown") ∧
    (jsToUpperCase status ∈ ["UP", "GREEN", "CONNECTED"] → severityClass status = "status-up") ∧
    (jsToUpperCase status ∈ ["DOWN", "RED", "DISCONNECTED"] →
      severityClass status = "status-down") ∧
    (jsToUpperCase status ∈ ["WARN", "YELLOW", "DEGRADED"] →
      severityClass status = "status-warn") ∧
    (jsToUpperCase status ∉ ["UP", "GREEN", "CONNECTED", "DOWN", "RED", "DISCONNECTED", "WARN",
        "YELLOW", "DEGRADED"] → severityClass status = "status-unknown") ∧
    (∀ other : String, lowerChars other = lowerChars status →
      severityClass other = severityClass status) ∧
    (∀ c ∈ status.toList, 128 ≤ c.toNat → c ∉ asciiUpperCodePoints →
      severityClass status = "status-unknown") := by
  have hone : severityClass status = "status-up" ∨ severityClass status = "status-down" ∨
      severityClass status = "status-warn" ∨ severityClass status = "status-unknown" := by
    unfold severityClass
    simp only
    split
    · exact Or.inl rfl
    · split
      · exact Or.inr (Or.inl rfl)
      · split
        · exact Or.inr (Or.inr (Or.inl rfl))
        · exact Or.inr (Or.inr (Or.inr rfl))
  refine ⟨?_, hone, ?_, ?_, ?_, ?_, ?_, ?_⟩
  · have hadd : classListAdd ["status-indicator"] (severityClass status) =
        ["status-indicator", severityClass status] := by
      rcases hone with h1 | h1 | h1 | h1 <;> rw [h1] <;> decide
    simp [updateStatusIndicator, h, Dom.set, hadd]
  · intro hu
    simp only [List.mem_cons, List.mem_singleton, List.not_mem_nil, or_false] at hu
    rcases hu with hu | hu | hu <;> simp [severityClass, hu]
  · intro hu
    simp only [List.mem_cons, List.mem_singleton, List.not_mem_nil, or_false] at hu
    rcases hu with hu | hu | hu <;> simp [severityClass, hu]
  · intro hu
    simp only [List.mem_cons, List.mem_singleton, List.not_mem_nil, or_false] at hu
    rcases hu with hu | hu | hu <;> simp [severityClass, hu]
  · intro hu
    simp only [List.mem_cons, List.mem_singleton, List.not_mem_nil, or_false, not_or] at hu
    obtain ⟨h1, h2, h3, h4, h5, h6, h7, h8, h9⟩ := hu
    simp [severityClass, h1, h2, h3, h4, h5, h6, h7, h8, h9]
  · intro other hlow
    exact severityClass_of_upper_eq _ _ (toUpper_eq_of_lowerChars_eq _ _ hlow)
  · intro c hc h128 hsp
    exact severityClass_of_foreign status c hc h128 hsp

/-- Witness of C14: `Yellow` is rendered as warn, and so is `yELLOW`; `dısconnected`,
written with a dotless i, is upper-cased to `DISCONNECTED` and rendered as down. -/
theorem status_severity_mapping_witness :
    (updateStatusIndicator samplePage "esConnectionIndicator" "Yellow") "esConnectionIndicator" =
      some { textContent := "", classList := ["status-indicator", "status-warn"],
             disabled := false, styleWidth := "", children := [] } ∧
    severityClass "yELLOW" = severityClass "Yellow" ∧
    severityClass "dısconnected" = "status-down" :=
  have h := status_severity_mapping samplePage "esConnectionIndicator" ⟨"", [], false, "", []⟩
    "Yellow" rfl
  have h2 := status_severity_mapping samplePage "esConnectionIndicator" ⟨"", [], false, "", []⟩
    "dısconnected" rfl
  ⟨h.1.trans (by decide), h.2.2.2.2.2.2.1 "yELLOW" (by decide), h2.2.2.2.1 (by decide)⟩

/-! ## Index statistics and idempotent rendering -/

theorem updateText_apply_opt (d : Dom) (id k : String) (text : Option String) :
    (updateText d id text) k =
      if k = id then (d id).map (fun e => { e with textContent :=
        match text with
        | some t => t
        | none => "-" }) else d k := by
  unfold updateText
  cases hd : d id with
  | none => by_cases hk : k = id <;> simp [hk, hd]
  | some e => by_cases hk : k = id <;> simp [Dom.set, hk]

theorem updateStatusIndicator_apply (d : Dom) (id k : String) (status : String) :
    (updateStatusIndicator d id status) k =
      if k = id then (d id).map (fun e => { e with
        classList := classListAdd ["status-indicator"] (severityClass status) }) else d k := by
  unfold updateStatusIndicator
  cases hd : d id with
  | none => by_cases hk : k = id <;> simp [hk, hd]
  | some e => by_cases hk : k = id <;> simp [Dom.set, hk]

/-! ## Rendering functions as patches -/

theorem Patch.apply_empty (e : Element) : Patch.empty.apply e = e := rfl

theorem Patch.apply_andThen (p q : Patch) (e : Element) :
    (p.andThen q).apply e = q.apply (p.apply e) := by
  obtain ⟨pt, pc, pd, pw⟩ := p
  obtain ⟨qt, qc, qd, qw⟩ := q
  cases qt <;> cases qc <;> cases qd <;> cases qw <;> rfl

theorem Patch.apply_apply (p : Patch) (e : Element) : p.apply (p.apply e) = p.apply e := by
  obtain ⟨pt, pc, pd, pw⟩ := p
  cases pt <;> cases pc <;> cases pd <;> cases pw <;> rfl

theorem Option.map_apply_empty (o : Option Element) : o.map Patch.empty.apply = o := by
  cases o <;> rfl

theorem Renders.frame {slots : List String} {f : Dom → Dom} (h : Renders slots f) (d : Dom)
    (k : String) (hk : k ∉ slots) : f d k = d k := by
  obtain ⟨P, hP, hf⟩ := h
  rw [hf, hP k hk, Option.map_apply_empty]

theorem Renders.idempotent {slots : List String} {f : Dom → Dom} (h : Renders slots f)
    (d : Dom) : f (f d) = f d := by
  obtain ⟨P, -, hf⟩ := h
  funext k
  rw [hf (f d) k, hf d k]
  cases d k with
  | none => rfl
  | some e => simp [Patch.apply_apply]

theorem Renders.comp {s1 s2 : List String} {f g : Dom → Dom} (hf : Renders s1 f)
    (hg : Renders s2 g) : Renders (s1 ++ s2) (fun d => g (f d)) := by
  obtain ⟨P, hP, hf⟩ := hf
  obtain ⟨Q, hQ, hg⟩ := hg
  refine ⟨fun k => (P k).andThen (Q k), ?_, ?_⟩
  · intro k hk
    simp only [List.mem_append, not_or] at hk
    show (P k).andThen (Q k) = Patch.empty
    rw [hP k hk.1, hQ k hk.2]
    rfl
  · intro d k
    show g (f d) k = Option.map ((P k).andThen (Q k)).apply (d k)
    rw [hg, hf]
    cases d k with
    | none => rfl
    | some e => simp [Patch.apply_andThen]

theorem Renders.mono {s1 s2 : List String} {f : Dom → Dom} (hf : Renders s1 f)
    (hsub : ∀ k ∈ s1, k ∈ s2) : Renders s2 f := by
  obtain ⟨P, hP, hf⟩ := hf
  exact ⟨P, fun k hk => hP k (fun h1 => hk (hsub k h1)), hf⟩

theorem Renders.id : Renders [] (fun d => d) :=
  ⟨fun _ => Patch.empty, fun _ _ => rfl, fun d k => (Option.map_apply_empty (d k)).symm⟩

/-- A write to the element stored under `id` that assigns the constants of `p`. -/
theorem renders_of_apply (id : String) (p : Patch) (f : Dom → Dom)
    (h : ∀ (d : Dom) (k : String), f d k = if k = id then (d id).map p.apply else d k) :
    Renders [id] f := by
  refine ⟨fun k => if k = id then p else Patch.empty, ?_, ?_⟩
  · intro k hk
    simp only [List.mem_singleton] at hk
    simp [hk]
  · intro d k
    rw [h]
    by_cases hk : k = id
    · subst hk
      simp
    · simp [hk, Option.map_apply_empty]

theorem renders_updateText (id : String) (text : Option String) :
    Renders [id] (fun d => updateText d id text) :=
  renders_of_apply id ⟨some (match text with
    | some t => t
    | none => "-"), none, none, none⟩ _ (fun d k => updateText_apply_opt d id k text)

theorem renders_updateStatusIndicator (id : String) (status : String) :
    Renders [id] (fun d => updateStatusIndicator d id status) :=
  renders_of_apply id
    ⟨none, some (classListAdd ["status-indicator"] (severityClass status)), none, none⟩ _
    (fun d k => updateStatusIndicator_apply d id k status)

theorem renders_setDisabled (id : String) (flag : Bool) :
    Renders [id] (fun d => setDisabled d id flag) :=
  renders_of_apply id ⟨none, none, some flag, none⟩ _ (fun d k => setDisabled_apply d id k flag)

theorem renders_setProgressBar (progress : Nat) :
    Renders ["batchJobProgress"] (fun d => setProgressBar d progress) :=
  renders_of_apply "batchJobProgress"
    ⟨some (toString progress ++ "%"), none, none, some (toString progress ++ "%")⟩ _
    (fun d k => setProgressBar_apply d progress k)

theorem renders_resetDisplay (statusText : String) :
    Renders jobSlots (fun d => setDisabled (setProgressBar (resetSlots.foldl
      (fun acc id => updateText acc id (some "-"))
      (updateText d "batchJobStatus" (some statusText))) 0) "startBatchJobButton" false) := by
  have heq : (fun d => setDisabled (setProgressBar (resetSlots.foldl
      (fun acc id => updateText acc id (some "-"))
      (updateText d "batchJobStatus" (some statusText))) 0) "startBatchJobButton" false) =
      (fun d => setDisabled (setProgressBar (updateText (updateText (updateText (updateText
          (updateText (updateText (updateText (updateText (updateText d
            "batchJobStatus" (some statusText))
            "batchLastRunId" (some "-"))
            "batchLastRunStartTime" (some "-"))
            "batchLastRunEndTime" (some "-"))
            "batchLastRunDuration" (some "-"))
            "batchFilesScanned" (some "-"))
            "batchFilesProcessed" (some "-"))
            "batchSuccessfullyIndexed" (some "-"))
            "batchFailedToIndex" (some "-"))
            0)
            "startBatchJobButton" false) := by
    funext d
    simp only [resetSlots, List.foldl_cons, List.foldl_nil]
  rw [heq]
  exact (((((((((((renders_updateText _ _).comp (renders_updateText _ _)).comp
    (renders_updateText _ _)).comp (renders_updateText _ _)).comp
    (renders_updateText _ _)).comp (renders_updateText _ _)).comp
    (renders_updateText _ _)).comp (renders_updateText _ _)).comp
    (renders_updateText _ _)).comp (renders_setProgressBar _)).comp
    (renders_setDisabled _ _))

theorem renders_updateBatchJobStatusDisplay (loc : Locale) (arg : Fetched JobExecution) :
    Renders jobSlots (fun d => updateBatchJobStatusDisplay loc d arg) := by
  cases arg with
  | value job =>
    rcases hc : jobCounters job with ⟨c1, c2, c3, c4⟩
    have heq : (fun d => updateBatchJobStatusDisplay loc d (.value job)) =
        (fun d => setDisabled (setProgressBar (updateText (updateText (updateText (updateText
          (updateText (updateText (updateText (updateText (updateText d
            "batchJobStatus" (some job.status))
            "batchLastRunId" (some job.jobExecutionId.toText))
            "batchLastRunStartTime" (some (jobTimeText loc job.startTime "-")))
            "batchLastRunEndTime" (some (jobTimeText loc job.endTime "-")))
            "batchLastRunDuration" (some (jobDuration job)))
            "batchFilesScanned" (some (toString c1)))
            "batchFilesProcessed" (some (toString c2)))
            "batchSuccessfullyIndexed" (some (toString c3)))
            "batchFailedToIndex" (some (toString c4)))
            (jobProgress job.status c1 c2))
            "startBatchJobButton" (decide (job.status = "STARTING" ∨ job.status = "STARTED"))) := by
      funext d
      simp only [updateBatchJobStatusDisplay, hc]
    rw [heq]
    exact (((((((((((renders_updateText _ _).comp (renders_updateText _ _)).comp
      (renders_updateText _ _)).comp (renders_updateText _ _)).comp
      (renders_updateText _ _)).comp (renders_updateText _ _)).comp
      (renders_updateText _ _)).comp (renders_updateText _ _)).comp
      (renders_updateText _ _)).comp (renders_setProgressBar _)).comp
      (renders_setDisabled _ _))
  | null => exact renders_resetDisplay "IDLE"
  | errorTag message source => exact renders_resetDisplay "获取失败"

theorem renders_updateKafkaConsumerStats (lagData : Fetched LagData) (topicNames : TopicNames) :
    Renders kafkaSlots (fun d => updateKafkaConsumerStats d lagData topicNames) := by
  rcases hs : kafkaTopicStats lagData topicNames.upsertTopicName topicNames.deleteTopicName
    with ⟨upsert, delete⟩
  have heq : (fun d => updateKafkaConsumerStats d lagData topicNames) =
      (fun d => updateText (updateText (updateText (updateText (updateText (updateText
        (updateText (updateText (updateText (updateText d
          "kafkaUpsertTopicName" (some topicNames.upsertTopicName))
          "kafkaDeleteTopicName" (some topicNames.deleteTopicName))
          "kafkaUpsertGroupId" (some upsert.groupId))
          "kafkaUpsertAssignedPartitions" (some upsert.assignedPartitions))
          "kafkaUpsertTotalLag" (some upsert.totalLag))
          "kafkaUpsertLagPerPartition" (some upsert.lagPerPartition))
          "kafkaDeleteGroupId" (some delete.groupId))
          "kafkaDeleteAssignedPartitions" (some delete.assignedPartitions))
          "kafkaDeleteTotalLag" (some delete.totalLag))
          "kafkaDeleteLagPerPartition" (some delete.lagPerPartition)) := by
    funext d
    simp only [updateKafkaConsumerStats, hs]
  rw [heq]
  exact ((((((((((renders_updateText _ _).comp (renders_updateText _ _)).comp
    (renders_updateText _ _)).comp (renders_updateText _ _)).comp
    (renders_updateText _ _)).comp (renders_updateText _ _)).comp
    (renders_updateText _ _)).comp (renders_updateText _ _)).comp
    (renders_updateText _ _)).comp (renders_updateText _ _))

theorem renders_esChain (t1 : Option String) (st : String) (t2 t3 t4 : Option String)
    (indexName : String) :
    Renders esSlots (fun d => updateText (updateText (updateText (updateStatusIndicator
      (updateText (updateText d "esIndexName" (some indexName)) "esIndexStatus" t1)
      "esIndexStatusIndicator" st) "esTotalDocs" t2) "esIndexSizePrimary" t3)
      "esIndexSizeTotal" t4) :=
  ((((((renders_updateText _ _).comp (renders_updateText _ _)).comp
    (renders_updateStatusIndicator _ _)).comp (renders_updateText _ _)).comp
    (renders_updateText _ _)).comp (renders_updateText _ _))

theorem renders_updateElasticsearchIndexStats (indexStatsData : Fetched IndexStats)
    (indexName : String) :
    Renders esSlots (fun d => updateElasticsearchIndexStats d indexStatsData indexName) := by
  cases indexStatsData with
  | value stats =>
    cases herr : stats.error with
    | false =>
      simp only [updateElasticsearchIndexStats, herr, Bool.false_eq_true, if_false]
      exact renders_esChain _ _ _ _ _ _
    | true =>
      simp only [updateElasticsearchIndexStats, herr, if_true, showIndexStatsFailure]
      exact renders_esChain _ _ _ _ _ _
  | null =>
    simp only [updateElasticsearchIndexStats, showIndexStatsFailure]
    exact renders_esChain _ _ _ _ _ _
  | errorTag message source =>
    simp only [updateElasticsearchIndexStats, showIndexStatsFailure]
    exact renders_esChain _ _ _ _ _ _

theorem renders_updateDlqSummary (dlqSummaryData : Fetched DlqSummary) (topicNames : TopicNames) :
    Renders dlqSlots (fun d => updateDlqSummary d dlqSummaryData topicNames) := by
  have hchain : ∀ t1 t2 : Option String, Renders dlqSlots (fun d => updateText (updateText
      (updateText (updateText d "dlqUpsertTopicName" (some topicNames.upsertDlqTopicName))
        "dlqDeleteTopicName" (some topicNames.deleteDlqTopicName)) "dlqUpsertCount" t1)
        "dlqDeleteCount" t2) := fun t1 t2 =>
    ((((renders_updateText _ _).comp (renders_updateText _ _)).comp
      (renders_updateText _ _)).comp (renders_updateText _ _))
  cases dlqSummaryData with
  | value data =>
    cases herr : dlqSummaryError data with
    | false =>
      simp only [updateDlqSummary, herr, Bool.false_eq_true, if_false]
      exact hchain _ _
    | true =>
      simp only [updateDlqSummary, herr, if_true]
      exact hchain _ _
  | null =>
    simp only [updateDlqSummary]
    exact hchain _ _
  | errorTag message source =>
    simp only [updateDlqSummary]
    exact hchain _ _

theorem renders_overviewChain (t1 s1 t2 s2 t3 s3 t4 : String) :
    Renders overviewSlots (fun d => updateText (updateStatusIndicator (updateText
      (updateStatusIndicator (updateText (updateStatusIndicator (updateText d
        "indexerStatus" (some t1)) "indexerStatusIndicator" s1)
        "esConnectionStatus" (some t2)) "esConnectionIndicator" s2)
        "kafkaConnectionStatus" (some t3)) "kafkaConnectionIndicator" s3)
        "lastDataUpdate" (some t4)) :=
  (((((((renders_updateText _ _).comp (renders_updateStatusIndicator _ _)).comp
    (renders_updateText _ _)).comp (renders_updateStatusIndicator _ _)).comp
    (renders_updateText _ _)).comp (renders_updateStatusIndicator _ _)).comp
    (renders_updateText _ _))

theorem renders_updateServiceOverview (loc : Locale) (healthData esHealthData : Fetched HealthData)
    (kafkaLagData : Fetched LagData) :
    Renders overviewSlots
      (fun d => updateServiceOverview loc d healthData esHealthData kafkaLagData) := by
  have hform : ∃ t1 s1 t2 s2 t3 s3 : String,
      (fun d => updateServiceOverview loc d healthData esHealthData kafkaLagData) =
      (fun d => updateText (updateStatusIndicator (updateText
      (updateStatusIndicator (updateText (updateStatusIndicator (updateText d
        "indexerStatus" (some t1)) "indexerStatusIndicator" s1)
        "esConnectionStatus" (some t2)) "esConnectionIndicator" s2)
        "kafkaConnectionStatus" (some t3)) "kafkaConnectionIndicator" s3)
        "lastDataUpdate" (some loc.nowTimeString)) := by
    have h1 : ∃ t1 s1 : String, ∀ d : Dom,
        (match (match healthData with
            | .value v => truthyText v.status
            | _ => none) with
          | some st =>
            updateStatusIndicator (updateText d "indexerStatus" (some st))
              "indexerStatusIndicator" st
          | none =>
            updateStatusIndicator (updateText d "indexerStatus" (some "获取失败"))
              "indexerStatusIndicator" "UNKNOWN") =
        updateStatusIndicator (updateText d "indexerStatus" (some t1))
          "indexerStatusIndicator" s1 := by
      cases hm : (match healthData with
            | .value v => truthyText v.status
            | _ => none) with
      | none => exact ⟨_, _, fun d => rfl⟩
      | some st => exact ⟨_, _, fun d => rfl⟩
    have h2 : ∃ t2 s2 : String, ∀ d : Dom,
        (match (match esHealthData with
            | .value v => truthyText v.status
            | _ => none) with
          | some st =>
            updateStatusIndicator (updateText d "esConnectionStatus" (some st))
              "esConnectionIndicator" st
          | none =>
            if (esHealthData.truthy && esHealthData.error HealthData.error) = true then
              updateStatusIndicator (updateText d "esConnectionStatus" (some "连接失败"))
                "esConnectionIndicator" "DOWN"
            else
              updateStatusIndicator (updateText d "esConnectionStatus" (some "未知"))
                "esConnectionIndicator" "UNKNOWN") =
        updateStatusIndicator (updateText d "esConnectionStatus" (some t2))
          "esConnectionIndicator" s2 := by
      cases hm : (match esHealthData with
            | .value v => truthyText v.status
            | _ => none) with
      | none =>
        by_cases hc : (esHealthData.truthy && esHealthData.error HealthData.error) = true
        · exact ⟨"连接失败", "DOWN", fun d => by rw [if_pos hc]⟩
        · exact ⟨"未知", "UNKNOWN", fun d => by rw [if_neg hc]⟩
      | some st => exact ⟨_, _, fun d => rfl⟩
    have h3 : ∃ t3 s3 : String, ∀ d : Dom,
        (if (kafkaLagData.truthy && !kafkaLagData.error lagDataError) = true then
          updateStatusIndicator (updateText d "kafkaConnectionStatus" (some "已连接"))
            "kafkaConnectionIndicator" "UP"
        else if (kafkaLagData.truthy && kafkaLagData.error lagDataError) = true then
          updateStatusIndicator (updateText d "kafkaConnectionStatus" (some "连接失败"))
            "kafkaConnectionIndicator" "DOWN"
        else
          updateStatusIndicator (updateText d "kafkaConnectionStatus" (some "未知"))
            "kafkaConnectionIndicator" "UNKNOWN") =
        updateStatusIndicator (updateText d "kafkaConnectionStatus" (some t3))
          "kafkaConnectionIndicator" s3 := by
      by_cases hc : (kafkaLagData.truthy && !kafkaLagData.error lagDataError) = true
      · exact ⟨"已连接", "UP", fun d => by rw [if_pos hc]⟩
      · by_cases hc2 : (kafkaLagData.truthy && kafkaLagData.error lagDataError) = true
        · exact ⟨"连接失败", "DOWN", fun d => by rw [if_neg hc, if_pos hc2]⟩
        · exact ⟨"未知", "UNKNOWN", fun d => by rw [if_neg hc, if_neg hc2]⟩
    obtain ⟨t1, s1, h1⟩ := h1
    obtain ⟨t2, s2, h2⟩ := h2
    obtain ⟨t3, s3, h3⟩ := h3
    refine ⟨t1, s1, t2, s2, t3, s3, ?_⟩
    funext d
    simp only [updateServiceOverview]
    rw [h1, h2, h3]
  obtain ⟨t1, s1, t2, s2, t3, s3, heq⟩ := hform
  rw [heq]
  exact renders_overviewChain _ _ _ _ _ _ _

theorem Renders.congr {slots : List String} {f : Dom → Dom} (h : Renders slots f)
    (d1 d2 : Dom) (k : String) (hk : d1 k = d2 k) : f d1 k = f d2 k := by
  obtain ⟨P, -, hf⟩ := h
  rw [hf d1 k, hf d2 k, hk]

theorem updateBatchJobHistory_frame (loc : Locale) (d : Dom)
    (jobExecutions : Fetched (List JobExecution)) (k : String)
    (h1 : k ≠ "batchJobHistoryContainer") (h2 : k ≠ "batchJobHistoryMessage") :
    (updateBatchJobHistory loc d jobExecutions).1 k = d k := by
  unfold updateBatchJobHistory
  split
  · split <;> simp [Dom.set, h1, h2]
  · rfl

theorem reconcile_dom_frame (loc : Locale) (a : App) (latestBatchJobs : Fetched (List JobExecution))
    (k : String) (hjob : k ∉ jobSlots)
    (h1 : k ≠ "batchJobHistoryContainer") (h2 : k ≠ "batchJobHistoryMessage") :
    (reconcileLatestJobs loc a latestBatchJobs).1.dom k = a.dom k := by
  have hdisp : ∀ (x : App) (arg : Fetched JobExecution), (displayJob loc x arg).dom k = x.dom k :=
    fun x arg => (renders_updateBatchJobStatusDisplay loc arg).frame x.dom k hjob
  have hhist : ∀ (x : App) (arg : Fetched (List JobExecution)),
      (renderHistory loc x arg).1.dom k = x.dom k :=
    fun x arg => updateBatchJobHistory_frame loc x.dom arg k h1 h2
  cases latestBatchJobs with
  | null =>
    simp only [reconcileLatestJobs]
    rw [hdisp, hhist]
  | value jobs =>
    cases jobs with
    | nil =>
      simp only [reconcileLatestJobs]
      split
      · rw [hdisp, hhist]
      · rw [hhist]
    | cons latest rest =>
      simp only [reconcileLatestJobs]
      split
      · split
        · show (displayJob loc (renderHistory loc a (.value (latest :: rest))).1
            (.value latest)).dom k = a.dom k
          rw [hdisp, hhist]
        · show (displayJob loc (renderHistory loc a (.value (latest :: rest))).1
            (.value latest)).dom k = a.dom k
          rw [hdisp, hhist]
      · rw [hhist]
  | errorTag message source =>
    simp only [reconcileLatestJobs]
    split
    · rw [hhist]
    · split <;> rw [hhist]

theorem finishCycle_dom_frame (loc : Locale) (a : App) (k : String) (hk : k ≠ "lastDataUpdate") :
    (finishCycle loc a).dom k = a.dom k := by
  unfold finishCycle
  split
  · split
    · show updateText a.dom "lastDataUpdate"
        (some (loc.nowTimeString ++ " (部分数据可能获取失败)")) k = a.dom k
      rw [updateText_apply_opt, if_neg hk]
    · rfl
  · rfl

theorem pollTrackedJob_dom (a : App) : (pollTrackedJob a).dom = a.dom := by
  unfold pollTrackedJob
  split
  · split <;> rfl
  · rfl

theorem esSlots_apart : ∀ k ∈ esSlots, k ∉ overviewSlots ∧ k ∉ kafkaSlots ∧ k ∉ dlqSlots ∧
    k ∉ jobSlots ∧ k ≠ "batchJobHistoryContainer" ∧ k ≠ "batchJobHistoryMessage" ∧
    k ≠ "lastDataUpdate" := by
  decide

/-- In a refresh cycle the slots of the index panel are those that
`updateElasticsearchIndexStats` renders from the settled index-stats value. -/
theorem fetchAllData_esSlots (loc : Locale) (a : App) (health esHealth : Outcome HealthData)
    (kafkaLag : Outcome LagData) (dlqSummary : Outcome DlqSummary)
    (latestJobs : Outcome (List JobExecution)) (esIndexStats : Outcome IndexStats)
    (htruthy : (settle ("ES索引 '" ++ ES_INDEX_NAME ++ "' 统计") esIndexStats :
      Fetched IndexStats).truthy = true)
    (k : String) (hk : k ∈ esSlots) :
    (fetchAllData loc a health esHealth kafkaLag dlqSummary latestJobs esIndexStats).dom k =
      (updateElasticsearchIndexStats a.dom
        (settle ("ES索引 '" ++ ES_INDEX_NAME ++ "' 统计") esIndexStats) ES_INDEX_NAME) k := by
  obtain ⟨ho, hkafka, hdlq, hjob, hc, hm, hl⟩ := esSlots_apart k hk
  have hpanels : (renderPanels loc
      { a with dom := updateText a.dom "lastDataUpdate" (some "加载中...") }
      health esHealth kafkaLag dlqSummary esIndexStats).dom k =
      (updateElasticsearchIndexStats a.dom
        (settle ("ES索引 '" ++ ES_INDEX_NAME ++ "' 统计") esIndexStats) ES_INDEX_NAME) k := by
    have hbefore : ∀ D : Dom, D k = a.dom k →
        (updateElasticsearchIndexStats D
          (settle ("ES索引 '" ++ ES_INDEX_NAME ++ "' 统计") esIndexStats) ES_INDEX_NAME) k =
        (updateElasticsearchIndexStats a.dom
          (settle ("ES索引 '" ++ ES_INDEX_NAME ++ "' 统计") esIndexStats) ES_INDEX_NAME) k :=
      fun D hD => (renders_updateElasticsearchIndexStats _ _).congr D a.dom k hD
    have h0 : (updateText a.dom "lastDataUpdate" (some "加载中...")) k = a.dom k := by
      rw [updateText_apply_opt, if_neg hl]
    have h1 : ∀ D : Dom, (updateServiceOverview loc D (settle "应用健康状况" health)
        (settle "ES集群健康" esHealth) (settle "Kafka消费者Lag" kafkaLag)) k = D k :=
      fun D => (renders_updateServiceOverview loc _ _ _).frame D k ho
    have h2 : ∀ D : Dom, (updateKafkaConsumerStats D (settle "Kafka消费者Lag" kafkaLag)
        TOPIC_NAMES) k = D k :=
      fun D => (renders_updateKafkaConsumerStats _ _).frame D k hkafka
    have h3 : ∀ D : Dom, (updateDlqSummary D (settle "Kafka DLQ摘要" dlqSummary)
        TOPIC_NAMES) k = D k :=
      fun D => (renders_updateDlqSummary _ _).frame D k hdlq
    cases hkt : (settle "Kafka消费者Lag" kafkaLag : Fetched LagData).truthy <;>
      cases hdt : (settle "Kafka DLQ摘要" dlqSummary : Fetched DlqSummary).truthy <;>
      simp only [renderPanels, htruthy, hkt, hdt, if_true, Bool.false_eq_true, if_false]
    · apply hbefore
      rw [h1, h0]
    · rw [h3]
      apply hbefore
      rw [h1, h0]
    · apply hbefore
      rw [h2, h1, h0]
    · rw [h3]
      apply hbefore
      rw [h2, h1, h0]
  have hrest : (fetchAllData loc a health esHealth kafkaLag dlqSummary latestJobs
      esIndexStats).dom k = (renderPanels loc
      { a with dom := updateText a.dom "lastDataUpdate" (some "加载中...") }
      health esHealth kafkaLag dlqSummary esIndexStats).dom k := by
    simp only [fetchAllData]
    rw [finishCycle_dom_frame _ _ _ hl]
    split
    · rw [pollTrackedJob_dom, reconcile_dom_frame _ _ _ _ hjob hc hm]
    · show (reconcileLatestJobs loc _ _).1.dom k = _
      rw [reconcile_dom_frame _ _ _ _ hjob hc hm]
  rw [hrest, hpanels]

/-- C15: for every error-tagged index-stats value `{error: true, message, source}`,
`updateElasticsearchIndexStats` shows the tagged message in the index status slot when it
is non-empty and the generic failure string otherwise, gives the indicator the severity
unknown, and shows the placeholder `-` in the doc-count, primary-size and total-size slots;
and a refresh cycle whose index-stats request is rejected renders the slots of the index
panel by this call on the value tagged by `handleApiError`, whatever the other requests
return. -/
theorem index_stats_failure_is_rendered (d : Dom) (message source indexName : String)
    (statusSlot indicator docs primarySize totalSize : Element)
    (h1 : d "esIndexStatus" = some statusSlot)
    (h2 : d "esIndexStatusIndicator" = some indicator)
    (h3 : d "esTotalDocs" = some docs)
    (h4 : d "esIndexSizePrimary" = some primarySize)
    (h5 : d "esIndexSizeTotal" = some totalSize) :
    (updateElasticsearchIndexStats d (.errorTag message source) indexName) "esIndexStatus" =
      some { statusSlot with textContent := if message ≠ "" then message else "获取失败" } ∧
    (updateElasticsearchIndexStats d (.errorTag message source) indexName)
        "esIndexStatusIndicator" =
      some { indicator with classList := ["status-indicator", "status-unknown"] } ∧
    (updateElasticsearchIndexStats d (.errorTag message source) indexName) "esTotalDocs" =
      some { docs with textContent := "-" } ∧
    (updateElasticsearchIndexStats d (.errorTag message source) indexName) "esIndexSizePrimary" =
      some { primarySize with textContent := "-" } ∧
    (updateElasticsearchIndexStats d (.errorTag message source) indexName) "esIndexSizeTotal" =
      some { totalSize with textContent := "-" } ∧
    ∀ (loc : Locale) (a : App) (health esHealth : Outcome HealthData) (kafkaLag : Outcome LagData)
      (dlqSummary : Outcome DlqSummary) (latestJobs : Outcome (List JobExecution))
      (error : String), ∀ k ∈ esSlots,
      (fetchAllData loc a health esHealth kafkaLag dlqSummary latestJobs
          (.rejected error)).dom k =
        (updateElasticsearchIndexStats a.dom
          (.errorTag (if error ≠ "" then error else "未知错误")
            ("ES索引 '" ++ ES_INDEX_NAME ++ "' 统计")) ES_INDEX_NAME) k := by
  have hunknown : classListAdd ["status-indicator"] (severityClass "UNKNOWN") =
      ["status-indicator", "status-unknown"] := by decide
  refine ⟨?_, ?_, ?_, ?_, ?_, ?_⟩
  · simp [updateElasticsearchIndexStats, showIndexStatsFailure, indexStatsErrorMsg,
      updateText_apply, updateStatusIndicator_apply, h1]
  · simp [updateElasticsearchIndexStats, showIndexStatsFailure, indexStatsErrorMsg,
      updateText_apply, updateStatusIndicator_apply, h2,
      hunknown]
  · simp [updateElasticsearchIndexStats, showIndexStatsFailure, indexStatsErrorMsg,
      updateText_apply, updateStatusIndicator_apply, h3]
  · simp [updateElasticsearchIndexStats, showIndexStatsFailure, indexStatsErrorMsg,
      updateText_apply, updateStatusIndicator_apply, h4]
  · simp [updateElasticsearchIndexStats, showIndexStatsFailure, indexStatsErrorMsg,
      updateText_apply, updateStatusIndicator_apply, h5]
  · intro loc a health esHealth kafkaLag dlqSummary latestJobs error k hk
    exact fetchAllData_esSlots loc a health esHealth kafkaLag dlqSummary latestJobs
      (.rejected error) rfl k hk

/-- Witness of C15: the tagged message `HTTP error 503: unavailable` is shown in the index
status slot. -/
theorem index_stats_failure_is_rendered_witness :
    (updateElasticsearchIndexStats samplePage
      (.errorTag "HTTP error 503: unavailable" "ES索引 'dms_files' 统计") "dms_files")
        "esIndexStatus" =
      some { textContent := "HTTP error 503: unavailable", classList := [], disabled := false,
             styleWidth := "", children := [] } :=
  (index_stats_failure_is_rendered samplePage "HTTP error 503: unavailable"
    "ES索引 'dms_files' 统计" "dms_files" ⟨"", [], false, "", []⟩ ⟨"", [], false, "", []⟩
    ⟨"", [], false, "", []⟩ ⟨"", [], false, "", []⟩ ⟨"", [], false, "", []⟩
    rfl rfl rfl rfl rfl).1.trans (by decide)

/-- C16: rendering is idempotent: for every page and every input (a job snapshot, an
error-tagged value or `null`), applying `updateBatchJobStatusDisplay` twice with the same
input yields the same page (slot texts, progress bar, disabled flag of the start control,
and every other element) as applying it once; the same holds for
`updateKafkaConsumerStats`, `updateElasticsearchIndexStats` and `updateDlqSummary`. -/
theorem rendering_is_idempotent (loc : Locale) (d : Dom) :
    (∀ jobExecutionData : Fetched JobExecution,
      updateBatchJobStatusDisplay loc (updateBatchJobStatusDisplay loc d jobExecutionData)
          jobExecutionData = updateBatchJobStatusDisplay loc d jobExecutionData) ∧
    (∀ (lagData : Fetched LagData) (topicNames : TopicNames),
      updateKafkaConsumerStats (updateKafkaConsumerStats d lagData topicNames) lagData topicNames =
        updateKafkaConsumerStats d lagData topicNames) ∧
    (∀ (indexStatsData : Fetched IndexStats) (indexName : String),
      updateElasticsearchIndexStats (updateElasticsearchIndexStats d indexStatsData indexName)
          indexStatsData indexName = updateElasticsearchIndexStats d indexStatsData indexName) ∧
    (∀ (dlqSummaryData : Fetched DlqSummary) (topicNames : TopicNames),
      updateDlqSummary (updateDlqSummary d dlqSummaryData topicNames) dlqSummaryData topicNames =
        updateDlqSummary d dlqSummaryData topicNames) :=
  ⟨fun arg => (renders_updateBatchJobStatusDisplay loc arg).idempotent d,
   fun lagData topicNames => (renders_updateKafkaConsumerStats lagData topicNames).idempotent d,
   fun stats indexName => (renders_updateElasticsearchIndexStats stats indexName).idempotent d,
   fun dlq topicNames => (renders_updateDlqSummary dlq topicNames).idempotent d⟩

/-- The reconciliation block only renders the history when a tracked id is not shown as
terminal by the list. -/
theorem reconcile_untouched (loc : Locale) (a : App) (j : JobId) (jobs : List JobExecution)
    (hcur : a.currentJobExecutionIdForPolling = some j) (hj : j.truthy = true)
    (hlist : ∀ job ∈ jobs, ¬ (job.jobExecutionId = j ∧ isTerminal job.status = true)) :
    reconcileLatestJobs loc a (.value jobs) = ((renderHistory loc a (.value jobs)).1, none) := by
  have hc : (renderHistory loc a (.value jobs)).1.currentJobExecutionIdForPolling = some j := hcur
  have hp : pollingIdTruthy (renderHistory loc a (.value jobs)).1 = true := by
    simp [pollingIdTruthy, hc, hj]
  have hfind : jobs.find? (fun job =>
      decide (some job.jobExecutionId = some j) && isTerminal job.status) = none := by
    rw [List.find?_eq_none]
    intro job hmem
    have := hlist job hmem
    simp only [Option.some.injEq, Bool.and_eq_true, decide_eq_true_eq]
    exact this
  cases jobs with
  | nil => simp only [reconcileLatestJobs, hp, Bool.not_true, Bool.false_eq_true, if_false]
  | cons latest rest =>
    have hshould : (!pollingIdTruthy (renderHistory loc a (.value (latest :: rest))).1 ||
        (pollingIdTruthy (renderHistory loc a (.value (latest :: rest))).1 &&
          ((latest :: rest).find? (fun job =>
            decide (some job.jobExecutionId =
              (renderHistory loc a (.value (latest :: rest))).1.currentJobExecutionIdForPolling) &&
            isTerminal job.status)).isSome)) = false := by
      rw [hp, hc, hfind]
      rfl
    simp only [reconcileLatestJobs, hshould, Bool.false_eq_true, if_false]

/-- C17: for every fresh job list that is an array (possibly empty) and every polling
state with a tracked job id that the list does not show with a terminal status (the id is
absent from the list, or present with a non-terminal status), the list-based step of
`fetchAllData` raises nothing, leaves the tracked job id unchanged and does not call
`updateBatchJobStatusDisplay`: it only renders the history, and the slots of the job
display keep their content. -/
theorem reconciliation_frame (loc : Locale) (a : App) (j : JobId) (jobs : List JobExecution)
    (hcur : a.currentJobExecutionIdForPolling = some j) (hj : j.truthy = true)
    (hlist : ∀ job ∈ jobs, ¬ (job.jobExecutionId = j ∧
      (job.status = "COMPLETED" ∨ job.status = "FAILED" ∨ job.status = "STOPPED"))) :
    (reconcileLatestJobs loc a (.value jobs)).2 = none ∧
    (reconcileLatestJobs loc a (.value jobs)).1.currentJobExecutionIdForPolling = some j ∧
    newLog a (reconcileLatestJobs loc a (.value jobs)).1 =
      [Effect.historyRendered (.value jobs)] ∧
    (∀ jobExecutionData : Fetched JobExecution,
      Effect.jobDisplayed jobExecutionData ∉ newLog a (reconcileLatestJobs loc a (.value jobs)).1) ∧
    (∀ k ∈ jobSlots, (reconcileLatestJobs loc a (.value jobs)).1.dom k = a.dom k) := by
  have hrec := reconcile_untouched loc a j jobs hcur hj
    (fun job hmem hbad => hlist job hmem ⟨hbad.1, (isTerminal_iff _).1 hbad.2⟩)
  have hlog : newLog a (reconcileLatestJobs loc a (.value jobs)).1 =
      [Effect.historyRendered (.value jobs)] := by
    rw [hrec]
    exact newLog_append _ _ _ rfl
  refine ⟨?_, ?_, hlog, ?_, ?_⟩
  · rw [hrec]
  · rw [hrec]
    exact hcur
  · intro arg harg
    rw [hlog] at harg
    simp at harg
  · intro k hk
    rw [hrec]
    have hne : k ≠ "batchJobHistoryContainer" ∧ k ≠ "batchJobHistoryMessage" := by
      revert k
      decide
    exact updateBatchJobHistory_frame loc a.dom (.value jobs) k hne.1 hne.2

/-- Witness of C17: job 7 is tracked and the list shows it as STARTED below a COMPLETED
job 8: job 7 stays tracked and only the history is rendered. -/
theorem reconciliation_frame_witness :
    (reconcileLatestJobs sampleLocale
      { App.initial samplePage with currentJobExecutionIdForPolling := some (.num 7) }
      (.value [sampleJob (.num 8) "COMPLETED" 9 9 0 0,
        sampleJob (.num 7) "STARTED" 50 20 0 0])).1.currentJobExecutionIdForPolling =
      some (.num 7) ∧
    newLog { App.initial samplePage with currentJobExecutionIdForPolling := some (.num 7) }
      (reconcileLatestJobs sampleLocale
        { App.initial samplePage with currentJobExecutionIdForPolling := some (.num 7) }
        (.value [sampleJob (.num 8) "COMPLETED" 9 9 0 0,
          sampleJob (.num 7) "STARTED" 50 20 0 0])).1 =
      [Effect.historyRendered (.value [sampleJob (.num 8) "COMPLETED" 9 9 0 0,
        sampleJob (.num 7) "STARTED" 50 20 0 0])] :=
  have h := reconciliation_frame sampleLocale
    { App.initial samplePage with currentJobExecutionIdForPolling := some (.num 7) } (.num 7)
    [sampleJob (.num 8) "COMPLETED" 9 9 0 0, sampleJob (.num 7) "STARTED" 50 20 0 0] rfl rfl
    (fun job hmem => by
      simp only [List.mem_cons, List.mem_singleton, List.not_mem_nil, or_false] at hmem
      rcases hmem with rfl | rfl <;> decide)
  ⟨h.2.1, h.2.2.1⟩

end EIS
